import Mathlib

/-!
# uni-bluetooth: a shallow embedding of `src/js_sdk/blue.js` and `eventList.js`

The class `BluetoothUtil` is embedded function by function.  JavaScript values
are given the types the code relies on; where the code inspects the dynamic
type of a value (`typeof`, `instanceof`, truthiness) the embedding has one
constructor per case the code distinguishes.  The class `EventList` is embedded
as a state machine, in the namespace `EventList`.
-/

set_option autoImplicit false

namespace BluetoothUtil

/-! ## Values -/

/-- Errors travelling through `reject` and `throw`. -/
inductive JSError where
  /-- an object literal built by the library: `{errCode: '-94', errMsg: ...}` -/
  | coded (errCode : String) (errMsg : Option String)
  /-- the `err` object the host API hands to a `fail` callback -/
  | gateway (errCode : Int) (errMsg : String)
  /-- a `ReferenceError` raised by the engine for the identifier `ident` -/
  | referenceError (ident : String)
  /-- a `TypeError` raised by the engine while evaluating `expr` -/
  | typeError (expr : String)
  /-- a value thrown by code the caller supplied (a callback), named by `source` -/
  | thrown (source : String)
  deriving DecidableEq, Repr

/-- The table `errorMsg`, restricted to the codes the library itself raises. -/
def errorMsg (code : String) : Option String :=
  if code = "-99" then some "请打开蓝牙或GPS定位"
  else if code = "-98" then some "设备ID错误"
  else if code = "-97" then some "扫描设备超时"
  else if code = "-96" then some "未找到设备"
  else if code = "-95" then some "未匹配到设备服务"
  else if code = "-94" then some "未匹配到服务特征"
  else none

/-- A value used as a match policy (`matchFn`, `matchUUID`, `matchServices`, ...).
`absent` stands for `undefined`, `null` and the other falsy non-string values;
`other` stands for a truthy value that is neither a function, a `RegExp` nor a
string (for instance a plain object).  Predicates and patterns are taken to be
pure. -/
inductive MatchPolicy where
  | absent
  | str (s : String)
  | regExp (test : String → Bool)
  | fn (f : String → Bool)
  | other

/-- JavaScript truthiness of a policy value. -/
def MatchPolicy.truthy : MatchPolicy → Bool
  | .absent => false
  | .str s => s ≠ ""
  | .regExp _ => true
  | .fn _ => true
  | .other => true

/-- The expression `a || b` on policy values. -/
def MatchPolicy.orElse (a b : MatchPolicy) : MatchPolicy :=
  if a.truthy then a else b

/-- The static field `servicesConfig`. -/
structure ServicesConfig where
  services : MatchPolicy
  characteristics : MatchPolicy

/-- The initial value of `servicesConfig`: both fields are `''`. -/
def ServicesConfig.default : ServicesConfig :=
  { services := .str "", characteristics := .str "" }

/-- The capability flags `properties` of a characteristic, by truthiness. -/
structure Properties where
  write : Bool
  read : Bool
  notify : Bool
  deriving DecidableEq, Repr

/-- One entry of `characteristics`; `uuid` is the value under `uuidKey`. -/
structure Characteristic where
  uuid : String
  properties : Properties
  deriving DecidableEq, Repr

/-- The object `matchRes` of `matchCharacteristics`. -/
structure MatchRes where
  write : String
  read : String
  notify : String
  uuid : String
  deriving DecidableEq, Repr

/-- The enumeration `MatchType`. -/
inductive MatchType where
  | write
  | notify
  | read
  | uuid
  deriving DecidableEq, Repr

/-- The property access `res[matchType]`. -/
def MatchRes.get (r : MatchRes) : MatchType → String
  | .write => r.write
  | .notify => r.notify
  | .read => r.read
  | .uuid => r.uuid

/-- The result of `getBLEDeviceCharacteristics`, stored under `getCharacteristics`. -/
structure CharacteristicsRes where
  characteristics : List Characteristic
  deriving DecidableEq, Repr

/-- A discovered service with its characteristics attached. -/
structure Service where
  uuid : String
  getCharacteristics : CharacteristicsRes
  deriving DecidableEq, Repr

/-! ## Characteristic matcher -/

/-- `matchStr(str, matchFn)`. -/
def matchStr (str : String) (matchFn : MatchPolicy) : Bool :=
  if !matchFn.truthy then true
  else
    match matchFn with
    | .fn f => f str
    | .regExp test => test str
    | .str s => s == str
    | _ => false

/-- The closure `matchFn` inside `matchCharacteristics`. -/
def matchCharacteristics.matchFn (servicesConfig : ServicesConfig) (matchUUID : MatchPolicy)
    (uuid : String) : Bool :=
  let matchuuid := matchUUID.orElse servicesConfig.characteristics
  if !matchuuid.truthy then false
  else matchStr uuid matchuuid

/-- The `for` loop of `matchCharacteristics`, from the current element on, with
the current `matchRes`. -/
def matchCharacteristics.loop (servicesConfig : ServicesConfig) (matchUUID : MatchPolicy) :
    List Characteristic → MatchRes → MatchRes
  | [], matchRes => matchRes
  | c :: rest, matchRes =>
    let properties := c.properties
    let uuid := c.uuid
    if matchCharacteristics.matchFn servicesConfig matchUUID uuid then
      { matchRes with uuid := uuid }
    else
      let matchRes :=
        if matchRes.write = "" ∧ properties.write = true then { matchRes with write := uuid }
        else matchRes
      let matchRes :=
        if matchRes.read = "" ∧ properties.read = true then { matchRes with read := uuid }
        else matchRes
      let matchRes :=
        if matchRes.notify = "" ∧ properties.notify = true then { matchRes with notify := uuid }
        else matchRes
      matchCharacteristics.loop servicesConfig matchUUID rest matchRes

/-- `matchCharacteristics(characteristics, matchUUID)`. -/
def matchCharacteristics (servicesConfig : ServicesConfig)
    (characteristics : List Characteristic) (matchUUID : MatchPolicy) : MatchRes :=
  matchCharacteristics.loop servicesConfig matchUUID characteristics
    { write := "", read := "", notify := "", uuid := "" }

/-- The argument object of `matchServicesCharacteristics`. -/
structure MatchServicesOption where
  matchType : Option MatchType
  uuid : MatchPolicy
  services : List Service

/-- The value returned by `matchServicesCharacteristics`. -/
structure MatchServicesRes where
  characteristics : String
  services : String
  deriving DecidableEq, Repr

/-- The error thrown by `matchServicesCharacteristics`. -/
def errCharacteristicMatchFailed : JSError :=
  .coded "-94" (some "未匹配到服务特征")

/-- The `for` loop of `matchServicesCharacteristics`. -/
def matchServicesCharacteristics.loop (servicesConfig : ServicesConfig) (matchType : MatchType)
    (uuid : MatchPolicy) : List Service → Except JSError MatchServicesRes
  | [] => .error errCharacteristicMatchFailed
  | s :: rest =>
    let characteristics := s.getCharacteristics.characteristics
    let res := matchCharacteristics servicesConfig characteristics
      (if matchType = .uuid then uuid else .absent)
    if res.get matchType ≠ "" then
      .ok { characteristics := res.get matchType, services := s.uuid }
    else matchServicesCharacteristics.loop servicesConfig matchType uuid rest

/-- `matchServicesCharacteristics(option)`. -/
def matchServicesCharacteristics (servicesConfig : ServicesConfig)
    (option : MatchServicesOption) : Except JSError MatchServicesRes :=
  match option.matchType with
  | none => .error errCharacteristicMatchFailed
  | some matchType =>
    if option.services.length = 0 then .error errCharacteristicMatchFailed
    else matchServicesCharacteristics.loop servicesConfig matchType option.uuid option.services

/-! ## Strings and byte buffers -/

/-- An element of a `Uint8Array`. -/
abbrev Byte := Fin 256

/-- `slice(start, stop)` of an `ArrayBuffer` or array, for non-negative arguments:
both ends are clamped to the length. -/
def slice {α : Type} (l : List α) (start stop : Nat) : List α :=
  (l.take stop).drop start

/-- `x.toString(16)` for a non-negative integer. -/
def toString16 (x : Nat) : String :=
  String.mk (Nat.toDigits 16 x)

/-- `s.slice(-n)`: the last `n` characters of `s`. -/
def sliceLast (s : String) (n : Nat) : String :=
  String.mk (s.data.drop (s.data.length - n))

/-- `parts.join(sep)`. -/
def join : List String → String → String
  | [], _ => ""
  | [a], _ => a
  | a :: b :: rest, sep => a ++ sep ++ join (b :: rest) sep

/-- The simple uppercase mappings of Unicode 14.0 (`UnicodeData.txt`) from U+00B5 on,
in runs `(first, last, step, upper)`: the code points `first`, `first + step`, ...,
`last` have the uppercase forms `upper`, `upper + step`, ... -/
def upperRuns : List (Nat × Nat × Nat × Nat) :=
  [(0xB5, 0xB5, 1, 0x39C), (0xE0, 0xF6, 1, 0xC0), (0xF8, 0xFE, 1, 0xD8), (0xFF, 0xFF, 1, 0x178),
   (0x101, 0x12F, 2, 0x100), (0x131, 0x131, 1, 0x49), (0x133, 0x137, 2, 0x132),
   (0x13A, 0x148, 2, 0x139), (0x14B, 0x177, 2, 0x14A), (0x17A, 0x17E, 2, 0x179),
   (0x17F, 0x17F, 1, 0x53), (0x180, 0x180, 1, 0x243), (0x183, 0x185, 2, 0x182),
   (0x188, 0x188, 1, 0x187), (0x18C, 0x18C, 1, 0x18B), (0x192, 0x192, 1, 0x191),
   (0x195, 0x195, 1, 0x1F6), (0x199, 0x199, 1, 0x198), (0x19A, 0x19A, 1, 0x23D),
   (0x19E, 0x19E, 1, 0x220), (0x1A1, 0x1A5, 2, 0x1A0), (0x1A8, 0x1A8, 1, 0x1A7),
   (0x1AD, 0x1AD, 1, 0x1AC), (0x1B0, 0x1B0, 1, 0x1AF), (0x1B4, 0x1B6, 2, 0x1B3),
   (0x1B9, 0x1B9, 1, 0x1B8), (0x1BD, 0x1BD, 1, 0x1BC), (0x1BF, 0x1BF, 1, 0x1F7),
   (0x1C5, 0x1C5, 1, 0x1C4), (0x1C6, 0x1C6, 1, 0x1C4), (0x1C8, 0x1C8, 1, 0x1C7),
   (0x1C9, 0x1C9, 1, 0x1C7), (0x1CB, 0x1CB, 1, 0x1CA), (0x1CC, 0x1CC, 1, 0x1CA),
   (0x1CE, 0x1DC, 2, 0x1CD), (0x1DD, 0x1DD, 1, 0x18E), (0x1DF, 0x1EF, 2, 0x1DE),
   (0x1F2, 0x1F2, 1, 0x1F1), (0x1F3, 0x1F3, 1, 0x1F1), (0x1F5, 0x1F5, 1, 0x1F4),
   (0x1F9, 0x21F, 2, 0x1F8), (0x223, 0x233, 2, 0x222), (0x23C, 0x23C, 1, 0x23B),
   (0x23F, 0x240, 1, 0x2C7E), (0x242, 0x242, 1, 0x241), (0x247, 0x24F, 2, 0x246),
   (0x250, 0x250, 1, 0x2C6F), (0x251, 0x251, 1, 0x2C6D), (0x252, 0x252, 1, 0x2C70),
   (0x253, 0x253, 1, 0x181), (0x254, 0x254, 1, 0x186), (0x256, 0x257, 1, 0x189),
   (0x259, 0x259, 1, 0x18F), (0x25B, 0x25B, 1, 0x190), (0x25C, 0x25C, 1, 0xA7AB),
   (0x260, 0x260, 1, 0x193), (0x261, 0x261, 1, 0xA7AC), (0x263, 0x263, 1, 0x194),
   (0x265, 0x265, 1, 0xA78D), (0x266, 0x266, 1, 0xA7AA), (0x268, 0x268, 1, 0x197),
   (0x269, 0x269, 1, 0x196), (0x26A, 0x26A, 1, 0xA7AE), (0x26B, 0x26B, 1, 0x2C62),
   (0x26C, 0x26C, 1, 0xA7AD), (0x26F, 0x26F, 1, 0x19C), (0x271, 0x271, 1, 0x2C6E),
   (0x272, 0x272, 1, 0x19D), (0x275, 0x275, 1, 0x19F), (0x27D, 0x27D, 1, 0x2C64),
   (0x280, 0x280, 1, 0x1A6), (0x282, 0x282, 1, 0xA7C5), (0x283, 0x283, 1, 0x1A9),
   (0x287, 0x287, 1, 0xA7B1), (0x288, 0x288, 1, 0x1AE), (0x289, 0x289, 1, 0x244),
   (0x28A, 0x28B, 1, 0x1B1), (0x28C, 0x28C, 1, 0x245), (0x292, 0x292, 1, 0x1B7),
   (0x29D, 0x29D, 1, 0xA7B2), (0x29E, 0x29E, 1, 0xA7B0), (0x345, 0x345, 1, 0x399),
   (0x371, 0x373, 2, 0x370), (0x377, 0x377, 1, 0x376), (0x37B, 0x37D, 1, 0x3FD),
   (0x3AC, 0x3AC, 1, 0x386), (0x3AD, 0x3AF, 1, 0x388), (0x3B1, 0x3C1, 1, 0x391),
   (0x3C2, 0x3C2, 1, 0x3A3), (0x3C3, 0x3CB, 1, 0x3A3), (0x3CC, 0x3CC, 1, 0x38C),
   (0x3CD, 0x3CE, 1, 0x38E), (0x3D0, 0x3D0, 1, 0x392), (0x3D1, 0x3D1, 1, 0x398),
   (0x3D5, 0x3D5, 1, 0x3A6), (0x3D6, 0x3D6, 1, 0x3A0), (0x3D7, 0x3D7, 1, 0x3CF),
   (0x3D9, 0x3EF, 2, 0x3D8), (0x3F0, 0x3F0, 1, 0x39A), (0x3F1, 0x3F1, 1, 0x3A1),
   (0x3F2, 0x3F2, 1, 0x3F9), (0x3F3, 0x3F3, 1, 0x37F), (0x3F5, 0x3F5, 1, 0x395),
   (0x3F8, 0x3F8, 1, 0x3F7), (0x3FB, 0x3FB, 1, 0x3FA), (0x430, 0x44F, 1, 0x410),
   (0x450, 0x45F, 1, 0x400), (0x461, 0x481, 2, 0x460), (0x48B, 0x4BF, 2, 0x48A),
   (0x4C2, 0x4CE, 2, 0x4C1), (0x4CF, 0x4CF, 1, 0x4C0), (0x4D1, 0x52F, 2, 0x4D0),
   (0x561, 0x586, 1, 0x531), (0x10D0, 0x10FA, 1, 0x1C90), (0x10FD, 0x10FF, 1, 0x1CBD),
   (0x13F8, 0x13FD, 1, 0x13F0), (0x1C80, 0x1C80, 1, 0x412), (0x1C81, 0x1C81, 1, 0x414),
   (0x1C82, 0x1C82, 1, 0x41E), (0x1C83, 0x1C84, 1, 0x421), (0x1C85, 0x1C85, 1, 0x422),
   (0x1C86, 0x1C86, 1, 0x42A), (0x1C87, 0x1C87, 1, 0x462), (0x1C88, 0x1C88, 1, 0xA64A),
   (0x1D79, 0x1D79, 1, 0xA77D), (0x1D7D, 0x1D7D, 1, 0x2C63), (0x1D8E, 0x1D8E, 1, 0xA7C6),
   (0x1E01, 0x1E95, 2, 0x1E00), (0x1E9B, 0x1E9B, 1, 0x1E60), (0x1EA1, 0x1EFF, 2, 0x1EA0),
   (0x1F00, 0x1F07, 1, 0x1F08), (0x1F10, 0x1F15, 1, 0x1F18), (0x1F20, 0x1F27, 1, 0x1F28),
   (0x1F30, 0x1F37, 1, 0x1F38), (0x1F40, 0x1F45, 1, 0x1F48), (0x1F51, 0x1F57, 2, 0x1F59),
   (0x1F60, 0x1F67, 1, 0x1F68), (0x1F70, 0x1F71, 1, 0x1FBA), (0x1F72, 0x1F75, 1, 0x1FC8),
   (0x1F76, 0x1F77, 1, 0x1FDA), (0x1F78, 0x1F79, 1, 0x1FF8), (0x1F7A, 0x1F7B, 1, 0x1FEA),
   (0x1F7C, 0x1F7D, 1, 0x1FFA), (0x1FB0, 0x1FB1, 1, 0x1FB8), (0x1FBE, 0x1FBE, 1, 0x399),
   (0x1FD0, 0x1FD1, 1, 0x1FD8), (0x1FE0, 0x1FE1, 1, 0x1FE8), (0x1FE5, 0x1FE5, 1, 0x1FEC),
   (0x214E, 0x214E, 1, 0x2132), (0x2170, 0x217F, 1, 0x2160), (0x2184, 0x2184, 1, 0x2183),
   (0x24D0, 0x24E9, 1, 0x24B6), (0x2C30, 0x2C5F, 1, 0x2C00), (0x2C61, 0x2C61, 1, 0x2C60),
   (0x2C65, 0x2C65, 1, 0x23A), (0x2C66, 0x2C66, 1, 0x23E), (0x2C68, 0x2C6C, 2, 0x2C67),
   (0x2C73, 0x2C73, 1, 0x2C72), (0x2C76, 0x2C76, 1, 0x2C75), (0x2C81, 0x2CE3, 2, 0x2C80),
   (0x2CEC, 0x2CEE, 2, 0x2CEB), (0x2CF3, 0x2CF3, 1, 0x2CF2), (0x2D00, 0x2D25, 1, 0x10A0),
   (0x2D27, 0x2D27, 1, 0x10C7), (0x2D2D, 0x2D2D, 1, 0x10CD), (0xA641, 0xA66D, 2, 0xA640),
   (0xA681, 0xA69B, 2, 0xA680), (0xA723, 0xA72F, 2, 0xA722), (0xA733, 0xA76F, 2, 0xA732),
   (0xA77A, 0xA77C, 2, 0xA779), (0xA77F, 0xA787, 2, 0xA77E), (0xA78C, 0xA78C, 1, 0xA78B),
   (0xA791, 0xA793, 2, 0xA790), (0xA794, 0xA794, 1, 0xA7C4), (0xA797, 0xA7A9, 2, 0xA796),
   (0xA7B5, 0xA7C3, 2, 0xA7B4), (0xA7C8, 0xA7CA, 2, 0xA7C7), (0xA7D1, 0xA7D1, 1, 0xA7D0),
   (0xA7D7, 0xA7D9, 2, 0xA7D6), (0xA7F6, 0xA7F6, 1, 0xA7F5), (0xAB53, 0xAB53, 1, 0xA7B3),
   (0xAB70, 0xABBF, 1, 0x13A0), (0xFF41, 0xFF5A, 1, 0xFF21), (0x10428, 0x1044F, 1, 0x10400),
   (0x104D8, 0x104FB, 1, 0x104B0), (0x10597, 0x105BB, 2, 0x10570),
   (0x10598, 0x105A0, 2, 0x10571), (0x105A4, 0x105B0, 2, 0x1057D),
   (0x105B4, 0x105B8, 2, 0x1058D), (0x105BC, 0x105BC, 1, 0x10595),
   (0x10CC0, 0x10CF2, 1, 0x10C80), (0x118C0, 0x118DF, 1, 0x118A0),
   (0x16E60, 0x16E7F, 1, 0x16E40), (0x1E922, 0x1E943, 1, 0x1E900)]

/-- The code points whose uppercase form has several code points (the
unconditional entries of `SpecialCasing.txt`, Unicode 14.0), with that form. -/
def upperSpecial : List (Nat × List Nat) :=
  [(0xDF, [0x53, 0x53]), (0x149, [0x2BC, 0x4E]), (0x1F0, [0x4A, 0x30C]),
   (0x390, [0x399, 0x308, 0x301]), (0x3B0, [0x3A5, 0x308, 0x301]), (0x587, [0x535, 0x552]),
   (0x1E96, [0x48, 0x331]), (0x1E97, [0x54, 0x308]), (0x1E98, [0x57, 0x30A]),
   (0x1E99, [0x59, 0x30A]), (0x1E9A, [0x41, 0x2BE]), (0x1F50, [0x3A5, 0x313]),
   (0x1F52, [0x3A5, 0x313, 0x300]), (0x1F54, [0x3A5, 0x313, 0x301]),
   (0x1F56, [0x3A5, 0x313, 0x342]), (0x1F80, [0x1F08, 0x399]), (0x1F81, [0x1F09, 0x399]),
   (0x1F82, [0x1F0A, 0x399]), (0x1F83, [0x1F0B, 0x399]), (0x1F84, [0x1F0C, 0x399]),
   (0x1F85, [0x1F0D, 0x399]), (0x1F86, [0x1F0E, 0x399]), (0x1F87, [0x1F0F, 0x399]),
   (0x1F88, [0x1F08, 0x399]), (0x1F89, [0x1F09, 0x399]), (0x1F8A, [0x1F0A, 0x399]),
   (0x1F8B, [0x1F0B, 0x399]), (0x1F8C, [0x1F0C, 0x399]), (0x1F8D, [0x1F0D, 0x399]),
   (0x1F8E, [0x1F0E, 0x399]), (0x1F8F, [0x1F0F, 0x399]), (0x1F90, [0x1F28, 0x399]),
   (0x1F91, [0x1F29, 0x399]), (0x1F92, [0x1F2A, 0x399]), (0x1F93, [0x1F2B, 0x399]),
   (0x1F94, [0x1F2C, 0x399]), (0x1F95, [0x1F2D, 0x399]), (0x1F96, [0x1F2E, 0x399]),
   (0x1F97, [0x1F2F, 0x399]), (0x1F98, [0x1F28, 0x399]), (0x1F99, [0x1F29, 0x399]),
   (0x1F9A, [0x1F2A, 0x399]), (0x1F9B, [0x1F2B, 0x399]), (0x1F9C, [0x1F2C, 0x399]),
   (0x1F9D, [0x1F2D, 0x399]), (0x1F9E, [0x1F2E, 0x399]), (0x1F9F, [0x1F2F, 0x399]),
   (0x1FA0, [0x1F68, 0x399]), (0x1FA1, [0x1F69, 0x399]), (0x1FA2, [0x1F6A, 0x399]),
   (0x1FA3, [0x1F6B, 0x399]), (0x1FA4, [0x1F6C, 0x399]), (0x1FA5, [0x1F6D, 0x399]),
   (0x1FA6, [0x1F6E, 0x399]), (0x1FA7, [0x1F6F, 0x399]), (0x1FA8, [0x1F68, 0x399]),
   (0x1FA9, [0x1F69, 0x399]), (0x1FAA, [0x1F6A, 0x399]), (0x1FAB, [0x1F6B, 0x399]),
   (0x1FAC, [0x1F6C, 0x399]), (0x1FAD, [0x1F6D, 0x399]), (0x1FAE, [0x1F6E, 0x399]),
   (0x1FAF, [0x1F6F, 0x399]), (0x1FB2, [0x1FBA, 0x399]), (0x1FB3, [0x391, 0x399]),
   (0x1FB4, [0x386, 0x399]), (0x1FB6, [0x391, 0x342]), (0x1FB7, [0x391, 0x342, 0x399]),
   (0x1FBC, [0x391, 0x399]), (0x1FC2, [0x1FCA, 0x399]), (0x1FC3, [0x397, 0x399]),
   (0x1FC4, [0x389, 0x399]), (0x1FC6, [0x397, 0x342]), (0x1FC7, [0x397, 0x342, 0x399]),
   (0x1FCC, [0x397, 0x399]), (0x1FD2, [0x399, 0x308, 0x300]), (0x1FD3, [0x399, 0x308, 0x301]),
   (0x1FD6, [0x399, 0x342]), (0x1FD7, [0x399, 0x308, 0x342]), (0x1FE2, [0x3A5, 0x308, 0x300]),
   (0x1FE3, [0x3A5, 0x308, 0x301]), (0x1FE4, [0x3A1, 0x313]), (0x1FE6, [0x3A5, 0x342]),
   (0x1FE7, [0x3A5, 0x308, 0x342]), (0x1FF2, [0x1FFA, 0x399]), (0x1FF3, [0x3A9, 0x399]),
   (0x1FF4, [0x38F, 0x399]), (0x1FF6, [0x3A9, 0x342]), (0x1FF7, [0x3A9, 0x342, 0x399]),
   (0x1FFC, [0x3A9, 0x399]), (0xFB00, [0x46, 0x46]), (0xFB01, [0x46, 0x49]),
   (0xFB02, [0x46, 0x4C]), (0xFB03, [0x46, 0x46, 0x49]), (0xFB04, [0x46, 0x46, 0x4C]),
   (0xFB05, [0x53, 0x54]), (0xFB06, [0x53, 0x54]), (0xFB13, [0x544, 0x546]),
   (0xFB14, [0x544, 0x535]), (0xFB15, [0x544, 0x53B]), (0xFB16, [0x54E, 0x546]),
   (0xFB17, [0x544, 0x53D])]

/-- The uppercase form of one code point, by the Unicode Default Case Conversion
(`toUppercase`): below U+00B5 only the letters `a` to `z` change. -/
def codePointUpper (c : Char) : List Char :=
  if c.toNat < 0xB5 then [c.toUpper]
  else
    match upperSpecial.lookup c.toNat with
    | some form => form.map Char.ofNat
    | none =>
      match upperRuns.find? fun (first, last, step, _) =>
          decide (first ≤ c.toNat ∧ c.toNat ≤ last ∧ (c.toNat - first) % step = 0) with
      | some (first, _, _, upper) => [Char.ofNat (upper + (c.toNat - first))]
      | none => [c]

/-- `s.toUpperCase()`: every code point is replaced by its uppercase form.  Strings
are sequences of code points; a lone surrogate, which JavaScript leaves as it is,
cannot occur in them. -/
def toUpperCase (s : String) : String :=
  String.mk (s.data.flatMap codePointUpper)

/-- The mapping `x => ('00' + x.toString(16)).slice(-2)` used by `parseMac` and `buf2hex`. -/
def hexPair (x : Byte) : String :=
  sliceLast ("00" ++ toString16 x.val) 2

/-! ## Advertised devices -/

/-- The property `advertisData` of a discovered device, by the cases `parseMac`
tells apart: `missing` is `undefined`, `null` or another falsy value; `buffer` is
an `ArrayBuffer` (or a `Uint8Array`) with the given bytes; `unsliceable` is a
truthy value that has no callable `slice` (a number, `true`, a plain object). -/
inductive AdvertisData where
  | missing
  | buffer (bytes : List Byte)
  | unsliceable
  deriving DecidableEq, Repr

/-- A device object as delivered by discovery; a `none` field is an absent one. -/
structure Device where
  deviceId : Option String
  name : Option String
  localName : Option String
  advertisData : AdvertisData
  deriving DecidableEq, Repr

/-- The `try` block of `parseMac`; the argument is `none` when `devices` is
`undefined` or `null`. -/
def parseMac.body (devices : Option Device) : Except JSError String :=
  match devices with
  | none => .error (.typeError "devices.advertisData")
  | some d =>
    match d.advertisData with
    | .missing => .ok ""
    | .unsliceable => .error (.typeError "devices.advertisData.slice")
    | .buffer bytes =>
      let buff := slice bytes 2 8
      let arrayBuff := join (buff.map hexPair) ":"
      let arrayMac := toUpperCase arrayBuff
      .ok arrayMac

/-- `parseMac(devices)`: the `try` block, with the `catch` clause returning `''`. -/
def parseMac (devices : Option Device) : String :=
  match parseMac.body devices with
  | .ok arrayMac => arrayMac
  | .error _ => ""

/-- The expression `devices?.field?.toUpperCase() || ''`. -/
def upperOrEmpty (field : Option String) : String :=
  match field with
  | some s => toUpperCase s
  | none => ""

/-- `matchDevice(devices, deviceId)` for a string `deviceId`. -/
def matchDevice (devices : Option Device) (deviceId : String) : Bool :=
  let arrayMac := parseMac devices
  let localName := upperOrEmpty (devices.bind (fun d => d.localName))
  let name := upperOrEmpty (devices.bind (fun d => d.name))
  let id := upperOrEmpty (devices.bind (fun d => d.deviceId))
  decide (toUpperCase deviceId ∈ [arrayMac, localName, name, id])

/-- The object returned by `formatDevice`. -/
structure ScanResult where
  id : String
  mac : String
  device : Device
  deriving DecidableEq, Repr

/-- `formatDevice(devices, deviceId)`. -/
def formatDevice (devices : Device) (deviceId : String) : ScanResult :=
  { id := deviceId, mac := parseMac (some devices), device := devices }

/-! ## Promises, the host gateway and the registry

An asynchronous function is embedded as a function from the world before the call
to the outcome of its promise and the world after it.  A call runs to completion:
host events (`onBLEConnectionStateChange`, ...) that arrive between two of its
`await`s are transitions of their own and are not interleaved with it. -/

/-- The state in which an awaited promise ends up; `pending` is a promise that
is never settled. -/
inductive Outcome (α : Type) where
  | resolved (value : α)
  | rejected (reason : JSError)
  | pending
  deriving DecidableEq, Repr

/-- The `res` object handed to a `success` callback, for the requests whose
result the library passes on without reading it. -/
structure GatewayRes where
  errMsg : String
  deriving DecidableEq, Repr

/-- The `err` object handed to a `fail` callback. -/
structure GatewayErr where
  errCode : Int
  errMsg : String
  deriving DecidableEq, Repr

/-- The value `reject(err)` passes on for a host error. -/
def GatewayErr.toError (err : GatewayErr) : JSError :=
  .gateway err.errCode err.errMsg

/-- What the host does with one request: it calls `success`, it calls `fail`, or
it calls neither. -/
inductive Reply (α : Type) where
  | success (res : α)
  | fail (err : GatewayErr)
  | silent
  deriving DecidableEq, Repr

/-- The promise wrapper `success(res) { resolve(res) }, fail(err) { reject(err) }`. -/
def Reply.toOutcome {α : Type} : Reply α → Outcome α
  | .success res => .resolved res
  | .fail err => .rejected err.toError
  | .silent => .pending

/-- The requests the library sends to the host (`uni.*`), with the arguments it
passes. -/
inductive Call where
  | openBluetoothAdapter
  | getConnectedBluetoothDevices (services : List String)
  | getBluetoothDevices
  | startBluetoothDevicesDiscovery
  | stopBluetoothDevicesDiscovery
  | createBLEConnection (deviceId : Option String)
  | closeBLEConnection (deviceId : Option String)
  | getBLEDeviceServices (deviceId : Option String)
  | getBLEDeviceCharacteristics (deviceId : Option String) (serviceId : String)
  | writeBLECharacteristicValue (deviceId : Option String) (serviceId : String)
      (characteristicId : String) (value : List Byte)
  | notifyBLECharacteristicValueChange (deviceId : Option String) (serviceId : String)
      (characteristicId : String) (state : Bool)
  deriving DecidableEq, Repr

/-- A behaviour of the host: the reply to each request is a function of all the
requests issued so far, the current one last. -/
structure Gateway where
  openBluetoothAdapter : List Call → Reply GatewayRes
  getConnectedBluetoothDevices : List Call → Reply (List Device)
  getBluetoothDevices : List Call → Reply (List Device)
  /-- the discovery events (`res.devices` of each) delivered before the scan timer fires -/
  onBluetoothDeviceFound : List Call → List (List Device)
  createBLEConnection : List Call → Reply GatewayRes
  closeBLEConnection : List Call → Reply GatewayRes
  /-- `res.services`, by uuid -/
  getBLEDeviceServices : List Call → Reply (List String)
  getBLEDeviceCharacteristics : List Call → Reply CharacteristicsRes
  writeBLECharacteristicValue : List Call → Reply GatewayRes
  notifyBLECharacteristicValueChange : List Call → Reply GatewayRes

/-- A callback supplied by the caller (`onNotify`, `onClose`). -/
structure Callback where
  name : String
  throws : Bool
  deriving DecidableEq, Repr

/-- An entry of `connectedDevice`, with the fields the library reads back. -/
structure Record where
  deviceId : String
  device : Device
  services : List Service
  writeCharacteristicsId : String
  writeServicesId : String
  onNotify : Option Callback
  onClose : Option Callback
  deriving DecidableEq, Repr

/-- The object `connectedDevice`: its keys in enumeration order, each with its
value; the value `none` is `null`.  Identifiers are taken not to be array-index
strings, so that the enumeration order of `for ... in` is the insertion order. -/
abbrev Registry := List (String × Option Record)

/-- The property read `connectedDevice[key]`, up to truthiness: `none` for a
missing key and for `null`. -/
def Registry.get (connectedDevice : Registry) (key : String) : Option Record :=
  match connectedDevice.find? (fun e => e.1 == key) with
  | some e => e.2
  | none => none

/-- The assignment `connectedDevice[key] = value`. -/
def Registry.set (connectedDevice : Registry) (key : String) (value : Option Record) :
    Registry :=
  if connectedDevice.any (fun e => e.1 == key) then
    connectedDevice.map (fun e => if e.1 == key then (key, value) else e)
  else connectedDevice ++ [(key, value)]

/-- The static fields of the class that change or can be configured, and the
requests sent to the host so far. -/
structure World where
  connectedDevice : Registry
  servicesConfig : ServicesConfig
  maxScanTime : Nat
  alreadyStateChange : Bool
  calls : List Call
  /-- the delay, in ms, of the scan timer that is armed and has neither fired nor
  been cleared (the static field `scanTimer` holds its handle) -/
  scanTimer : Option Nat := none

/-- Send a request whose callbacks nobody waits for. -/
def World.issue (w : World) (c : Call) : World :=
  { w with calls := w.calls ++ [c] }

/-- Send a request and receive the host's reply. -/
def World.request {α : Type} (w : World) (reply : List Call → Reply α) (c : Call) :
    Reply α × World :=
  (reply (w.calls ++ [c]), w.issue c)

/-- `await p` inside a `try` block whose `catch` clause is `handler`, followed by
the rest `k` of the block. -/
def awaitTry {α β : Type} (p : Outcome α × World)
    (handler : JSError → World → Outcome β × World)
    (k : α → World → Outcome β × World) : Outcome β × World :=
  match p with
  | (.resolved a, w) => k a w
  | (.rejected err, w) => handler err w
  | (.pending, w) => (.pending, w)

/-- The clause `catch (err) { reject(err) }`. -/
def rejectWith {β : Type} (err : JSError) (w : World) : Outcome β × World :=
  (.rejected err, w)

/-- `matchDeviceId(deviceId)`: the first key whose record has that system id. -/
def matchDeviceId (connectedDevice : Registry) (deviceId : Option String) : String :=
  match connectedDevice.find?
      (fun e => decide (e.2.bind (fun r => r.device.deviceId) = deviceId)) with
  | some e => e.1
  | none => ""

/-! ## Adapter, scan and connection requests -/

/-- `dealOpenAdapter()`. -/
def dealOpenAdapter (g : Gateway) (w : World) : Outcome GatewayRes × World :=
  match w.request g.openBluetoothAdapter .openBluetoothAdapter with
  | (.success res, w) => (.resolved res, w)
  | (.fail err, w) => (.rejected (.coded "-99" (some err.errMsg)), w)
  | (.silent, w) => (.pending, w)

/-- `getConnectedBluetoothDevices(services, mathId)`, up to the truthiness of the
resolved value: with an empty `mathId` the promise resolves with the truthy `res`. -/
def getConnectedBluetoothDevices (g : Gateway) (services : List String) (mathId : String)
    (w : World) : Outcome Bool × World :=
  match w.request g.getConnectedBluetoothDevices (.getConnectedBluetoothDevices services) with
  | (.success devices, w) =>
    if mathId.length ≠ 0 then
      (.resolved (devices.any (fun d => matchDeviceId w.connectedDevice d.deviceId == mathId)), w)
    else (.resolved true, w)
  | (.fail err, w) => (.rejected err.toError, w)
  | (.silent, w) => (.pending, w)

/-- `getBluetoothDevices(deviceId)`.  With an empty `deviceId` the promise resolves
with the array `res.devices` itself, which as a device has none of the fields the
library reads. -/
def getBluetoothDevices (g : Gateway) (deviceId : String) (w : World) :
    Outcome (Option Device) × World :=
  match w.request g.getBluetoothDevices .getBluetoothDevices with
  | (.success devices, w) =>
    if deviceId = "" then
      (.resolved (some ⟨none, none, none, .missing⟩), w)
    else (.resolved (devices.find? (fun d => matchDevice (some d) deviceId)), w)
  | (.fail err, w) => (.rejected err.toError, w)
  | (.silent, w) => (.pending, w)

/-- The first argument of `blueScan`: a string, an array of strings, an object
that cannot be spread (`null`, a plain object), or `invalid`, a value whose
`typeof` is neither `'string'` nor `'object'`. -/
inductive ScanTarget where
  | str (deviceId : String)
  | list (deviceIds : List String)
  | invalid
  | nonIterable
  deriving DecidableEq, Repr

/-- `setScanTimer(fn, scanTime)`: the previous timer is cleared and, unless
`scanTime` is 0, a timer of `scanTime` ms is armed; `fn` is run when it fires (see
`blueScan.session`). -/
def setScanTimer (scanTime : Nat) (w : World) : World :=
  if scanTime = 0 then { w with scanTimer := none }
  else { w with scanTimer := some scanTime }

/-- `stopScan()`. -/
def stopScan (w : World) : World :=
  World.issue { w with scanTimer := none } .stopBluetoothDevicesDiscovery

/-- The `for` loop of the discovery handler: the first outstanding identifier the
device matches, and the outstanding list with that identifier spliced out. -/
def blueScan.matchFirst (device : Device) : List String → Option (String × List String)
  | [] => none
  | id :: rest =>
    if matchDevice (some device) id then some (id, rest)
    else (blueScan.matchFirst device rest).map (fun m => (m.1, id :: m.2))

/-- The effect of one discovery event on `deviceArr` and `scanDevice`. -/
def blueScan.onFound (devices : List Device) (deviceArr : List String)
    (scanDevice : List ScanResult) : List String × List ScanResult :=
  match devices.head? with
  | none => (deviceArr, scanDevice)
  | some device =>
    match blueScan.matchFirst device deviceArr with
    | some m => (m.2, scanDevice ++ [formatDevice device m.1])
    | none => (deviceArr, scanDevice)

/-- A scan session: the discovery events in order, each handled by the listener
given to `uni.onBluetoothDeviceFound`, then the scan timer if one is armed, whose
callback runs `stopScan()` and the function given to `setScanTimer`. -/
def blueScan.session : List (List Device) → List String → List ScanResult → World →
    Outcome (List ScanResult) × World
  | [], deviceArr, scanDevice, w =>
    match w.scanTimer with
    | none => (.pending, w)
    | some _ =>
      if deviceArr.length = 0 then (.resolved scanDevice, stopScan w)
      else (.rejected (.coded "-97" (errorMsg "-97")), stopScan w)
  | devices :: events, deviceArr, scanDevice, w =>
    let found := blueScan.onFound devices deviceArr scanDevice
    if found.1.length = 0 then (.resolved found.2, w.issue .stopBluetoothDevicesDiscovery)
    else blueScan.session events found.1 found.2 w

set_option linter.unusedVariables false in
/-- `blueScan(deviceId, scanTime = 10000)`.  The body never reads `scanTime`: the
timer is set with `this.maxScanTime`.  For an object that cannot be spread,
`[...deviceId]` throws inside the promise executor, which rejects the promise. -/
def blueScan (g : Gateway) (deviceId : ScanTarget) (scanTime : Nat) (w : World) :
    Outcome (List ScanResult) × World :=
  match deviceId with
  | .invalid => (.rejected (.coded "-98" (errorMsg "-98")), w)
  | .nonIterable => (.rejected (.typeError "[...deviceId]"), w)
  | .str id =>
    let w := setScanTimer w.maxScanTime w
    let w := w.issue .startBluetoothDevicesDiscovery
    blueScan.session (g.onBluetoothDeviceFound w.calls) [id] [] w
  | .list ids =>
    let w := setScanTimer w.maxScanTime w
    let w := w.issue .startBluetoothDevicesDiscovery
    blueScan.session (g.onBluetoothDeviceFound w.calls) ids [] w

/-- `init()`: the listeners are registered once. -/
def init (w : World) : World :=
  if !w.alreadyStateChange then { w with alreadyStateChange := true } else w

/-- The value of `this.connectSucCode` inside the `fail` method of the object
literal handed to `uni.createBLEConnection`: there `this` is not the class, so the
read yields no list. -/
def createConnect.connectSucCodeInFail : Option (List Int) := none

/-- `createConnect(device)`. -/
def createConnect (g : Gateway) (deviceId : Option String) (w : World) :
    Outcome (Option GatewayRes) × World :=
  match w.request g.createBLEConnection (.createBLEConnection deviceId) with
  | (.success res, w) => (.resolved (some res), init w)
  | (.fail err, w) =>
    match createConnect.connectSucCodeInFail with
    | some connectSucCode =>
      if connectSucCode.contains err.errCode then (.resolved none, init w)
      else (.rejected err.toError, init w)
    | none => (.pending, init w)
  | (.silent, w) => (.pending, init w)

/-- `closeBLEConnection(deviceId)`. -/
def closeBLEConnection (g : Gateway) (deviceId : Option String) (w : World) :
    Outcome GatewayRes × World :=
  let r := w.request g.closeBLEConnection (.closeBLEConnection deviceId)
  (r.1.toOutcome, r.2)

/-- An assignment to an identifier that no enclosing scope declares.  Class
bodies are strict code, so the assignment throws a `ReferenceError`. -/
def assignUndeclared (ident : String) : Except JSError Unit :=
  .error (.referenceError ident)

/-- `closeConnection(device)`.  The statement `deviceId = deviceObj.device?.deviceId`
assigns to `deviceId`, which is declared neither in the function (its parameter
is `device`) nor in the module.  When no record is found no branch settles the
promise. -/
def closeConnection (g : Gateway) (deviceId : String) (w : World) :
    Outcome GatewayRes × World :=
  match w.connectedDevice.get deviceId with
  | some deviceObj =>
    match assignUndeclared "deviceId" with
    | .error err => rejectWith err w
    | .ok _ =>
      awaitTry (closeBLEConnection g deviceObj.device.deviceId w) rejectWith fun res w =>
        (.resolved res, { w with connectedDevice := w.connectedDevice.set deviceId none })
  | none => (.pending, w)

/-- `getBLEDeviceCharacteristics(deviceId, serviceId)`. -/
def getBLEDeviceCharacteristics (g : Gateway) (deviceId : Option String) (serviceId : String)
    (w : World) : Outcome CharacteristicsRes × World :=
  let r := w.request g.getBLEDeviceCharacteristics
    (.getBLEDeviceCharacteristics deviceId serviceId)
  (r.1.toOutcome, r.2)

/-- The closure `matchUUID` of `getBLEDeviceServices`: without `option.matchFn` the
policy is the object `servicesConfig` itself. -/
def getBLEDeviceServices.matchUUID (matchFn : MatchPolicy) (uuid : String) : Bool :=
  matchStr uuid (matchFn.orElse .other)

/-- The loop of the `success` callback of `getBLEDeviceServices`, called with
`getCharacteristics: true`.  A failing characteristics request throws inside the
`async` callback, where nothing settles the outer promise. -/
def getBLEDeviceServices.loop (g : Gateway) (deviceId : Option String) (matchFn : MatchPolicy) :
    List String → List Service → World → Outcome (List Service) × World
  | [], services, w =>
    if services.length ≠ 0 then (.resolved services, w)
    else (.rejected (.coded "-95" none), w)
  | serviceId :: rest, services, w =>
    if getBLEDeviceServices.matchUUID matchFn serviceId then
      match getBLEDeviceCharacteristics g deviceId serviceId w with
      | (.resolved characteristics, w) =>
        getBLEDeviceServices.loop g deviceId matchFn rest
          (services ++ [{ uuid := serviceId, getCharacteristics := characteristics }]) w
      | (.rejected _, w) => (.pending, w)
      | (.pending, w) => (.pending, w)
    else getBLEDeviceServices.loop g deviceId matchFn rest services w

/-- `getBLEDeviceServices({deviceId, getCharacteristics: true, matchFn})`. -/
def getBLEDeviceServices (g : Gateway) (deviceId : Option String) (matchFn : MatchPolicy)
    (w : World) : Outcome (List Service) × World :=
  match w.request g.getBLEDeviceServices (.getBLEDeviceServices deviceId) with
  | (.success services, w) => getBLEDeviceServices.loop g deviceId matchFn services [] w
  | (.fail err, w) => (.rejected err.toError, w)
  | (.silent, w) => (.pending, w)

/-! ## Connection orchestration -/

/-- The argument of `toConnectDevice` (type `DeviceOption`), with the fields the
connection flow reads. -/
structure DeviceOption where
  deviceId : String
  matchServices : MatchPolicy
  matchWriteUUID : MatchPolicy
  matchNotifyUUID : MatchPolicy
  reloadScan : Bool
  onNotify : Option Callback
  onClose : Option Callback

/-- The variable `handleDevice` once it is set: a registry record or the first
scan result. -/
inductive HandleDevice where
  | record (r : Record)
  | scanned (s : ScanResult)
  deriving DecidableEq, Repr

/-- The property `handleDevice.device`. -/
def HandleDevice.device : HandleDevice → Device
  | .record r => r.device
  | .scanned s => s.device

/-- The test `!handleDevice.services || !handleDevice.writeCharacteristicsId ||
!handleDevice.writeServicesId`; a record's `services` is an array, hence truthy. -/
def HandleDevice.lacksWriteHandles : HandleDevice → Bool
  | .record r => r.writeCharacteristicsId = "" ∨ r.writeServicesId = ""
  | .scanned _ => true

/-- The `catch` clause of `toConnectDevice`.  While `handleDevice` is still unset
the test `handleDevice.device.deviceId` throws inside the clause, so `reject` is
never reached; otherwise a disconnect is sent (nobody waits for it) when the
system id is truthy, and the promise rejects with `err`. -/
def toConnectDevice.catch (handleDevice : Option HandleDevice) (err : JSError) (w : World) :
    Outcome Unit × World :=
  match handleDevice with
  | none => (.pending, w)
  | some h =>
    match h.device.deviceId with
    | some id =>
      if id ≠ "" then (.rejected err, w.issue (.closeBLEConnection (some id)))
      else (.rejected err, w)
    | none => (.rejected err, w)

/-- The block `if (!handleDevice) { ... }` of `toConnectDevice` up to the value of
`scanDevice`. -/
def toConnectDevice.scan (g : Gateway) (option : DeviceOption) (w : World) :
    Outcome (List ScanResult) × World :=
  if !option.reloadScan then
    awaitTry (getBluetoothDevices g option.deviceId w) rejectWith fun deviceResult w =>
      match deviceResult with
      | none => blueScan g (.str option.deviceId) 10000 w
      | some d => (.resolved [formatDevice d option.deviceId], w)
  else blueScan g (.str option.deviceId) 10000 w

/-- The block of `toConnectDevice` that resolves the write handles and stores the
record. -/
def toConnectDevice.discover (g : Gateway) (option : DeviceOption) (handleDevice : HandleDevice)
    (w : World) : Outcome Unit × World :=
  if handleDevice.lacksWriteHandles then
    awaitTry (getBLEDeviceServices g handleDevice.device.deviceId option.matchServices w)
      rejectWith fun services w =>
      match matchServicesCharacteristics w.servicesConfig
          { matchType := some (if option.matchWriteUUID.truthy then .uuid else .write)
            services := services
            uuid := option.matchWriteUUID.orElse (.str "") } with
      | .error err => (.rejected err, w)
      | .ok matchRes =>
        let newDevice : Record :=
          { deviceId := option.deviceId
            device := handleDevice.device
            services := services
            writeCharacteristicsId := matchRes.characteristics
            writeServicesId := matchRes.services
            onNotify := option.onNotify
            onClose := option.onClose }
        let stored := w.connectedDevice.set newDevice.deviceId (some newDevice)
        (.resolved (), { w with connectedDevice := stored })
  else (.resolved (), w)

/-- The block `if (option.onNotify) { ... }` of `toConnectDevice`; nobody waits
for the subscription request. -/
def toConnectDevice.subscribe (option : DeviceOption) (handleDevice : HandleDevice)
    (w : World) : Outcome Unit × World :=
  match option.onNotify with
  | none => (.resolved (), w)
  | some onNotify =>
    match w.connectedDevice.get option.deviceId with
    | none => (.rejected (.typeError "this.connectedDevice[option.deviceId].services"), w)
    | some r =>
      match matchServicesCharacteristics w.servicesConfig
          { matchType := some (if option.matchNotifyUUID.truthy then .uuid else .notify)
            services := r.services
            uuid := option.matchNotifyUUID } with
      | .error err => (.rejected err, w)
      | .ok matchNotify =>
        let stored := w.connectedDevice.set option.deviceId (some { r with onNotify := some onNotify })
        let w := { w with connectedDevice := stored }
        (.resolved (), w.issue (.notifyBLECharacteristicValueChange handleDevice.device.deviceId
          matchNotify.services matchNotify.characteristics true))

/-- The block `if (option.onClose) { ... }` of `toConnectDevice`, then `resolve()`. -/
def toConnectDevice.storeOnClose (option : DeviceOption) (w : World) : Outcome Unit × World :=
  match option.onClose with
  | none => (.resolved (), w)
  | some onClose =>
    match w.connectedDevice.get option.deviceId with
    | none => (.rejected (.typeError "this.connectedDevice[option.deviceId].onClose"), w)
    | some r =>
      let stored := w.connectedDevice.set option.deviceId (some { r with onClose := some onClose })
      (.resolved (), { w with connectedDevice := stored })

/-- The part of `toConnectDevice` that runs once `handleDevice` is set. -/
def toConnectDevice.connect (g : Gateway) (option : DeviceOption) (isConnect : Bool)
    (handleDevice : HandleDevice) (w : World) : Outcome Unit × World :=
  let handler := toConnectDevice.catch (some handleDevice)
  awaitTry
    (if !isConnect then createConnect g handleDevice.device.deviceId w else (.resolved none, w))
    handler fun _ w =>
  awaitTry (toConnectDevice.discover g option handleDevice w) handler fun _ w =>
  awaitTry (toConnectDevice.subscribe option handleDevice w) handler fun _ w =>
  awaitTry (toConnectDevice.storeOnClose option w) handler fun _ w =>
  (.resolved (), w)

/-- `toConnectDevice(option)`. -/
def toConnectDevice (g : Gateway) (option : DeviceOption) (w : World) : Outcome Unit × World :=
  awaitTry (dealOpenAdapter g w) (toConnectDevice.catch none) fun _ w =>
  let handleDevice := w.connectedDevice.get option.deviceId
  awaitTry
    (getConnectedBluetoothDevices g
      (match handleDevice with
        | some r => [r.writeServicesId]
        | none => [])
      option.deviceId w)
    (toConnectDevice.catch (handleDevice.map .record)) fun isConnect w =>
  match handleDevice with
  | some r => toConnectDevice.connect g option isConnect (.record r) w
  | none =>
    awaitTry (toConnectDevice.scan g option w) (toConnectDevice.catch none) fun scanDevice w =>
    match scanDevice.head? with
    | none => (.rejected (.coded "-96" (errorMsg "-96")), w)
    | some s => toConnectDevice.connect g option isConnect (.scanned s) w

/-! ## Write path -/

/-- `reconnectDevice({deviceId})`. -/
def reconnectDevice (g : Gateway) (deviceId : String) (w : World) : Outcome Record × World :=
  awaitTry (closeConnection g deviceId w) rejectWith fun _ w =>
  awaitTry
    (toConnectDevice g
      { deviceId := deviceId, matchServices := .absent, matchWriteUUID := .absent,
        matchNotifyUUID := .absent, reloadScan := true, onNotify := none, onClose := none } w)
    rejectWith fun _ w =>
  match w.connectedDevice.get deviceId with
  | none => (.rejected (.coded "-96" (errorMsg "-96")), w)
  | some device => (.resolved device, w)

/-- The argument object of `writeBLE`. -/
structure WriteOption where
  deviceId : Option String
  serviceId : String
  characteristicId : String
  value : List Byte
  deriving DecidableEq, Repr

/-- The request `uni.writeBLECharacteristicValue({...option, success, fail})`. -/
def WriteOption.call (option : WriteOption) : Call :=
  .writeBLECharacteristicValue option.deviceId option.serviceId option.characteristicId
    option.value

/-- `writeBLE(option, false)`: with `reload` false the `fail` callback rejects at
once. -/
def writeBLE.noReload (g : Gateway) (option : WriteOption) (w : World) :
    Outcome GatewayRes × World :=
  match w.request g.writeBLECharacteristicValue option.call with
  | (.success res, w) => (.resolved res, w)
  | (.fail err, w) => (.rejected err.toError, w)
  | (.silent, w) => (.pending, w)

/-- `writeBLE(option, reload)`; the inner call `writeBLE({...}, false)` is
`writeBLE.noReload`. -/
def writeBLE (g : Gateway) (option : WriteOption) (reload : Bool) (w : World) :
    Outcome GatewayRes × World :=
  match w.request g.writeBLECharacteristicValue option.call with
  | (.success res, w) => (.resolved res, w)
  | (.fail err, w) =>
    if reload = true ∧ err.errCode = 10004 then
      let deviceKey := matchDeviceId w.connectedDevice option.deviceId
      awaitTry (reconnectDevice g deviceKey w) rejectWith fun device w =>
      awaitTry
        (writeBLE.noReload g
          { deviceId := device.device.deviceId
            serviceId := device.writeServicesId
            characteristicId := device.writeCharacteristicsId
            value := option.value } w)
        rejectWith fun e w =>
      (.resolved e, w)
    else (.rejected err.toError, w)
  | (.silent, w) => (.pending, w)

/-- `writeDevice({deviceId, value})`.  Without a record the promise is rejected
with `'-96'`; the `TypeError` of the following `device.device` is caught and its
`reject` comes second. -/
def writeDevice (g : Gateway) (deviceId : String) (value : List Byte) (w : World) :
    Outcome GatewayRes × World :=
  match w.connectedDevice.get deviceId with
  | none => (.rejected (.coded "-96" (errorMsg "-96")), w)
  | some device =>
    awaitTry
      (writeBLE g
        { deviceId := device.device.deviceId
          serviceId := device.writeServicesId
          characteristicId := device.writeCharacteristicsId
          value := value } true w)
      rejectWith fun res w =>
    (.resolved res, w)

/-- The constant `packetSize` of `loopWriteValue`. -/
def packetSize : Nat := 20

/-- The `for` loop of `loopWriteValue`, entered with loop variable `i`. -/
def loopWriteValue.loop (g : Gateway) (deviceId : String) (value : List Byte) (i : Nat)
    (w : World) : Outcome Bool × World :=
  if i < value.length then
    awaitTry (writeDevice g deviceId (slice value i (packetSize * (i + 1))) w) rejectWith
      fun _ w => loopWriteValue.loop g deviceId value (i + packetSize) w
  else (.resolved true, w)
termination_by value.length - i
decreasing_by
  simp only [packetSize]
  omega

/-- `loopWriteValue(option, value)`. -/
def loopWriteValue (g : Gateway) (deviceId : String) (value : List Byte) (w : World) :
    Outcome Bool × World :=
  loopWriteValue.loop g deviceId value 0 w

/-! ## Reference functions used to state the properties -/

/-- The uuid of the first characteristic of `cs` whose capability `cap` is set,
or `""` when there is none. -/
def firstWith (cap : Properties → Bool) (cs : List Characteristic) : String :=
  ((cs.find? (fun c => cap c.properties)).map (fun c => c.uuid)).getD ""

/-- The upper-case hexadecimal digit of value `n < 16`. -/
def upperHexDigit (n : Nat) : Char :=
  if n < 10 then Char.ofNat (48 + n) else Char.ofNat (55 + n)

/-- The two-digit, zero-padded, upper-case hexadecimal rendering of a byte. -/
def upperHexPair (b : Byte) : String :=
  String.mk [upperHexDigit (b.val / 16), upperHexDigit (b.val % 16)]

/-- Whether a request is a characteristic write. -/
def Call.isWrite : Call → Bool
  | .writeBLECharacteristicValue _ _ _ _ => true
  | _ => false

/-- The payload sizes of the characteristic writes among `calls`, in order. -/
def writeSizes (calls : List Call) : List Nat :=
  calls.filterMap fun c =>
    match c with
    | .writeBLECharacteristicValue _ _ _ value => some value.length
    | _ => none

/-- The world in which the loop of `loopWriteValue` enters its iteration number `k`
(loop variable `packetSize * k`), provided the `k` earlier chunk writes all
resolved; `none` when the loop does not get that far. -/
def loopWriteValue.reach (g : Gateway) (deviceId : String) (value : List Byte) :
    Nat → World → Option World
  | 0, w => some w
  | k + 1, w =>
    match loopWriteValue.reach g deviceId value k w with
    | none => none
    | some wk =>
      if packetSize * k < value.length then
        match writeDevice g deviceId
            (slice value (packetSize * k) (packetSize * (packetSize * k + 1))) wk with
        | (.resolved _, w') => some w'
        | _ => none
      else none

/-- The chunk writes the loop of `loopWriteValue` sends for the record `device`
in its iterations `k`, `k + 1`, ..., `k + m - 1`, with the slice bounds of the code. -/
def chunkCalls (device : Record) (value : List Byte) (k : Nat) : Nat → List Call
  | 0 => []
  | m + 1 =>
    Call.writeBLECharacteristicValue device.device.deviceId device.writeServicesId
      device.writeCharacteristicsId
      (slice value (packetSize * k) (packetSize * (packetSize * k + 1))) ::
    chunkCalls device value (k + 1) m

/-! ## Concrete inputs -/

/-- A connected peripheral with system id `"SYS"`. -/
def sampleDevice : Device :=
  { deviceId := some "SYS", name := some "lamp", localName := none, advertisData := .missing }

/-- Its registry record under the identifier `"dev"`, with resolved write handles. -/
def sampleRecord : Record :=
  { deviceId := "dev", device := sampleDevice, services := [],
    writeCharacteristicsId := "CH", writeServicesId := "SV", onNotify := none, onClose := none }

/-- A world whose registry holds exactly `sampleRecord`, before any request. -/
def sampleWorld : World :=
  { connectedDevice := [("dev", some sampleRecord)], servicesConfig := ServicesConfig.default,
    maxScanTime := 10000, alreadyStateChange := true, calls := [] }

/-- A host that answers every request with success. -/
def acceptAll : Gateway :=
  { openBluetoothAdapter := fun _ => .success ⟨"ok"⟩
    getConnectedBluetoothDevices := fun _ => .success [sampleDevice]
    getBluetoothDevices := fun _ => .success [sampleDevice]
    onBluetoothDeviceFound := fun _ => [[sampleDevice]]
    createBLEConnection := fun _ => .success ⟨"ok"⟩
    closeBLEConnection := fun _ => .success ⟨"ok"⟩
    getBLEDeviceServices := fun _ => .success ["SV"]
    getBLEDeviceCharacteristics := fun _ => .success ⟨[⟨"CH", ⟨true, false, false⟩⟩]⟩
    writeBLECharacteristicValue := fun _ => .success ⟨"ok"⟩
    notifyBLECharacteristicValueChange := fun _ => .success ⟨"ok"⟩ }

/-- A host that fails the characteristic write arriving as its `n`-th request
(counting every request, from 1) with the code `errCode`, and answers every other
request with success. -/
def failRequest (n : Nat) (errCode : Int) : Gateway :=
  { acceptAll with
    writeBLECharacteristicValue := fun calls =>
      if calls.length = n then .fail ⟨errCode, "fail"⟩ else .success ⟨"ok"⟩ }

/-- The 45-byte payload `0, 1, ..., 44`. -/
def payload45 : List Byte :=
  (List.range 45).map (fun i => Fin.ofNat i)

/-- A world with an empty registry, before any request. -/
def emptyWorld : World :=
  { connectedDevice := [], servicesConfig := ServicesConfig.default,
    maxScanTime := 10000, alreadyStateChange := false, calls := [] }

/-- A host whose adapter fails to open. -/
def adapterDown : Gateway :=
  { acceptAll with openBluetoothAdapter := fun _ => .fail ⟨10001, "not available"⟩ }

/-- A host that knows no device: none is connected, none was discovered before
and no discovery event arrives before the scan timer fires. -/
def nothingFound : Gateway :=
  { acceptAll with
    getConnectedBluetoothDevices := fun _ => .success []
    getBluetoothDevices := fun _ => .success []
    onBluetoothDeviceFound := fun _ => [] }

/-- The option `{deviceId}`, with no policy, no forced rescan and no callback. -/
def plainOption (deviceId : String) : DeviceOption :=
  { deviceId := deviceId, matchServices := .absent, matchWriteUUID := .absent,
    matchNotifyUUID := .absent, reloadScan := false, onNotify := none, onClose := none }

/-! ## Host event handlers

The listeners that `init()` registers.  A listener is embedded as a function from
the event and the registry to what it leaves behind: the exception that leaves
the listener, if any, the registry, and the callbacks it has called. -/

/-- The `res` of `onBLEConnectionStateChange`. -/
structure ConnectionStateChange where
  deviceId : Option String
  connected : Bool
  deriving DecidableEq, Repr

/-- The `res` of `onBLECharacteristicValueChange`. -/
structure CharacteristicValueChange where
  deviceId : Option String
  value : List Byte
  deriving DecidableEq, Repr

/-- What a listener leaves behind. -/
structure Handled where
  thrown : Option JSError
  connectedDevice : Registry
  invoked : List Callback
  deriving DecidableEq, Repr

/-- The call of a callback of the caller: it returns or it throws. -/
def Callback.call (cb : Callback) : Except JSError Unit :=
  if cb.throws then .error (.thrown cb.name) else .ok ()

/-- The truthiness of `res.deviceId`. -/
def truthyId : Option String → Bool
  | some s => s ≠ ""
  | none => false

/-- The listener given to `uni.onBLEConnectionStateChange`.  The call of `onClose`
is not inside a `try`: when it throws, the assignment after it is not reached. -/
def onBLEConnectionStateChange (res : ConnectionStateChange) (connectedDevice : Registry) :
    Handled :=
  if !res.connected && truthyId res.deviceId then
    let key := matchDeviceId connectedDevice res.deviceId
    if key ≠ "" then
      match (connectedDevice.get key).bind (fun r => r.onClose) with
      | some onClose =>
        match onClose.call with
        | .error err =>
          { thrown := some err, connectedDevice := connectedDevice, invoked := [onClose] }
        | .ok _ =>
          { thrown := none, connectedDevice := connectedDevice.set key none, invoked := [onClose] }
      | none => { thrown := none, connectedDevice := connectedDevice.set key none, invoked := [] }
    else { thrown := none, connectedDevice := connectedDevice, invoked := [] }
  else { thrown := none, connectedDevice := connectedDevice, invoked := [] }

/-- The listener given to `uni.onBLECharacteristicValueChange`.  The call of
`onNotify` is inside `try { } catch {}`; the read of `.onNotify` before it is not. -/
def onBLECharacteristicValueChange (res : CharacteristicValueChange)
    (connectedDevice : Registry) : Handled :=
  if truthyId res.deviceId then
    let key := matchDeviceId connectedDevice res.deviceId
    if key ≠ "" then
      match connectedDevice.get key with
      | none =>
        { thrown := some (.typeError "this.connectedDevice[key].onNotify"),
          connectedDevice := connectedDevice, invoked := [] }
      | some r =>
        match r.onNotify with
        | some onNotify =>
          match onNotify.call with
          | .error _ => { thrown := none, connectedDevice := connectedDevice, invoked := [onNotify] }
          | .ok _ => { thrown := none, connectedDevice := connectedDevice, invoked := [onNotify] }
        | none => { thrown := none, connectedDevice := connectedDevice, invoked := [] }
    else { thrown := none, connectedDevice := connectedDevice, invoked := [] }
  else { thrown := none, connectedDevice := connectedDevice, invoked := [] }

/-! ## Scan sessions: reference definitions -/

/-- The outstanding identifiers and the collected results once the discovery
listener has handled `events` in order, starting from `st`. -/
def blueScan.after : List (List Device) → List String × List ScanResult →
    List String × List ScanResult
  | [], st => st
  | devices :: events, st => blueScan.after events (blueScan.onFound devices st.1 st.2)

/-- The collected results pair each consumed identifier with a device it matches,
and together with the outstanding identifiers they make up the wanted ones. -/
def blueScan.Good (ids : List String) (st : List String × List ScanResult) : Prop :=
  (st.2.map (fun e => e.id) ++ st.1).Perm ids ∧
  ∀ e ∈ st.2, matchDevice (some e.device) e.id = true ∧ e.mac = parseMac (some e.device)

/-! ## Further concrete inputs -/

/-- An `onClose` that returns. -/
def closeCallback : Callback := { name := "onClose", throws := false }

/-- An `onClose` that throws. -/
def throwingClose : Callback := { name := "onClose", throws := true }

/-- An `onNotify` that throws. -/
def throwingNotify : Callback := { name := "onNotify", throws := true }

/-- A device that answers to neither `"lamp"` nor `"SYS"`. -/
def strangerDevice : Device :=
  { deviceId := some "OTHER", name := some "kettle", localName := none, advertisData := .missing }

/-- A host whose discovery reports a stranger and then the sample device twice. -/
def lampTwice : Gateway :=
  { acceptAll with
    onBluetoothDeviceFound := fun _ => [[strangerDevice], [sampleDevice], [sampleDevice]] }

/-! ## Hex codecs

JavaScript strings are taken over the Basic Multilingual Plane, where a character
is one code unit. -/

/-- The lower-case form of a string of ASCII characters. -/
def toLowerCase (s : String) : String :=
  String.mk (s.data.map Char.toLower)

/-- The code points that `parseInt` skips at the start of its argument
(`WhiteSpace` and `LineTerminator`). -/
def isStrWhiteSpaceChar (c : Char) : Bool :=
  c.toNat ∈ [0x9, 0xA, 0xB, 0xC, 0xD, 0x20, 0xA0, 0x1680, 0x2000, 0x2001, 0x2002, 0x2003,
    0x2004, 0x2005, 0x2006, 0x2007, 0x2008, 0x2009, 0x200A, 0x2028, 0x2029, 0x202F, 0x205F,
    0x3000, 0xFEFF]

/-- The value of a digit in radix 16, for `parseInt`. -/
def digitValue16 (c : Char) : Option Nat :=
  if 48 ≤ c.toNat ∧ c.toNat ≤ 57 then some (c.toNat - 48)
  else if 97 ≤ c.toNat ∧ c.toNat ≤ 102 then some (c.toNat - 87)
  else if 65 ≤ c.toNat ∧ c.toNat ≤ 70 then some (c.toNat - 55)
  else none

/-- `parseInt(string, 16)`; `none` is `NaN`. -/
def parseInt16 (string : List Char) : Option Int :=
  let s := string.dropWhile isStrWhiteSpaceChar
  let sign : Int := if s.head? = some '-' then -1 else 1
  let s := if s.head? = some '-' ∨ s.head? = some '+' then s.drop 1 else s
  let s := if s.take 2 = ['0', 'x'] ∨ s.take 2 = ['0', 'X'] then s.drop 2 else s
  let z := s.takeWhile fun c => (digitValue16 c).isSome
  if z = [] then none
  else some (sign * Int.ofNat (z.foldl (fun acc c => 16 * acc + (digitValue16 c).getD 0) 0))

/-- The conversion of an array element by `new Uint8Array(bytes)`: `NaN` becomes
0, an integer is taken modulo 256. -/
def toUint8 : Option Int → Byte
  | none => 0
  | some n => Fin.ofNat (n % 256).toNat

/-- `buf2hex(buffer)`, on the bytes of the buffer. -/
def buf2hex (buffer : List Byte) : String :=
  join (buffer.map hexPair) ""

/-- The loop of `hex2buf` on the characters from index `i` on: `substr(i, 2)` is
the next two characters, or the last one. -/
def hex2buf.loop : List Char → List Byte
  | [] => []
  | [c] => [toUint8 (parseInt16 [c])]
  | c :: d :: rest => toUint8 (parseInt16 [c, d]) :: hex2buf.loop rest

/-- `hex2buf(hexString)`: the bytes of the buffer it returns. -/
def hex2buf (hexString : String) : List Byte :=
  hex2buf.loop hexString.data

/-- The hexadecimal digits, in either case. -/
def hexDigits : List Char := "0123456789abcdefABCDEF".data

/-- The lower-case hexadecimal digits. -/
def lowerHexDigits : List Char := "0123456789abcdef".data

/-! ## Write handles: reference definition -/

/-- The first characteristic, in service order and then characteristic order, that
`sel` accepts: the uuid of its service and its own uuid. -/
def firstCharacteristic (sel : Characteristic → Bool) (services : List Service) :
    Option (String × String) :=
  ((services.flatMap fun s =>
      s.getCharacteristics.characteristics.map fun c => (s.uuid, c)).find?
    fun e => sel e.2).map fun e => (e.1, e.2.uuid)

/-! ## Hosts and options for the connection requests -/

/-- A host whose connect request fails with the code `errCode`. -/
def connectFails (errCode : Int) : Gateway :=
  { acceptAll with createBLEConnection := fun _ => .fail ⟨errCode, "fail"⟩ }

/-- A host whose disconnect request fails. -/
def disconnectFails : Gateway :=
  { acceptAll with closeBLEConnection := fun _ => .fail ⟨10006, "fail"⟩ }

/-- A host with the services `"S1"` (characteristics `"A"`, readable, and `"B"`,
writable) and `"S2"` (characteristics `"C"`, writable with notifications, and `"D"`,
writable). -/
def twoServices : Gateway :=
  { acceptAll with
    getBLEDeviceServices := fun _ => .success ["S1", "S2"]
    getBLEDeviceCharacteristics := fun calls =>
      match calls.getLast? with
      | some (.getBLEDeviceCharacteristics _ "S1") =>
        .success ⟨[⟨"A", ⟨false, true, false⟩⟩, ⟨"B", ⟨true, false, false⟩⟩]⟩
      | _ => .success ⟨[⟨"C", ⟨true, false, true⟩⟩, ⟨"D", ⟨true, false, false⟩⟩]⟩ }

/-- The service tree that `twoServices` reports. -/
def twoServicesTree : List Service :=
  [⟨"S1", ⟨[⟨"A", ⟨false, true, false⟩⟩, ⟨"B", ⟨true, false, false⟩⟩]⟩⟩,
   ⟨"S2", ⟨[⟨"C", ⟨true, false, true⟩⟩, ⟨"D", ⟨true, false, false⟩⟩]⟩⟩]

/-- The option `{deviceId, matchServices: () => true, matchWriteUUID}`. -/
def writeOption (deviceId : String) (matchWriteUUID : MatchPolicy) : DeviceOption :=
  { deviceId := deviceId, matchServices := .fn fun _ => true, matchWriteUUID := matchWriteUUID,
    matchNotifyUUID := .absent, reloadScan := false, onNotify := none, onClose := none }

/-! ## Letter case: reference definitions -/

/-- Whether a string has ASCII characters only. -/
def isAscii (s : String) : Bool :=
  s.data.all fun c => decide (c.toNat < 128)

/-- Whether two strings are equal up to the case of their ASCII letters. -/
def eqIgnoreAsciiCase (a b : String) : Bool :=
  a.data.map Char.toLower == b.data.map Char.toLower

/-! ## Further hosts and worlds for the write handles -/

/-- A host with the one service `"S1"`, whose first characteristic has an empty
uuid and is writable like the second, `"B"`. -/
def blankFirst : Gateway :=
  { acceptAll with
    getBLEDeviceServices := fun _ => .success ["S1"]
    getBLEDeviceCharacteristics := fun _ =>
      .success ⟨[⟨"", ⟨true, false, false⟩⟩, ⟨"B", ⟨true, false, false⟩⟩]⟩ }

/-- The service tree that `blankFirst` reports. -/
def blankFirstTree : List Service :=
  [⟨"S1", ⟨[⟨"", ⟨true, false, false⟩⟩, ⟨"B", ⟨true, false, false⟩⟩]⟩⟩]

/-- A world with an empty registry in which `servicesConfig.characteristics` was
set to `"B"`. -/
def configuredWorld : World :=
  { emptyWorld with servicesConfig := { services := .str "", characteristics := .str "B" } }

end BluetoothUtil

/-! ## The event queue (`eventList.js`)

An `EventList` is embedded as a state machine.  A call of `run()` that has passed
its guard is a drain loop; between two `await`s it runs without interruption, so
a step of the machine is either a call of a method or the resumption of a loop at
the `await` at which it is suspended.  `fn` and `cb` are identified by numbers,
delays are natural numbers of milliseconds. -/

namespace EventList

/-- The argument `option` of `push` and `unshift`, after the defaults of
`formatOption`: `fn` and `cb` are identified by number, a missing delay is 0. -/
structure TaskOption where
  fn : Nat
  startDelay : Nat
  endDelay : Nat
  cb : Option Nat
  arg : List String
  deriving DecidableEq, Repr

/-- An entry of `list`, as built by `formatOption`. -/
structure Task where
  fn : Nat
  startDelay : Nat
  endDelay : Nat
  cb : Option Nat
  tag : Nat
  arg : List String
  deriving DecidableEq, Repr

/-- The `await` at which a drain loop (`run`) is suspended, with the task
`eventOption` of its current iteration. -/
inductive Phase where
  | preDelay (eventOption : Task)
  | body (eventOption : Task)
  | postDelay (eventOption : Task)
  deriving DecidableEq, Repr

/-- What a drain loop does, in order, each with the tag of the task. -/
inductive Event where
  | bodyStart (tag : Nat)
  | bodyEnd (tag : Nat) (ok : Bool)
  | postDelayStart (tag : Nat)
  | postDelayEnd (tag : Nat)
  | callback (tag : Nat)
  deriving DecidableEq, Repr

/-- An `EventList` object: its three fields, the drain loops that are suspended at
an `await`, and the record of what the loops have done. -/
structure State where
  list : List Task
  isRunning : Bool
  tagNumber : Nat
  loops : List Phase
  log : List Event
  deriving DecidableEq, Repr

/-- A fresh `EventList`. -/
def State.init : State :=
  { list := [], isRunning := false, tagNumber := 0, loops := [], log := [] }

/-- `formatOption(option, arg)`: the new value of `tagNumber` and the entry. -/
def formatOption (s : State) (option : TaskOption) : State × Task :=
  ({ s with tagNumber := s.tagNumber + 1 },
   { fn := option.fn, startDelay := option.startDelay, endDelay := option.endDelay,
     cb := option.cb, tag := s.tagNumber + 1, arg := option.arg })

/-- The start of an iteration of `run` for the shifted task, up to its first
`await`: the pre-delay sleep if `startDelay` is truthy, else the call of `fn`. -/
def enter (eventOption : Task) : Phase × List Event :=
  if eventOption.startDelay ≠ 0 then (.preDelay eventOption, [])
  else (.body eventOption, [.bodyStart eventOption.tag])

/-- The test `while (this.isRunning && this.list.length)` followed by either the
start of an iteration or the exit `this.isRunning = false`. -/
def next (s : State) : State × Option Phase :=
  match s.isRunning, s.list with
  | true, eventOption :: rest =>
    ({ s with list := rest, log := s.log ++ (enter eventOption).2 }, some (enter eventOption).1)
  | _, _ => ({ s with isRunning := false }, none)

/-- `run()`, up to its first `await`. -/
def run (s : State) : State :=
  if s.isRunning then s
  else
    let r := next { s with isRunning := true }
    { r.1 with loops := r.1.loops ++ r.2.toList }

/-- The loop number `i` finishes an iteration and goes back to the `while` test. -/
def continueLoop (s : State) (i : Nat) : State :=
  let r := next s
  match r.2 with
  | some phase => { r.1 with loops := r.1.loops.set i phase }
  | none => { r.1 with loops := r.1.loops.eraseIdx i }

/-- The statement `eventOption.cb && eventOption.cb()`; an exception of the
callback is caught like one of the body. -/
def callbackEvents (eventOption : Task) : List Event :=
  match eventOption.cb with
  | some _ => [.callback eventOption.tag]
  | none => []

/-- What happens to an `EventList`: a call of one of its methods, the end of the
sleep awaited by loop `i`, or the settling of the body awaited by loop `i` (`ok`
false when it throws or rejects). -/
inductive Action where
  | push (option : TaskOption)
  | unshift (option : TaskOption)
  | rmEvent (option : Nat) (isTag : Bool)
  | timer (i : Nat)
  | settle (i : Nat) (ok : Bool)
  deriving DecidableEq, Repr

/-- `rmEvent(option, isTag)`. -/
def rmEvent (s : State) (option : Nat) (isTag : Bool) : State :=
  { s with list := s.list.filter fun items =>
      !((isTag && option == items.tag) || (!isTag && option == items.fn)) }

/-- One step of an `EventList`. -/
def State.step (s : State) : Action → State
  | .push option =>
    let r := formatOption s option
    run { r.1 with list := r.1.list ++ [r.2] }
  | .unshift option =>
    let r := formatOption s option
    run { r.1 with list := r.2 :: r.1.list }
  | .rmEvent option isTag => rmEvent s option isTag
  | .timer i =>
    match s.loops.get? i with
    | some (.preDelay eventOption) =>
      { s with loops := s.loops.set i (.body eventOption),
               log := s.log ++ [.bodyStart eventOption.tag] }
    | some (.postDelay eventOption) =>
      continueLoop
        { s with log := s.log ++ [.postDelayEnd eventOption.tag] ++ callbackEvents eventOption } i
    | _ => s
  | .settle i ok =>
    match s.loops.get? i with
    | some (.body eventOption) =>
      if ok then
        if eventOption.endDelay ≠ 0 then
          { s with loops := s.loops.set i (.postDelay eventOption),
                   log := s.log ++ [.bodyEnd eventOption.tag true,
                     .postDelayStart eventOption.tag] }
        else
          continueLoop
            { s with log := s.log ++ [.bodyEnd eventOption.tag true]
                ++ callbackEvents eventOption } i
      else continueLoop { s with log := s.log ++ [.bodyEnd eventOption.tag false] } i
    | _ => s

/-- A sequence of steps. -/
def State.exec (s : State) (actions : List Action) : State :=
  actions.foldl State.step s

/-- The tags of the tasks whose body has been started, in order of start. -/
def started (log : List Event) : List Nat :=
  log.filterMap fun e =>
    match e with
    | .bodyStart tag => some tag
    | _ => none

/-- The actions by which the host lets loop 0 carry out the iteration for `t`:
the pre-delay elapses, the body resolves if `outcome t.tag` and fails if not, the
post-delay elapses. -/
def taskActions (outcome : Nat → Bool) (t : Task) : List Action :=
  (if t.startDelay ≠ 0 then [Action.timer 0] else []) ++ [Action.settle 0 (outcome t.tag)] ++
  (if outcome t.tag = true ∧ t.endDelay ≠ 0 then [Action.timer 0] else [])

/-- The actions by which the host lets loop 0 work off `tasks`, one after the
other, from the `while` test that shifts the first of them. -/
def schedule (outcome : Nat → Bool) : List Task → List Action
  | [] => []
  | t :: rest => taskActions outcome t ++ schedule outcome rest

/-- The tags of the tasks whose pre-delay is being awaited. -/
def waiting (loops : List Phase) : List Nat :=
  loops.filterMap fun p =>
    match p with
    | .preDelay t => some t.tag
    | _ => none

/-- Every body that was started in `log` has ended in `log`, and every post-delay
that was started in `log` has ended in `log`. -/
def Settled (log : List Event) : Prop :=
  (∀ t, Event.bodyStart t ∈ log → ∃ ok, Event.bodyEnd t ok ∈ log) ∧
  (∀ t, Event.postDelayStart t ∈ log → Event.postDelayEnd t ∈ log)

/-- Whenever a body is started in `log`, everything before it is settled. -/
def Serial (log : List Event) : Prop :=
  ∀ pre t post, log = pre ++ Event.bodyStart t :: post → Settled pre

/-- The actions of a queue that is only pushed to. -/
def Action.isQueueing : Action → Bool
  | .push _ => true
  | .timer _ => true
  | .settle _ _ => true
  | _ => false

/-- Whether an action is a `push`. -/
def Action.isPush : Action → Bool
  | .push _ => true
  | _ => false

/-- An event that starts neither a body nor a post-delay. -/
def Quiet (e : Event) : Prop :=
  (∀ t, e ≠ .bodyStart t) ∧ (∀ t, e ≠ .postDelayStart t)

/-- How the log ends, given where the loops are suspended: with the start of the
body in flight, with the start of the post-delay that is awaited, or settled. -/
def Flight : List Phase → List Event → Prop
  | [.body t], log => ∃ pre, log = pre ++ [.bodyStart t.tag] ∧ Settled pre
  | [.postDelay t], log =>
    ∃ pre, log = pre ++ [.bodyStart t.tag, .bodyEnd t.tag true, .postDelayStart t.tag] ∧
      Settled pre
  | _, log => Settled log

/-- The invariant of an `EventList` that is only pushed to. -/
structure Inv (s : State) : Prop where
  single : (s.loops = [] ∧ s.isRunning = false) ∨ (∃ p, s.loops = [p] ∧ s.isRunning = true)
  order : started s.log ++ waiting s.loops ++ s.list.map (fun t => t.tag) =
    List.range' 1 s.tagNumber
  serial : Serial s.log
  flight : Flight s.loops s.log

/-- The pending tasks have distinct tags, none above `tagNumber`. -/
def TagsFresh (s : State) : Prop :=
  (s.list.map fun t => t.tag).Nodup ∧ ∀ t ∈ s.list, t.tag ≤ s.tagNumber

/-- An option with only `fn` and `endDelay`. -/
def plainTask (fn endDelay : Nat) : TaskOption :=
  { fn := fn, startDelay := 0, endDelay := endDelay, cb := none, arg := [] }

/-- Three pushes, then the first body resolves and its post-delay elapses. -/
def samplePushes : List Action :=
  [.push (plainTask 1 100), .push (plainTask 2 0), .push (plainTask 3 0),
   .settle 0 true, .timer 0]

/-- The entry of `list` that `push` makes of `plainTask fn endDelay`. -/
def plainEntry (fn endDelay tag : Nat) : Task :=
  { fn := fn, startDelay := 0, endDelay := endDelay, cb := none, tag := tag, arg := [] }

/-- The queue after the pushes of tasks A, B and C (the body of A is in flight). -/
def sampleQueue : State :=
  State.init.exec [.push (plainTask 1 100), .push (plainTask 2 0), .push (plainTask 3 0)]

end EventList

namespace BluetoothUtil

/-! ## Characteristic matcher: properties -/

theorem matchFn_of_truthy (cfg : ServicesConfig) (p : MatchPolicy) (hp : p.truthy = true)
    (uuid : String) : matchCharacteristics.matchFn cfg p uuid = matchStr uuid p := by
  simp [matchCharacteristics.matchFn, MatchPolicy.orElse, hp]

theorem matchFn_default_of_not_truthy (p : MatchPolicy) (hp : p.truthy = false)
    (uuid : String) : matchCharacteristics.matchFn ServicesConfig.default p uuid = false := by
  have h0 : (MatchPolicy.str "").truthy = false := by simp [MatchPolicy.truthy]
  simp [matchCharacteristics.matchFn, MatchPolicy.orElse, hp, ServicesConfig.default, h0]

theorem matchFn_default_absent (uuid : String) :
    matchCharacteristics.matchFn ServicesConfig.default .absent uuid = false :=
  matchFn_default_of_not_truthy .absent rfl uuid

theorem firstWith_cons (cap : Properties → Bool) (c : Characteristic) (cs : List Characteristic) :
    firstWith cap (c :: cs) = if cap c.properties = true then c.uuid else firstWith cap cs := by
  unfold firstWith
  by_cases h : cap c.properties = true <;> simp [List.find?, h]

/-- Without a policy the loop fills each still-empty capability field with the
first later characteristic offering that capability and keeps every other field. -/
theorem loop_no_policy (p : MatchPolicy) (hp : p.truthy = false) :
    ∀ (cs : List Characteristic) (r : MatchRes), (∀ c ∈ cs, c.uuid ≠ "") →
      matchCharacteristics.loop ServicesConfig.default p cs r =
        { write := if r.write = "" then firstWith (fun q => q.write) cs else r.write
          read := if r.read = "" then firstWith (fun q => q.read) cs else r.read
          notify := if r.notify = "" then firstWith (fun q => q.notify) cs else r.notify
          uuid := r.uuid } := by
  intro cs
  induction cs with
  | nil =>
    intro r _
    obtain ⟨a, b, c, d⟩ := r
    by_cases h1 : a = "" <;> by_cases h2 : b = "" <;> by_cases h3 : c = "" <;>
      simp [matchCharacteristics.loop, firstWith, h1, h2, h3]
  | cons c cs ih =>
    intro r h
    have hc : c.uuid ≠ "" := h c (List.mem_cons_self _ _)
    have hcs : ∀ x ∈ cs, x.uuid ≠ "" := fun x hx => h x (List.mem_cons_of_mem _ hx)
    rw [matchCharacteristics.loop]
    simp only [matchFn_default_of_not_truthy p hp, Bool.false_eq_true, if_false]
    rw [ih _ hcs]
    simp only [firstWith_cons]
    obtain ⟨rw_, rr, rn, ru⟩ := r
    by_cases h1 : rw_ = "" <;> by_cases h2 : rr = "" <;> by_cases h3 : rn = "" <;>
      by_cases h4 : c.properties.write = true <;> by_cases h5 : c.properties.read = true <;>
      by_cases h6 : c.properties.notify = true <;> simp [h1, h2, h3, h4, h5, h6, hc]

/-- With a policy that some characteristic satisfies, the loop runs as the
policy-free loop up to the first satisfying characteristic and stops there. -/
theorem loop_policy (cfg : ServicesConfig) (p : MatchPolicy) (hp : p.truthy = true) :
    ∀ (cs : List Characteristic) (r : MatchRes), (∃ c ∈ cs, matchStr c.uuid p = true) →
      matchCharacteristics.loop cfg p cs r =
        { matchCharacteristics.loop ServicesConfig.default .absent
            (cs.takeWhile (fun x => !matchStr x.uuid p)) r with
          uuid := ((cs.find? (fun x => matchStr x.uuid p)).map (fun c => c.uuid)).getD "" } := by
  intro cs
  induction cs with
  | nil => intro r h; simp at h
  | cons c cs ih =>
    intro r h
    rw [matchCharacteristics.loop]
    by_cases hc : matchStr c.uuid p = true
    · simp [matchFn_of_truthy cfg p hp, hc, List.takeWhile, List.find?, matchCharacteristics.loop]
    · have hc' : matchStr c.uuid p = false := by simpa using hc
      have h' : ∃ x ∈ cs, matchStr x.uuid p = true := by
        obtain ⟨x, hx, hm⟩ := h
        rcases List.mem_cons.mp hx with rfl | hx
        · exact absurd hm hc
        · exact ⟨x, hx, hm⟩
      simp only [matchFn_of_truthy cfg p hp, hc', Bool.false_eq_true, if_false]
      rw [ih _ h']
      simp [List.takeWhile, List.find?, hc', matchCharacteristics.loop, matchFn_default_absent]

/-- The service loop returns the first service whose match result has a
non-empty field of the requested type. -/
theorem matchServicesCharacteristics_loop_eq (cfg : ServicesConfig) (mt : MatchType)
    (uuid : MatchPolicy) :
    ∀ services : List Service,
      matchServicesCharacteristics.loop cfg mt uuid services =
        match services.find? (fun s =>
          decide ((matchCharacteristics cfg s.getCharacteristics.characteristics
            (if mt = .uuid then uuid else .absent)).get mt ≠ "")) with
        | some s => .ok
            { characteristics := (matchCharacteristics cfg s.getCharacteristics.characteristics
                (if mt = .uuid then uuid else .absent)).get mt
              services := s.uuid }
        | none => .error errCharacteristicMatchFailed := by
  intro services
  induction services with
  | nil => simp [matchServicesCharacteristics.loop]
  | cons s rest ih =>
    rw [matchServicesCharacteristics.loop]
    by_cases h : (matchCharacteristics cfg s.getCharacteristics.characteristics
            (if mt = .uuid then uuid else .absent)).get mt = ""
    · simp [h, ih, List.find?]
    · simp [h, List.find?]

/-- Claim C2, as stated, fails: with the policy `"B"` the second characteristic is
the first one that satisfies the policy, yet the result carries `write = "A"`,
picked up from the write-capable characteristic that precedes it. -/
theorem matchCharacteristics_policy_keeps_earlier_capability :
    (MatchPolicy.str "B").truthy = true ∧
    matchStr "A" (.str "B") = false ∧
    matchStr "B" (.str "B") = true ∧
    matchCharacteristics ServicesConfig.default
      [⟨"A", ⟨true, false, false⟩⟩, ⟨"B", ⟨false, false, false⟩⟩] (.str "B") =
        { write := "A", read := "", notify := "", uuid := "B" } ∧
    (matchCharacteristics ServicesConfig.default
      [⟨"A", ⟨true, false, false⟩⟩, ⟨"B", ⟨false, false, false⟩⟩] (.str "B")).write ≠ "" := by
  decide

/-- Claim C2 (amended): for every `servicesConfig`, characteristic list and explicit
(truthy) UUID policy that some characteristic's uuid satisfies, `matchCharacteristics`
returns `uuid` = the uuid of the first satisfying characteristic, and its `write`,
`read` and `notify` fields are exactly those the policy-free matcher yields on the
characteristics strictly before that one; the capabilities of the satisfying
characteristic and of all later ones play no part. -/
theorem matchCharacteristics_explicit_policy (cfg : ServicesConfig)
    (characteristics : List Characteristic) (matchUUID : MatchPolicy)
    (hp : matchUUID.truthy = true)
    (h : ∃ c ∈ characteristics, matchStr c.uuid matchUUID = true) :
    matchCharacteristics cfg characteristics matchUUID =
      { matchCharacteristics ServicesConfig.default
          (characteristics.takeWhile (fun x => !matchStr x.uuid matchUUID)) .absent with
        uuid := ((characteristics.find? (fun x => matchStr x.uuid matchUUID)).map
          (fun c => c.uuid)).getD "" } := by
  unfold matchCharacteristics
  exact loop_policy cfg matchUUID hp characteristics _ h

/-- Claim C2 (amended), at a concrete list: the policy `"B"` selects the second
characteristic; `write` comes from the first, nothing from the second or third. -/
theorem matchCharacteristics_explicit_policy_witness :
    (MatchPolicy.str "B").truthy = true ∧
    matchCharacteristics ServicesConfig.default
      [⟨"A", ⟨true, false, false⟩⟩, ⟨"B", ⟨true, true, true⟩⟩, ⟨"C", ⟨false, true, false⟩⟩]
      (.str "B") = { write := "A", read := "", notify := "", uuid := "B" } :=
  ⟨by decide,
   (matchCharacteristics_explicit_policy ServicesConfig.default
      [⟨"A", ⟨true, false, false⟩⟩, ⟨"B", ⟨true, true, true⟩⟩, ⟨"C", ⟨false, true, false⟩⟩]
      (.str "B") (by decide) ⟨⟨"B", ⟨true, true, true⟩⟩, by decide, by decide⟩).trans
    (by decide)⟩

/-- Claim C3: with no explicit UUID policy and the default `servicesConfig`, for
characteristics with non-empty uuids, `matchCharacteristics` returns in `write`,
`read`, `notify` the uuid of the first characteristic offering that capability
(`""` when none does) and `uuid = ""`; a field that is set after a prefix of the
list keeps its value whatever characteristics follow. -/
theorem matchCharacteristics_no_policy (characteristics : List Characteristic)
    (matchUUID : MatchPolicy) (hp : matchUUID.truthy = false)
    (h : ∀ c ∈ characteristics, c.uuid ≠ "") :
    matchCharacteristics ServicesConfig.default characteristics matchUUID =
      { write := firstWith (fun q => q.write) characteristics
        read := firstWith (fun q => q.read) characteristics
        notify := firstWith (fun q => q.notify) characteristics
        uuid := "" } ∧
    ∀ later : List Characteristic, (∀ c ∈ later, c.uuid ≠ "") →
      let r := matchCharacteristics ServicesConfig.default characteristics matchUUID
      let r' := matchCharacteristics ServicesConfig.default (characteristics ++ later) matchUUID
      (r.write ≠ "" → r'.write = r.write) ∧ (r.read ≠ "" → r'.read = r.read) ∧
      (r.notify ≠ "" → r'.notify = r.notify) := by
  have key : ∀ cs : List Characteristic, (∀ c ∈ cs, c.uuid ≠ "") →
      matchCharacteristics ServicesConfig.default cs matchUUID =
      { write := firstWith (fun q => q.write) cs
        read := firstWith (fun q => q.read) cs
        notify := firstWith (fun q => q.notify) cs
        uuid := "" } := by
    intro cs hcs
    unfold matchCharacteristics
    rw [loop_no_policy matchUUID hp cs _ hcs]
    simp
  have app : ∀ (cap : Properties → Bool) (later : List Characteristic),
      firstWith cap characteristics ≠ "" →
      firstWith cap (characteristics ++ later) = firstWith cap characteristics := by
    intro cap later hne
    unfold firstWith at hne ⊢
    rw [List.find?_append]
    cases hf : List.find? (fun c => cap c.properties) characteristics with
    | none => simp [hf] at hne
    | some c => simp
  refine ⟨key _ h, ?_⟩
  intro later hl
  have hall : ∀ c ∈ characteristics ++ later, c.uuid ≠ "" := by
    intro c hc
    rcases List.mem_append.mp hc with hc | hc
    · exact h c hc
    · exact hl c hc
  simp only [key _ h, key _ hall]
  exact ⟨app _ later, app _ later, app _ later⟩

/-- Claim C3 at a concrete list: `write` is taken from the second characteristic
(the first write-capable one), `read` from the first, `notify` stays empty. -/
theorem matchCharacteristics_no_policy_witness :
    MatchPolicy.absent.truthy = false ∧
    (∀ c ∈ ([⟨"A", ⟨false, true, false⟩⟩, ⟨"B", ⟨true, true, false⟩⟩,
        ⟨"C", ⟨true, false, false⟩⟩] : List Characteristic), c.uuid ≠ "") ∧
    matchCharacteristics ServicesConfig.default
      [⟨"A", ⟨false, true, false⟩⟩, ⟨"B", ⟨true, true, false⟩⟩, ⟨"C", ⟨true, false, false⟩⟩]
      .absent = { write := "B", read := "A", notify := "", uuid := "" } :=
  ⟨rfl, by decide,
   (matchCharacteristics_no_policy
      [⟨"A", ⟨false, true, false⟩⟩, ⟨"B", ⟨true, true, false⟩⟩, ⟨"C", ⟨true, false, false⟩⟩]
      .absent rfl (by decide)).1.trans (by decide)⟩

/-- Claim C4: for every service list and match type, `matchServicesCharacteristics`
returns `{services: s.uuid, characteristics: r[matchType]}` for the first service
`s` whose `matchCharacteristics` result `r` has a non-empty `matchType` field; it
throws the `'-94'` error exactly when no service has such a result, in particular
for an empty service list, and also when `matchType` is missing. -/
theorem matchServicesCharacteristics_first_service (cfg : ServicesConfig)
    (services : List Service) (matchType : MatchType) (uuid : MatchPolicy) :
    (matchServicesCharacteristics cfg
        { matchType := some matchType, uuid := uuid, services := services } =
      match services.find? (fun s =>
          decide ((matchCharacteristics cfg s.getCharacteristics.characteristics
            (if matchType = .uuid then uuid else .absent)).get matchType ≠ "")) with
      | some s => .ok
          { characteristics := (matchCharacteristics cfg s.getCharacteristics.characteristics
              (if matchType = .uuid then uuid else .absent)).get matchType
            services := s.uuid }
      | none => .error (.coded "-94" (some "未匹配到服务特征"))) ∧
    ((∃ e, matchServicesCharacteristics cfg
        { matchType := some matchType, uuid := uuid, services := services } = .error e) ↔
      ∀ s ∈ services, (matchCharacteristics cfg s.getCharacteristics.characteristics
            (if matchType = .uuid then uuid else .absent)).get matchType = "") ∧
    matchServicesCharacteristics cfg { matchType := some matchType, uuid := uuid, services := [] }
      = .error (.coded "-94" (some "未匹配到服务特征")) ∧
    matchServicesCharacteristics cfg { matchType := none, uuid := uuid, services := services }
      = .error (.coded "-94" (some "未匹配到服务特征")) := by
  have main : matchServicesCharacteristics cfg
        { matchType := some matchType, uuid := uuid, services := services } =
      match services.find? (fun s =>
          decide ((matchCharacteristics cfg s.getCharacteristics.characteristics
            (if matchType = .uuid then uuid else .absent)).get matchType ≠ "")) with
      | some s => .ok
          { characteristics := (matchCharacteristics cfg s.getCharacteristics.characteristics
              (if matchType = .uuid then uuid else .absent)).get matchType
            services := s.uuid }
      | none => .error (.coded "-94" (some "未匹配到服务特征")) := by
    unfold matchServicesCharacteristics
    cases services with
    | nil => simp [errCharacteristicMatchFailed]
    | cons s rest =>
      simp only [List.length_cons, Nat.succ_ne_zero, if_false]
      exact matchServicesCharacteristics_loop_eq cfg matchType uuid (s :: rest)
  refine ⟨main, ?_, ?_, ?_⟩
  · rw [main]
    cases hf : services.find? (fun s =>
          decide ((matchCharacteristics cfg s.getCharacteristics.characteristics
            (if matchType = .uuid then uuid else .absent)).get matchType ≠ "")) with
    | none =>
      simp only [List.find?_eq_none] at hf
      constructor
      · intro _ s hs
        simpa using hf s hs
      · intro _
        exact ⟨_, rfl⟩
    | some s =>
      have hs := List.find?_some hf
      have hmem := List.mem_of_find?_eq_some hf
      constructor
      · rintro ⟨e, he⟩
        cases he
      · intro hall
        have := hall s hmem
        simp [this] at hs
  · simp [matchServicesCharacteristics, errCharacteristicMatchFailed]
  · simp [matchServicesCharacteristics, errCharacteristicMatchFailed]

/-! ## Device matching and MAC parsing: properties -/

set_option maxRecDepth 100000 in
theorem toUpperCase_hexPair : ∀ b : Byte, toUpperCase (hexPair b) = upperHexPair b := by
  decide

theorem toUpperCase_data (a : String) :
    (toUpperCase a).data = a.data.flatMap codePointUpper := rfl

theorem toUpperCase_append (a b : String) :
    toUpperCase (a ++ b) = toUpperCase a ++ toUpperCase b := by
  apply String.ext
  rw [toUpperCase_data, String.data_append, String.data_append, List.flatMap_append,
    toUpperCase_data, toUpperCase_data]

theorem toUpperCase_empty : toUpperCase "" = "" := by decide

theorem toUpperCase_colon : toUpperCase ":" = ":" := by decide

theorem toUpperCase_join_colon : ∀ l : List String,
    toUpperCase (join l ":") = join (l.map toUpperCase) ":"
  | [] => by simp [join, toUpperCase_empty]
  | [a] => by simp [join]
  | a :: b :: rest => by
    have ih := toUpperCase_join_colon (b :: rest)
    simp only [join, List.map, toUpperCase_append, toUpperCase_colon] at ih ⊢
    rw [ih]

theorem upperOrEmpty_eq (f : Option String) : upperOrEmpty f = toUpperCase (f.getD "") := by
  cases f with
  | none => simp [upperOrEmpty, toUpperCase_empty]
  | some s => simp [upperOrEmpty]

/-- On a byte buffer `parseMac` renders the bytes at offsets 2..7 (as many as exist). -/
theorem parseMac_buffer (deviceId name localName : Option String) (bytes : List Byte) :
    parseMac (some ⟨deviceId, name, localName, .buffer bytes⟩) =
      join ((slice bytes 2 8).map upperHexPair) ":" := by
  simp only [parseMac, parseMac.body, toUpperCase_join_colon, List.map_map]
  congr 1
  apply List.map_congr_left
  intro b _
  exact toUpperCase_hexPair b

theorem slice_2_8 (bytes : List Byte) (h : 8 ≤ bytes.length) :
    slice bytes 2 8 = (List.range 6).map (fun i => bytes.getD (2 + i) 0) := by
  match bytes, h with
  | b0 :: b1 :: b2 :: b3 :: b4 :: b5 :: b6 :: b7 :: rest, _ =>
    simp [slice, List.range, List.range.loop]

theorem toUpper_toLower_ascii : ∀ n : Fin 128,
    (Char.ofNat n.val).toLower.toUpper = (Char.ofNat n.val).toUpper := by
  decide

theorem toUpper_toLower (c : Char) (h : c.toNat < 128) : c.toLower.toUpper = c.toUpper := by
  have := toUpper_toLower_ascii ⟨c.toNat, h⟩
  simpa [Char.ofNat_toNat] using this

theorem codePointUpper_ascii (c : Char) (h : c.toNat < 128) : codePointUpper c = [c.toUpper] := by
  unfold codePointUpper
  have : c.toNat < 0xB5 := by omega
  simp [this]

theorem flatMap_codePointUpper_ascii : ∀ l : List Char, (∀ c ∈ l, c.toNat < 128) →
    l.flatMap codePointUpper = l.map Char.toUpper := by
  intro l
  induction l with
  | nil => intro _; rfl
  | cons c rest ih =>
    intro h
    rw [List.flatMap_cons, List.map_cons, codePointUpper_ascii c (h c (by simp)),
      ih (fun x hx => h x (by simp [hx]))]
    rfl

theorem isAscii_iff (s : String) : isAscii s = true ↔ ∀ c ∈ s.data, c.toNat < 128 := by
  simp [isAscii, List.all_eq_true]

theorem toUpperCase_ascii (s : String) (h : isAscii s = true) :
    (toUpperCase s).data = s.data.map Char.toUpper := by
  rw [toUpperCase_data]
  exact flatMap_codePointUpper_ascii s.data ((isAscii_iff s).mp h)

theorem toUpperCase_eq_of_eqIgnoreAsciiCase (a b : String) (ha : isAscii a = true)
    (hb : isAscii b = true) (h : eqIgnoreAsciiCase a b = true) :
    toUpperCase a = toUpperCase b := by
  apply String.ext
  rw [toUpperCase_ascii a ha, toUpperCase_ascii b hb]
  unfold eqIgnoreAsciiCase at h
  have h' : a.data.map Char.toLower = b.data.map Char.toLower := by simpa using h
  have key : ∀ s : String, isAscii s = true →
      s.data.map Char.toUpper = (s.data.map Char.toLower).map Char.toUpper := by
    intro s hs
    rw [List.map_map]
    apply List.map_congr_left
    intro c hc
    exact (toUpper_toLower c ((isAscii_iff s).mp hs c hc)).symm
  rw [key a ha, key b hb, h']

set_option maxRecDepth 100000 in
theorem toUpperCase_upperHexPair : ∀ b : Byte, toUpperCase (upperHexPair b) = upperHexPair b := by
  decide

/-- The MAC that `parseMac` returns is in upper case already. -/
theorem toUpperCase_parseMac (devices : Device) :
    toUpperCase (parseMac (some devices)) = parseMac (some devices) := by
  obtain ⟨deviceId, name, localName, advertisData⟩ := devices
  cases advertisData with
  | buffer bytes =>
    rw [parseMac_buffer, toUpperCase_join_colon, List.map_map]
    congr 1
    apply List.map_congr_left
    intro b _
    exact toUpperCase_upperHexPair b
  | missing => exact toUpperCase_empty
  | unsliceable => exact toUpperCase_empty

/-- Claim C5: `matchDevice(d, id)` is true exactly when the upper-cased `id` equals
`parseMac(d)`, or the upper-cased `localName`, `name` or `deviceId` of `d` (a missing
field counting as the empty string). Upper-casing is the Unicode mapping: on ASCII
text it changes the letters `a` to `z` only, so that identifiers that differ in the
case of ASCII letters match the same devices, and a field that differs from the
identifier in the case of ASCII letters matches it; a device matches its own MAC;
`"café"` matches `"CAFÉ"` and `"straße"` matches `"STRASSE"`; and every device whose
advertisement bytes at offsets 2..7 are `11 22 33 44 55 AA` matches the identifier
`"11:22:33:44:55:aa"`. -/
theorem matchDevice_iff (devices : Device) (deviceId : String) :
    (matchDevice (some devices) deviceId = true ↔
      (toUpperCase deviceId = parseMac (some devices) ∨
       toUpperCase deviceId = toUpperCase (devices.localName.getD "") ∨
       toUpperCase deviceId = toUpperCase (devices.name.getD "") ∨
       toUpperCase deviceId = toUpperCase (devices.deviceId.getD ""))) ∧
    (isAscii deviceId = true →
      (toUpperCase deviceId).data = deviceId.data.map Char.toUpper) ∧
    (∀ other : String, isAscii deviceId = true → isAscii other = true →
      eqIgnoreAsciiCase other deviceId = true →
      matchDevice (some devices) other = matchDevice (some devices) deviceId) ∧
    (∀ field : String, isAscii deviceId = true → isAscii field = true →
      eqIgnoreAsciiCase field deviceId = true →
      matchDevice (some { devices with localName := some field }) deviceId = true ∧
      matchDevice (some { devices with name := some field }) deviceId = true ∧
      matchDevice (some { devices with deviceId := some field }) deviceId = true) ∧
    matchDevice (some devices) (parseMac (some devices)) = true ∧
    matchDevice (some ⟨none, some "café", none, .missing⟩) "CAFÉ" = true ∧
    matchDevice (some ⟨none, some "straße", none, .missing⟩) "STRASSE" = true ∧
    (∀ (b0 b1 : Byte) (rest : List Byte) (sysId name localName : Option String),
      matchDevice (some ⟨sysId, name, localName,
        .buffer (b0 :: b1 :: 0x11 :: 0x22 :: 0x33 :: 0x44 :: 0x55 :: 0xAA :: rest)⟩)
        "11:22:33:44:55:aa" = true) := by
  have hiff : ∀ (d : Device) (id : String), matchDevice (some d) id = true ↔
      (toUpperCase id = parseMac (some d) ∨
       toUpperCase id = toUpperCase (d.localName.getD "") ∨
       toUpperCase id = toUpperCase (d.name.getD "") ∨
       toUpperCase id = toUpperCase (d.deviceId.getD "")) := by
    intro d id
    simp [matchDevice, upperOrEmpty_eq]
  refine ⟨hiff devices deviceId, toUpperCase_ascii deviceId, ?_, ?_, ?_, by decide, by decide,
    ?_⟩
  · intro other ha hb h
    have hu := toUpperCase_eq_of_eqIgnoreAsciiCase other deviceId hb ha h
    have h1 := hiff devices other
    have h2 := hiff devices deviceId
    rw [hu] at h1
    cases hm : matchDevice (some devices) deviceId with
    | true => exact h1.mpr (h2.mp hm)
    | false =>
      cases ho : matchDevice (some devices) other with
      | true => rw [h2.mpr (h1.mp ho)] at hm; exact hm
      | false => rfl
  · intro field ha hb h
    have hu := (toUpperCase_eq_of_eqIgnoreAsciiCase field deviceId hb ha h).symm
    refine ⟨(hiff _ _).mpr (Or.inr (Or.inl hu)), (hiff _ _).mpr (Or.inr (Or.inr (Or.inl hu))),
      (hiff _ _).mpr (Or.inr (Or.inr (Or.inr hu)))⟩
  · exact (hiff _ _).mpr (Or.inl (toUpperCase_parseMac devices))
  · intro b0 b1 rest sysId name localName
    have h1 : parseMac (some ⟨sysId, name, localName,
        .buffer (b0 :: b1 :: 0x11 :: 0x22 :: 0x33 :: 0x44 :: 0x55 :: 0xAA :: rest)⟩)
        = "11:22:33:44:55:AA" := by
      rw [parseMac_buffer]
      have : slice (b0 :: b1 :: (0x11 : Byte) :: 0x22 :: 0x33 :: 0x44 :: 0x55 :: 0xAA :: rest) 2 8
          = [0x11, 0x22, 0x33, 0x44, 0x55, 0xAA] := by simp [slice]
      rw [this]
      decide
    have h2 : toUpperCase "11:22:33:44:55:aa" = "11:22:33:44:55:AA" := by decide
    exact (hiff _ _).mpr (Or.inl (by rw [h1, h2]))

/-- Claim C5 at the sample device, whose name is `"lamp"`: the identifiers `"Lamp"`
and `"LAMP"` differ in case only, and both match it. -/
theorem matchDevice_iff_witness :
    isAscii "LAMP" = true ∧ isAscii "Lamp" = true ∧ eqIgnoreAsciiCase "Lamp" "LAMP" = true ∧
    matchDevice (some sampleDevice) "Lamp" = matchDevice (some sampleDevice) "LAMP" ∧
    matchDevice (some sampleDevice) "LAMP" = true :=
  ⟨by decide, by decide, by decide,
   (matchDevice_iff sampleDevice "LAMP").2.2.1 "Lamp" (by decide) (by decide) (by decide),
   by decide⟩

theorem upperHexPair_length (b : Byte) : (upperHexPair b).length = 2 := rfl

theorem join_cons_length_pos (a : String) (rest : List String) (sep : String)
    (ha : 0 < a.length) : 0 < (join (a :: rest) sep).length := by
  cases rest with
  | nil => simpa [join] using ha
  | cons b rest =>
    simp only [join, String.length_append]
    omega

/-- Claim C6, as stated, fails: a 5-byte advertisement payload is shorter than the
8 bytes the MAC window needs, yet `parseMac` returns the non-empty string built
from the three bytes at offsets 2..4. -/
theorem parseMac_short_payload :
    ([1, 2, 3, 4, 5] : List Byte).length < 8 ∧
    parseMac (some ⟨some "SYS", none, none, .buffer [1, 2, 3, 4, 5]⟩) = "03:04:05" ∧
    parseMac (some ⟨some "SYS", none, none, .buffer [1, 2, 3, 4, 5]⟩) ≠ "" := by
  decide

/-- Claim C6 (amended): `parseMac` never throws (every exception of its body is
caught and turned into `""`), and it returns `""` when the device is missing, when
`advertisData` is missing, when `advertisData` is a value without a `slice` method,
and, for a byte payload, exactly when the payload has at most 2 bytes. -/
theorem parseMac_empty_cases :
    (∀ devices e, parseMac.body devices = .error e → parseMac devices = "") ∧
    parseMac none = "" ∧
    (∀ deviceId name localName, parseMac (some ⟨deviceId, name, localName, .missing⟩) = "") ∧
    (∀ deviceId name localName,
      parseMac (some ⟨deviceId, name, localName, .unsliceable⟩) = "") ∧
    (∀ deviceId name localName bytes,
      (parseMac (some ⟨deviceId, name, localName, .buffer bytes⟩) = "" ↔ bytes.length ≤ 2)) := by
  refine ⟨?_, rfl, fun _ _ _ => rfl, fun _ _ _ => rfl, ?_⟩
  · intro devices e h
    simp [parseMac, h]
  · intro deviceId name localName bytes
    rw [parseMac_buffer]
    constructor
    · intro h
      by_contra hlen
      match bytes, hlen with
      | [], hlen => exact hlen (by simp)
      | [_], hlen => exact hlen (by simp)
      | [_, _], hlen => exact hlen (by simp)
      | b0 :: b1 :: b2 :: rest, _ =>
        have hs : slice (b0 :: b1 :: b2 :: rest) 2 8 = b2 :: rest.take 5 := by
          simp [slice]
        rw [hs, List.map_cons] at h
        have := join_cons_length_pos (upperHexPair b2) ((rest.take 5).map upperHexPair) ":"
          (by rw [upperHexPair_length]; omega)
        rw [h] at this
        simp at this
    · intro hlen
      match bytes, hlen with
      | [], _ => rfl
      | [_], _ => rfl
      | [_, _], _ => rfl

/-- Claim C6 (amended), at a concrete input: for a missing device the body throws a
`TypeError`, and `parseMac` returns `""`. -/
theorem parseMac_empty_cases_witness :
    parseMac.body none = .error (.typeError "devices.advertisData") ∧ parseMac none = "" :=
  ⟨rfl, parseMac_empty_cases.1 none _ rfl⟩

/-- Claim C7: for every advertisement payload of at least 8 bytes, `parseMac`
returns six two-digit upper-case hexadecimal groups joined by `':'`, the `i`-th
group rendering payload byte `2 + i`; the string has 17 characters; and any other
device whose payload agrees on offsets 2..7 yields the same string. -/
theorem parseMac_window (deviceId name localName : Option String) (bytes : List Byte)
    (h : 8 ≤ bytes.length) :
    parseMac (some ⟨deviceId, name, localName, .buffer bytes⟩) =
      join ((List.range 6).map (fun i => upperHexPair (bytes.getD (2 + i) 0))) ":" ∧
    (parseMac (some ⟨deviceId, name, localName, .buffer bytes⟩)).length = 17 ∧
    ∀ (deviceId' name' localName' : Option String) (bytes' : List Byte), 8 ≤ bytes'.length →
      (∀ i, i < 6 → bytes'.getD (2 + i) 0 = bytes.getD (2 + i) 0) →
      parseMac (some ⟨deviceId', name', localName', .buffer bytes'⟩) =
        parseMac (some ⟨deviceId, name, localName, .buffer bytes⟩) := by
  have key : ∀ (d n l : Option String) (bs : List Byte), 8 ≤ bs.length →
      parseMac (some ⟨d, n, l, .buffer bs⟩) =
        join ((List.range 6).map (fun i => upperHexPair (bs.getD (2 + i) 0))) ":" := by
    intro d n l bs hbs
    rw [parseMac_buffer, slice_2_8 bs hbs, List.map_map]
    rfl
  refine ⟨key _ _ _ _ h, ?_, ?_⟩
  · rw [key _ _ _ _ h]
    have hc : ":".length = 1 := rfl
    simp [List.range, List.range.loop, join, String.length_append, upperHexPair_length, hc]
  · intro d' n' l' bytes' h' hagree
    rw [key _ _ _ _ h, key _ _ _ _ h']
    congr 1
    apply List.map_congr_left
    intro i hi
    rw [hagree i (List.mem_range.mp hi)]

/-- Claim C7 at a concrete 10-byte payload. -/
theorem parseMac_window_witness :
    8 ≤ ([0, 1, 0x11, 0x22, 0x33, 0x44, 0x55, 0xAA, 9, 9] : List Byte).length ∧
    parseMac (some ⟨some "SYS", none, none,
      .buffer [0, 1, 0x11, 0x22, 0x33, 0x44, 0x55, 0xAA, 9, 9]⟩) = "11:22:33:44:55:AA" :=
  ⟨by decide,
   (parseMac_window (some "SYS") none none [0, 1, 0x11, 0x22, 0x33, 0x44, 0x55, 0xAA, 9, 9]
      (by decide)).1.trans (by decide)⟩

/-! ## Write path: properties -/

/-- When a record is found `closeConnection` rejects with the `ReferenceError` of
its assignment; when none is found its promise stays pending.  No request is sent. -/
theorem closeConnection_eq (g : Gateway) (deviceId : String) (w : World) :
    closeConnection g deviceId w =
      match w.connectedDevice.get deviceId with
      | some _ => (.rejected (.referenceError "deviceId"), w)
      | none => (.pending, w) := by
  unfold closeConnection
  cases w.connectedDevice.get deviceId <;> rfl

theorem reconnectDevice_eq (g : Gateway) (deviceId : String) (w : World) :
    reconnectDevice g deviceId w =
      match w.connectedDevice.get deviceId with
      | some _ => (.rejected (.referenceError "deviceId"), w)
      | none => (.pending, w) := by
  unfold reconnectDevice
  rw [closeConnection_eq]
  cases w.connectedDevice.get deviceId <;> rfl

theorem writeBLE_noReload_eq (g : Gateway) (option : WriteOption) (w : World) :
    writeBLE.noReload g option w =
      ((g.writeBLECharacteristicValue (w.calls ++ [option.call])).toOutcome,
        w.issue option.call) := by
  unfold writeBLE.noReload World.request
  cases g.writeBLECharacteristicValue (w.calls ++ [option.call]) <;> rfl

/-- The specialised `writeBLE.noReload` is `writeBLE` with `reload = false`. -/
theorem writeBLE_false (g : Gateway) (option : WriteOption) (w : World) :
    writeBLE g option false w = writeBLE.noReload g option w := by
  unfold writeBLE writeBLE.noReload World.request
  cases g.writeBLECharacteristicValue (w.calls ++ [option.call]) <;> simp

theorem writeBLE_eq (g : Gateway) (option : WriteOption) (reload : Bool) (w : World) :
    writeBLE g option reload w =
      (match g.writeBLECharacteristicValue (w.calls ++ [option.call]) with
        | .success res => .resolved res
        | .silent => .pending
        | .fail err =>
          if reload = true ∧ err.errCode = 10004 then
            match w.connectedDevice.get (matchDeviceId w.connectedDevice option.deviceId) with
            | some _ => .rejected (.referenceError "deviceId")
            | none => .pending
          else .rejected err.toError,
       w.issue option.call) := by
  unfold writeBLE World.request
  cases hr : g.writeBLECharacteristicValue (w.calls ++ [option.call]) with
  | success res => rfl
  | silent => rfl
  | fail err =>
    simp only
    by_cases hc : reload = true ∧ err.errCode = 10004
    · rw [if_pos hc, if_pos hc, reconnectDevice_eq]
      have hw : (w.issue option.call).connectedDevice = w.connectedDevice := rfl
      rw [hw]
      cases w.connectedDevice.get (matchDeviceId w.connectedDevice option.deviceId) <;> rfl
    · rw [if_neg hc, if_neg hc]

theorem loopWriteValue_loop_eq (g : Gateway) (deviceId : String) (value : List Byte) (i : Nat)
    (w : World) :
    loopWriteValue.loop g deviceId value i w =
      if i < value.length then
        awaitTry (writeDevice g deviceId (slice value i (packetSize * (i + 1))) w) rejectWith
          fun _ w => loopWriteValue.loop g deviceId value (i + packetSize) w
      else (.resolved true, w) := by
  rw [loopWriteValue.loop]

/-- Once `k` chunk writes have resolved, `loopWriteValue` continues as its loop
entered with loop variable `packetSize * k`. -/
theorem loopWriteValue_reach (g : Gateway) (deviceId : String) (value : List Byte) :
    ∀ (k : Nat) (w wk : World), loopWriteValue.reach g deviceId value k w = some wk →
      loopWriteValue g deviceId value w =
        loopWriteValue.loop g deviceId value (packetSize * k) wk := by
  intro k
  induction k with
  | zero =>
    intro w wk h
    simp only [loopWriteValue.reach, Option.some.injEq] at h
    subst h
    rfl
  | succ k ih =>
    intro w wk h
    simp only [loopWriteValue.reach] at h
    cases hr : loopWriteValue.reach g deviceId value k w with
    | none => simp [hr] at h
    | some wk' =>
      rw [hr] at h
      simp only at h
      by_cases hlt : packetSize * k < value.length
      · rw [if_pos hlt] at h
        rw [ih w wk' hr, loopWriteValue_loop_eq, if_pos hlt]
        cases hw : writeDevice g deviceId
            (slice value (packetSize * k) (packetSize * (packetSize * k + 1))) wk' with
        | mk o w' =>
          rw [hw] at h
          cases o with
          | resolved res =>
            simp only [Option.some.injEq] at h
            subst h
            simp only [awaitTry]
            rw [Nat.mul_succ]
          | rejected e => simp at h
          | pending => simp at h
      · rw [if_neg hlt] at h
        simp at h

theorem awaitTry_id {α : Type} (p : Outcome α × World) :
    awaitTry p rejectWith (fun a w => (.resolved a, w)) = p := by
  obtain ⟨o, w⟩ := p
  cases o <;> rfl

theorem writeDevice_eq (g : Gateway) (deviceId : String) (value : List Byte) (w : World) :
    writeDevice g deviceId value w =
      match w.connectedDevice.get deviceId with
      | none => (.rejected (.coded "-96" (some "未找到设备")), w)
      | some device =>
        writeBLE g
          { deviceId := device.device.deviceId
            serviceId := device.writeServicesId
            characteristicId := device.writeCharacteristicsId
            value := value } true w := by
  unfold writeDevice
  cases w.connectedDevice.get deviceId with
  | none => rfl
  | some device => exact awaitTry_id _

/-- With a record in the registry and a host that accepts every write, the loop
entered at iteration `k` with `m` iterations to go resolves after sending exactly
the `m` chunk writes of `chunkCalls`. -/
theorem loopWriteValue_loop_accepting (g : Gateway) (deviceId : String) (value : List Byte)
    (device : Record)
    (hok : ∀ calls, ∃ res, g.writeBLECharacteristicValue calls = .success res) :
    ∀ (m k : Nat) (w : World), w.connectedDevice.get deviceId = some device →
      packetSize * (k + m) < value.length + packetSize → value.length ≤ packetSize * (k + m) →
      loopWriteValue.loop g deviceId value (packetSize * k) w =
        (.resolved true, { w with calls := w.calls ++ chunkCalls device value k m }) := by
  intro m
  induction m with
  | zero =>
    intro k w _ _ hge
    rw [loopWriteValue_loop_eq, if_neg (by simpa using hge)]
    simp [chunkCalls]
  | succ m ih =>
    intro k w hrec hlt hge
    have hk : packetSize * k < value.length := by
      simp only [packetSize] at hlt ⊢
      omega
    rw [loopWriteValue_loop_eq, if_pos hk, writeDevice_eq, hrec]
    simp only
    rw [writeBLE_eq]
    obtain ⟨res, hres⟩ := hok (w.calls ++
      [WriteOption.call ⟨device.device.deviceId, device.writeServicesId,
        device.writeCharacteristicsId,
        slice value (packetSize * k) (packetSize * (packetSize * k + 1))⟩])
    rw [hres]
    simp only [awaitTry]
    have hstep : packetSize * k + packetSize = packetSize * (k + 1) := by
      rw [Nat.mul_succ]
    rw [hstep, ih (k + 1) _ (by simpa [World.issue] using hrec)
      (by rw [show k + 1 + m = k + (m + 1) by omega]; exact hlt)
      (by rw [show k + 1 + m = k + (m + 1) by omega]; exact hge)]
    simp [World.issue, chunkCalls, WriteOption.call]

/-- What `loopWriteValue` does for every payload when the record exists and the
host accepts every write: it resolves after `⌈n / 20⌉` writes, the `k`-th carrying
`value.slice(20 k, 20 (20 k + 1))`. -/
theorem loopWriteValue_accepting (g : Gateway) (deviceId : String) (value : List Byte)
    (device : Record) (w : World)
    (hrec : w.connectedDevice.get deviceId = some device)
    (hok : ∀ calls, ∃ res, g.writeBLECharacteristicValue calls = .success res) :
    loopWriteValue g deviceId value w =
      (.resolved true,
        { w with calls :=
          w.calls ++ chunkCalls device value 0 ((value.length + (packetSize - 1)) / packetSize) }) := by
  have h := loopWriteValue_loop_accepting g deviceId value device hok
    ((value.length + (packetSize - 1)) / packetSize) 0 w hrec
    (by simp only [packetSize]; omega) (by simp only [packetSize]; omega)
  simpa [loopWriteValue] using h

/-- Claim C1 fails on the code: for the 45-byte payload, with a connected record
and a host that accepts every write, `loopWriteValue` resolves after three writes
that carry `payload[0..20)`, `payload[20..45)` and `payload[40..45)`: the sizes are
`[20, 25, 5]`, not `[20, 20, 5]`, the second chunk exceeds 20 bytes and bytes
40..44 are sent twice. -/
theorem loopWriteValue_45_bytes :
    (loopWriteValue acceptAll "dev" payload45 sampleWorld).1 = .resolved true ∧
    (loopWriteValue acceptAll "dev" payload45 sampleWorld).2.calls =
      [.writeBLECharacteristicValue (some "SYS") "SV" "CH" (slice payload45 0 20),
       .writeBLECharacteristicValue (some "SYS") "SV" "CH" (slice payload45 20 45),
       .writeBLECharacteristicValue (some "SYS") "SV" "CH" (slice payload45 40 45)] ∧
    writeSizes (loopWriteValue acceptAll "dev" payload45 sampleWorld).2.calls = [20, 25, 5] ∧
    writeSizes (loopWriteValue acceptAll "dev" payload45 sampleWorld).2.calls ≠ [20, 20, 5] := by
  rw [loopWriteValue_accepting acceptAll "dev" payload45 sampleRecord sampleWorld rfl
    (fun _ => ⟨_, rfl⟩)]
  refine ⟨rfl, ?_, ?_, ?_⟩ <;> decide

/-- Whatever the host and the registry, a first write failing with code 10004 is
never followed by a disconnect, a reconnect or a retry: `writeBLE` sends the one
write and then rejects with the `ReferenceError` of `closeConnection`, or stays
pending when `matchDeviceId` finds no record. -/
theorem writeBLE_10004_never_retries (g : Gateway) (option : WriteOption) (w : World)
    (err : GatewayErr)
    (hfail : g.writeBLECharacteristicValue (w.calls ++ [option.call]) = .fail err)
    (hcode : err.errCode = 10004) :
    writeBLE g option true w = (.rejected (.referenceError "deviceId"), w.issue option.call) ∨
    writeBLE g option true w = (.pending, w.issue option.call) := by
  rw [writeBLE_eq, hfail]
  simp only [hcode, and_self, if_true]
  cases w.connectedDevice.get (matchDeviceId w.connectedDevice option.deviceId) with
  | none => exact Or.inr rfl
  | some _ => exact Or.inl rfl

/-- Claim C8 fails on the code: with a record for `"dev"` in the registry and a
host whose first write fails with code 10004, `writeBLE` (default `reload`) rejects
with the `ReferenceError` raised in `closeConnection`, having sent the single
failed write: no disconnect, no reconnect and no retry write.  The same happens
through `writeDevice`. -/
theorem writeBLE_10004_no_retry :
    (failRequest 1 10004).writeBLECharacteristicValue
      [.writeBLECharacteristicValue (some "SYS") "SV" "CH" [1, 2, 3]] = .fail ⟨10004, "fail"⟩ ∧
    (writeBLE (failRequest 1 10004) ⟨some "SYS", "SV", "CH", [1, 2, 3]⟩ true sampleWorld).1 =
      .rejected (.referenceError "deviceId") ∧
    (writeBLE (failRequest 1 10004) ⟨some "SYS", "SV", "CH", [1, 2, 3]⟩ true sampleWorld).2.calls =
      [.writeBLECharacteristicValue (some "SYS") "SV" "CH" [1, 2, 3]] ∧
    (writeDevice (failRequest 1 10004) "dev" [1, 2, 3] sampleWorld).1 =
      .rejected (.referenceError "deviceId") ∧
    (writeDevice (failRequest 1 10004) "dev" [1, 2, 3] sampleWorld).2.calls =
      [.writeBLECharacteristicValue (some "SYS") "SV" "CH" [1, 2, 3]] := by
  decide

/-- Claim C9: for every host behaviour, one call of `writeBLE` sends the write and
at most one further write; unless the first write fails with code 10004 it sends
nothing else and settles as the host replied, so a failure with any other code is
passed on unmodified, with no reconnect and no retry; and the call made for the
retry, `writeBLE(option, false)`, sends exactly one write and settles as the host
replied, whatever the code. -/
theorem writeBLE_at_most_one_retry (g : Gateway) (option : WriteOption) (reload : Bool)
    (w : World) :
    (∃ later, (writeBLE g option reload w).2.calls = w.calls ++ option.call :: later ∧
      (later.filter Call.isWrite).length ≤ 1) ∧
    ((¬ ∃ err, g.writeBLECharacteristicValue (w.calls ++ [option.call]) = .fail err ∧
        err.errCode = 10004) →
      writeBLE g option reload w =
        ((g.writeBLECharacteristicValue (w.calls ++ [option.call])).toOutcome,
          w.issue option.call)) ∧
    (∀ err, g.writeBLECharacteristicValue (w.calls ++ [option.call]) = .fail err →
      err.errCode ≠ 10004 →
      writeBLE g option reload w =
        (.rejected (.gateway err.errCode err.errMsg), w.issue option.call)) ∧
    writeBLE g option false w =
      ((g.writeBLECharacteristicValue (w.calls ++ [option.call])).toOutcome,
        w.issue option.call) := by
  refine ⟨⟨[], ?_, by simp⟩, ?_, ?_, ?_⟩
  · rw [writeBLE_eq]
    simp [World.issue]
  · intro h
    rw [writeBLE_eq]
    cases hr : g.writeBLECharacteristicValue (w.calls ++ [option.call]) with
    | success res => rfl
    | silent => rfl
    | fail err =>
      have hne : ¬ (reload = true ∧ err.errCode = 10004) := fun hc => h ⟨err, hr, hc.2⟩
      simp only [if_neg hne]
      rfl
  · intro err hr hne
    rw [writeBLE_eq, hr]
    have hne' : ¬ (reload = true ∧ err.errCode = 10004) := fun hc => hne hc.2
    simp only [if_neg hne']
    rfl
  · rw [writeBLE_false, writeBLE_noReload_eq]

/-- Claim C9 at a concrete host: the first write fails with code 10006, and
`writeBLE` rejects with that error after the single write. -/
theorem writeBLE_at_most_one_retry_witness :
    (failRequest 1 10006).writeBLECharacteristicValue
      (sampleWorld.calls ++ [WriteOption.call ⟨some "SYS", "SV", "CH", [1, 2, 3]⟩]) =
      .fail ⟨10006, "fail"⟩ ∧
    writeBLE (failRequest 1 10006) ⟨some "SYS", "SV", "CH", [1, 2, 3]⟩ true sampleWorld =
      (.rejected (.gateway 10006 "fail"),
        sampleWorld.issue (.writeBLECharacteristicValue (some "SYS") "SV" "CH" [1, 2, 3])) :=
  ⟨rfl,
   (writeBLE_at_most_one_retry (failRequest 1 10006) ⟨some "SYS", "SV", "CH", [1, 2, 3]⟩ true
      sampleWorld).2.2.1 ⟨10006, "fail"⟩ rfl (by decide)⟩

/-- Claim C10: let the loop of `loopWriteValue` reach chunk `k` in world `wk`, the
earlier chunk writes having resolved.  If the write of chunk `k` rejects with `e`,
`loopWriteValue` rejects with `e` in the very world that write left, so nothing is
sent afterwards; if it never settles, neither does `loopWriteValue`; if it resolves,
the loop goes on to chunk `k + 1` from the world it left; and chunk `k + 1` is
reached only when the write of chunk `k` resolved. -/
theorem loopWriteValue_abort (g : Gateway) (deviceId : String) (value : List Byte)
    (w wk : World) (k : Nat)
    (hreach : loopWriteValue.reach g deviceId value k w = some wk)
    (hk : packetSize * k < value.length) :
    (∀ e w', writeDevice g deviceId
        (slice value (packetSize * k) (packetSize * (packetSize * k + 1))) wk = (.rejected e, w') →
      loopWriteValue g deviceId value w = (.rejected e, w')) ∧
    (∀ w', writeDevice g deviceId
        (slice value (packetSize * k) (packetSize * (packetSize * k + 1))) wk = (.pending, w') →
      loopWriteValue g deviceId value w = (.pending, w')) ∧
    (∀ res w', writeDevice g deviceId
        (slice value (packetSize * k) (packetSize * (packetSize * k + 1))) wk = (.resolved res, w') →
      loopWriteValue.reach g deviceId value (k + 1) w = some w' ∧
      loopWriteValue g deviceId value w =
        loopWriteValue.loop g deviceId value (packetSize * (k + 1)) w') ∧
    (∀ w', loopWriteValue.reach g deviceId value (k + 1) w = some w' →
      ∃ res, writeDevice g deviceId
        (slice value (packetSize * k) (packetSize * (packetSize * k + 1))) wk =
          (.resolved res, w')) := by
  have h0 := loopWriteValue_reach g deviceId value k w wk hreach
  rw [loopWriteValue_loop_eq, if_pos hk] at h0
  refine ⟨?_, ?_, ?_, ?_⟩
  · intro e w' hw
    rw [h0, hw]
    rfl
  · intro w' hw
    rw [h0, hw]
    rfl
  · intro res w' hw
    constructor
    · simp [loopWriteValue.reach, hreach, hk, hw]
    · rw [h0, hw]
      simp only [awaitTry]
      rw [Nat.mul_succ]
  · intro w' h
    simp only [loopWriteValue.reach, hreach, if_pos hk] at h
    cases hw : writeDevice g deviceId
        (slice value (packetSize * k) (packetSize * (packetSize * k + 1))) wk with
    | mk o w'' =>
      rw [hw] at h
      cases o with
      | resolved res =>
        simp only [Option.some.injEq] at h
        subst h
        exact ⟨res, rfl⟩
      | rejected e => simp at h
      | pending => simp at h

/-- Claim C10 at a concrete host: the write of the second chunk of the 45-byte
payload fails with code 10006; `loopWriteValue` rejects with that error and the
third chunk is never sent. -/
theorem loopWriteValue_abort_witness :
    loopWriteValue.reach (failRequest 2 10006) "dev" payload45 1 sampleWorld =
      some (sampleWorld.issue
        (.writeBLECharacteristicValue (some "SYS") "SV" "CH" (slice payload45 0 20))) ∧
    packetSize * 1 < payload45.length ∧
    loopWriteValue (failRequest 2 10006) "dev" payload45 sampleWorld =
      (.rejected (.gateway 10006 "fail"),
        { sampleWorld with calls :=
          [.writeBLECharacteristicValue (some "SYS") "SV" "CH" (slice payload45 0 20),
           .writeBLECharacteristicValue (some "SYS") "SV" "CH" (slice payload45 20 45)] }) :=
  ⟨rfl, by decide,
   (loopWriteValue_abort (failRequest 2 10006) "dev" payload45 sampleWorld
      (sampleWorld.issue
        (.writeBLECharacteristicValue (some "SYS") "SV" "CH" (slice payload45 0 20)))
      1 rfl (by decide)).1 _ _ rfl⟩

/-! ## Connection orchestration: properties -/

theorem matchUUID_absent (uuid : String) :
    getBLEDeviceServices.matchUUID .absent uuid = false := by
  simp [getBLEDeviceServices.matchUUID, MatchPolicy.orElse, MatchPolicy.truthy, matchStr]

theorem getBLEDeviceServices_loop_absent (g : Gateway) (deviceId : Option String) :
    ∀ (uuids : List String) (w : World),
      getBLEDeviceServices.loop g deviceId .absent uuids [] w =
        (.rejected (.coded "-95" none), w) := by
  intro uuids
  induction uuids with
  | nil => intro w; simp [getBLEDeviceServices.loop]
  | cons u rest ih =>
    intro w
    rw [getBLEDeviceServices.loop]
    simp [matchUUID_absent, ih]

/-- Whatever services the host reports, `getBLEDeviceServices` without a service
policy keeps none of them and rejects with `'-95'`, without asking for any
characteristics. -/
theorem getBLEDeviceServices_absent (g : Gateway) (deviceId : Option String) (w : World)
    (uuids : List String)
    (h : g.getBLEDeviceServices (w.calls ++ [.getBLEDeviceServices deviceId]) = .success uuids) :
    getBLEDeviceServices g deviceId .absent w =
      (.rejected (.coded "-95" none), w.issue (.getBLEDeviceServices deviceId)) := by
  unfold getBLEDeviceServices World.request
  rw [h]
  exact getBLEDeviceServices_loop_absent g deviceId uuids _

/-- Claim C20 fails on the code: the host reports the one service `"SV"`, the
caller passes no service policy and `servicesConfig` has its default value, yet
`getBLEDeviceServices` rejects with `'-95'` and asks for no characteristics; with a
policy that accepts every uuid the same call resolves with that service. -/
theorem getBLEDeviceServices_no_policy :
    acceptAll.getBLEDeviceServices [.getBLEDeviceServices (some "SYS")] = .success ["SV"] ∧
    (getBLEDeviceServices acceptAll (some "SYS") .absent sampleWorld).1 =
      .rejected (.coded "-95" none) ∧
    (getBLEDeviceServices acceptAll (some "SYS") .absent sampleWorld).2.calls =
      [.getBLEDeviceServices (some "SYS")] ∧
    (getBLEDeviceServices acceptAll (some "SYS") (.fn fun _ => true) sampleWorld).1 =
      .resolved [⟨"SV", ⟨[⟨"CH", ⟨true, false, false⟩⟩]⟩⟩] := by
  decide

/-- Whatever the host and the registry, when the adapter fails to open the promise
of `toConnectDevice` is never settled. -/
theorem toConnectDevice_adapter_failure (g : Gateway) (option : DeviceOption) (w : World)
    (err : GatewayErr)
    (h : g.openBluetoothAdapter (w.calls ++ [.openBluetoothAdapter]) = .fail err) :
    toConnectDevice g option w = (.pending, w.issue .openBluetoothAdapter) := by
  unfold toConnectDevice dealOpenAdapter World.request
  rw [h]
  rfl

/-- Claim C18 fails on the code: when the adapter fails to open, `dealOpenAdapter`
rejects with `'-99'` but `toConnectDevice` stays pending; and when the scan for an
identifier without a record times out, `blueScan` rejects with `'-97'` but
`toConnectDevice` stays pending. -/
theorem toConnectDevice_failures_pending :
    dealOpenAdapter adapterDown emptyWorld =
      (.rejected (.coded "-99" (some "not available")), emptyWorld.issue .openBluetoothAdapter) ∧
    (toConnectDevice adapterDown (plainOption "lamp") emptyWorld).1 = .pending ∧
    (toConnectDevice adapterDown (plainOption "lamp") emptyWorld).2.calls =
      [.openBluetoothAdapter] ∧
    (blueScan nothingFound (.str "lamp") 10000
      (((emptyWorld.issue .openBluetoothAdapter).issue (.getConnectedBluetoothDevices [])).issue
        .getBluetoothDevices)).1 = .rejected (.coded "-97" (some "扫描设备超时")) ∧
    (toConnectDevice nothingFound (plainOption "lamp") emptyWorld).1 = .pending ∧
    (toConnectDevice nothingFound (plainOption "lamp") emptyWorld).2.calls =
      [.openBluetoothAdapter, .getConnectedBluetoothDevices [], .getBluetoothDevices,
       .startBluetoothDevicesDiscovery, .stopBluetoothDevicesDiscovery] := by
  refine ⟨rfl, ?_, ?_, ?_, ?_, ?_⟩ <;> decide

/-- With write handles cached and no callback in the option, the part of
`toConnectDevice` after the liveness check leaves the registry alone and sends at
most a connect request. -/
theorem toConnectDevice_connect_fast (g : Gateway) (option : DeviceOption) (isConnect : Bool)
    (r : Record) (w : World)
    (hch : r.writeCharacteristicsId ≠ "") (hsv : r.writeServicesId ≠ "")
    (hn : option.onNotify = none) (hc : option.onClose = none) :
    (toConnectDevice.connect g option isConnect (.record r) w).2.connectedDevice =
      w.connectedDevice ∧
    ((toConnectDevice.connect g option isConnect (.record r) w).2.calls = w.calls ∨
     (toConnectDevice.connect g option isConnect (.record r) w).2.calls =
       w.calls ++ [.createBLEConnection r.device.deviceId]) := by
  have hl : HandleDevice.lacksWriteHandles (.record r) = false := by
    simp [HandleDevice.lacksWriteHandles, hch, hsv]
  unfold toConnectDevice.connect
  cases isConnect with
  | true =>
    simp [awaitTry, toConnectDevice.discover, hl, toConnectDevice.subscribe, hn,
      toConnectDevice.storeOnClose, hc]
  | false =>
    simp only [Bool.not_false, if_true, createConnect, World.request, HandleDevice.device]
    cases g.createBLEConnection (w.calls ++ [.createBLEConnection r.device.deviceId]) with
    | success res =>
      simp [awaitTry, toConnectDevice.discover, hl, toConnectDevice.subscribe, hn,
        toConnectDevice.storeOnClose, hc, init, World.issue]
      split <;> simp
    | fail err =>
      simp [awaitTry, createConnect.connectSucCodeInFail, init, World.issue]
      split <;> simp
    | silent =>
      simp [awaitTry, init, World.issue]
      split <;> simp

theorem toConnectDevice_catch_record (r : Record) (err : JSError) (w : World) :
    (toConnectDevice.catch (some (.record r)) err w).2.connectedDevice = w.connectedDevice ∧
    ((toConnectDevice.catch (some (.record r)) err w).2.calls = w.calls ∨
     (toConnectDevice.catch (some (.record r)) err w).2.calls =
       w.calls ++ [.closeBLEConnection r.device.deviceId]) := by
  unfold toConnectDevice.catch
  simp only [HandleDevice.device]
  cases hd : r.device.deviceId with
  | none => simp
  | some id =>
    by_cases hid : id = ""
    · simp [hid]
    · simp [hid, World.issue]

/-- Claim C19: when the record of the identifier holds non-empty write handles and
the option carries no `onNotify`/`onClose`, `toConnectDevice` leaves the registry
(hence the record's handles and service tree) unchanged whatever the host does;
when the adapter opens, the requests it sends are the adapter request, the query
of the connected devices with the record's write service, and then at most one
connect or disconnect request: no scan, no service or characteristic enumeration;
and a second call in a row leaves the registry as the first one did. -/
theorem toConnectDevice_fast_path (g : Gateway) (option : DeviceOption) (w : World) (r : Record)
    (hrec : w.connectedDevice.get option.deviceId = some r)
    (hch : r.writeCharacteristicsId ≠ "") (hsv : r.writeServicesId ≠ "")
    (hn : option.onNotify = none) (hc : option.onClose = none) :
    (toConnectDevice g option w).2.connectedDevice = w.connectedDevice ∧
    (∀ res, g.openBluetoothAdapter (w.calls ++ [.openBluetoothAdapter]) = .success res →
      ∃ rest, (toConnectDevice g option w).2.calls =
          w.calls ++ [.openBluetoothAdapter, .getConnectedBluetoothDevices [r.writeServicesId]]
            ++ rest ∧
        (rest = [] ∨ rest = [.createBLEConnection r.device.deviceId] ∨
          rest = [.closeBLEConnection r.device.deviceId])) ∧
    (toConnectDevice g option (toConnectDevice g option w).2).2.connectedDevice =
      (toConnectDevice g option w).2.connectedDevice := by
  have key : ∀ w : World, w.connectedDevice.get option.deviceId = some r →
      (toConnectDevice g option w).2.connectedDevice = w.connectedDevice ∧
      (∀ res, g.openBluetoothAdapter (w.calls ++ [.openBluetoothAdapter]) = .success res →
        ∃ rest, (toConnectDevice g option w).2.calls =
            w.calls ++ [.openBluetoothAdapter, .getConnectedBluetoothDevices [r.writeServicesId]]
              ++ rest ∧
          (rest = [] ∨ rest = [.createBLEConnection r.device.deviceId] ∨
            rest = [.closeBLEConnection r.device.deviceId])) := by
    intro w hrec
    unfold toConnectDevice dealOpenAdapter World.request
    cases ho : g.openBluetoothAdapter (w.calls ++ [.openBluetoothAdapter]) with
    | fail err => simp [awaitTry, toConnectDevice.catch, World.issue]
    | silent => simp [awaitTry, World.issue]
    | success res =>
      have hrec' : (w.issue .openBluetoothAdapter).connectedDevice.get option.deviceId = some r :=
        hrec
      simp only [awaitTry, hrec', getConnectedBluetoothDevices, World.request, Option.map]
      cases hg : g.getConnectedBluetoothDevices ((w.issue .openBluetoothAdapter).calls ++
          [.getConnectedBluetoothDevices [r.writeServicesId]]) with
      | fail err =>
        simp only
        have hc' := toConnectDevice_catch_record r err.toError
          ((w.issue .openBluetoothAdapter).issue (.getConnectedBluetoothDevices [r.writeServicesId]))
        refine ⟨hc'.1, ?_⟩
        intro _ _
        rcases hc'.2 with h | h
        · exact ⟨[], by rw [h]; simp [World.issue], Or.inl rfl⟩
        · exact ⟨[.closeBLEConnection r.device.deviceId], by rw [h]; simp [World.issue],
            Or.inr (Or.inr rfl)⟩
      | silent =>
        simp only
        exact ⟨rfl, fun _ _ => ⟨[], by simp [World.issue], Or.inl rfl⟩⟩
      | success devices =>
        simp only
        obtain ⟨b, hb⟩ : ∃ b : Bool,
            (if option.deviceId.length ≠ 0 then
              ((Outcome.resolved (devices.any (fun d =>
                matchDeviceId ((w.issue .openBluetoothAdapter).issue
                  (.getConnectedBluetoothDevices [r.writeServicesId])).connectedDevice d.deviceId
                  == option.deviceId)),
                (w.issue .openBluetoothAdapter).issue
                  (.getConnectedBluetoothDevices [r.writeServicesId])) : Outcome Bool × World)
            else (.resolved true, (w.issue .openBluetoothAdapter).issue
                  (.getConnectedBluetoothDevices [r.writeServicesId]))) =
            (.resolved b, (w.issue .openBluetoothAdapter).issue
                  (.getConnectedBluetoothDevices [r.writeServicesId])) := by
          by_cases hm : option.deviceId.length ≠ 0
          · exact ⟨_, by rw [if_pos hm]⟩
          · exact ⟨true, by rw [if_neg hm]⟩
        rw [hb]
        simp only
        have hf := toConnectDevice_connect_fast g option b r
          ((w.issue .openBluetoothAdapter).issue
            (.getConnectedBluetoothDevices [r.writeServicesId])) hch hsv hn hc
        refine ⟨hf.1, ?_⟩
        intro _ _
        rcases hf.2 with h | h
        · exact ⟨[], by rw [h]; simp [World.issue], Or.inl rfl⟩
        · exact ⟨[.createBLEConnection r.device.deviceId], by rw [h]; simp [World.issue],
            Or.inr (Or.inl rfl)⟩
  have h1 := key w hrec
  refine ⟨h1.1, h1.2, ?_⟩
  exact (key _ (by rw [h1.1]; exact hrec)).1

/-- Claim C19 at a concrete world: the record of `"dev"` has the handles `"SV"`
and `"CH"`; connecting again leaves the registry as it was and sends only the
adapter request and the query of the connected devices. -/
theorem toConnectDevice_fast_path_witness :
    sampleWorld.connectedDevice.get (plainOption "dev").deviceId = some sampleRecord ∧
    sampleRecord.writeCharacteristicsId ≠ "" ∧ sampleRecord.writeServicesId ≠ "" ∧
    (toConnectDevice acceptAll (plainOption "dev") sampleWorld).2.connectedDevice =
      sampleWorld.connectedDevice ∧
    (toConnectDevice acceptAll (plainOption "dev") sampleWorld).2.calls =
      [.openBluetoothAdapter, .getConnectedBluetoothDevices ["SV"]] :=
  ⟨rfl, by decide, by decide,
   (toConnectDevice_fast_path acceptAll (plainOption "dev") sampleWorld sampleRecord rfl
      (by decide) (by decide) rfl rfl).1,
   by decide⟩

/-! ## Scan sessions: properties -/

theorem matchFirst_none (d : Device) : ∀ arr : List String,
    blueScan.matchFirst d arr = none → ∀ x ∈ arr, matchDevice (some d) x = false := by
  intro arr
  induction arr with
  | nil => intro _ x hx; simp at hx
  | cons a rest ih =>
    intro h x hx
    rw [blueScan.matchFirst] at h
    by_cases ha : matchDevice (some d) a = true
    · simp [ha] at h
    · simp only [ha, Bool.false_eq_true, if_false, Option.map_eq_none'] at h
      rcases List.mem_cons.mp hx with rfl | hx
      · simpa using ha
      · exact ih h x hx

theorem matchFirst_some (d : Device) : ∀ (arr : List String) (m : String × List String),
    blueScan.matchFirst d arr = some m →
      ∃ pre post, arr = pre ++ m.1 :: post ∧ (∀ x ∈ pre, matchDevice (some d) x = false) ∧
        matchDevice (some d) m.1 = true ∧ m.2 = pre ++ post := by
  intro arr
  induction arr with
  | nil => intro m h; simp [blueScan.matchFirst] at h
  | cons a rest ih =>
    intro m h
    rw [blueScan.matchFirst] at h
    by_cases ha : matchDevice (some d) a = true
    · simp only [ha, if_true, Option.some.injEq] at h
      subst h
      exact ⟨[], rest, rfl, by simp, ha, rfl⟩
    · simp only [ha, Bool.false_eq_true, if_false, Option.map_eq_some'] at h
      obtain ⟨m', hm', rfl⟩ := h
      obtain ⟨pre, post, h1, h2, h3, h4⟩ := ih m' hm'
      refine ⟨a :: pre, post, by simp [h1], ?_, h3, by simp [h4]⟩
      intro x hx
      rcases List.mem_cons.mp hx with rfl | hx
      · simpa using ha
      · exact h2 x hx

theorem onFound_spec (devices : List Device) (deviceArr : List String)
    (scanDevice : List ScanResult) :
    (blueScan.onFound devices deviceArr scanDevice = (deviceArr, scanDevice) ∧
      ∀ d, devices.head? = some d → ∀ x ∈ deviceArr, matchDevice (some d) x = false) ∨
    ∃ d pre id post, devices.head? = some d ∧ deviceArr = pre ++ id :: post ∧
      (∀ x ∈ pre, matchDevice (some d) x = false) ∧ matchDevice (some d) id = true ∧
      blueScan.onFound devices deviceArr scanDevice =
        (pre ++ post, scanDevice ++ [{ id := id, mac := parseMac (some d), device := d }]) := by
  unfold blueScan.onFound
  cases hd : devices.head? with
  | none => exact Or.inl ⟨rfl, by intro d h; cases h⟩
  | some d =>
    cases hm : blueScan.matchFirst d deviceArr with
    | none =>
      refine Or.inl ⟨by simp [hm], ?_⟩
      intro d' h
      cases h
      exact matchFirst_none d deviceArr hm
    | some m =>
      obtain ⟨pre, post, h1, h2, h3, h4⟩ := matchFirst_some d deviceArr m hm
      exact Or.inr ⟨d, pre, m.1, post, rfl, h1, h2, h3, by simp [hm, h4, formatDevice]⟩

theorem onFound_good (ids : List String) (devices : List Device) (deviceArr : List String)
    (scanDevice : List ScanResult) (h : blueScan.Good ids (deviceArr, scanDevice)) :
    blueScan.Good ids (blueScan.onFound devices deviceArr scanDevice) := by
  rcases onFound_spec devices deviceArr scanDevice with ⟨h0, _⟩ | ⟨d, pre, id, post, _, h1, _, h3, h4⟩
  · rw [h0]; exact h
  · rw [h4]
    obtain ⟨hp, hm⟩ := h
    constructor
    · simp only [List.map_append, List.map_cons, List.map_nil, List.append_assoc]
      simp only [h1] at hp
      refine List.Perm.trans ?_ hp
      apply List.Perm.append_left
      simpa using (@List.perm_middle _ id pre post).symm
    · intro e he
      rcases List.mem_append.mp he with he | he
      · exact hm e he
      · simp only [List.mem_singleton] at he
        subst he
        exact ⟨h3, rfl⟩

theorem session_good (ids : List String) : ∀ (events : List (List Device)) (deviceArr : List String)
    (scanDevice : List ScanResult) (w : World) (found : List ScanResult) (w' : World),
    blueScan.Good ids (deviceArr, scanDevice) →
    blueScan.session events deviceArr scanDevice w = (.resolved found, w') →
    blueScan.Good ids ([], found) := by
  intro events
  induction events with
  | nil =>
    intro deviceArr scanDevice w found w' hg h
    rw [blueScan.session] at h
    cases ht : w.scanTimer with
    | none => simp [ht] at h
    | some t =>
      simp only [ht] at h
      by_cases hl : deviceArr.length = 0
      · simp only [hl, if_true, Prod.mk.injEq, Outcome.resolved.injEq] at h
        have : deviceArr = [] := List.length_eq_zero.mp hl
        subst this
        rw [← h.1]
        exact hg
      · simp [hl] at h
  | cons devices events ih =>
    intro deviceArr scanDevice w found w' hg h
    rw [blueScan.session] at h
    have hg' := onFound_good ids devices deviceArr scanDevice hg
    by_cases hl : (blueScan.onFound devices deviceArr scanDevice).1.length = 0
    · simp only [hl, if_true, Prod.mk.injEq, Outcome.resolved.injEq] at h
      have h0 : (blueScan.onFound devices deviceArr scanDevice).1 = [] := List.length_eq_zero.mp hl
      rw [← h.1]
      have : blueScan.onFound devices deviceArr scanDevice =
          ([], (blueScan.onFound devices deviceArr scanDevice).2) := by
        rw [← h0]
      rw [this] at hg'
      exact hg'
    · simp only [hl, if_false] at h
      exact ih _ _ w found w' hg' h

theorem session_first (post : List (List Device)) (devices : List Device) (w : World) :
    ∀ (pre : List (List Device)) (st : List String × List ScanResult),
    (∀ k, 0 < k → k ≤ pre.length → (blueScan.after (pre.take k) st).1 ≠ []) →
    (blueScan.after (pre ++ [devices]) st).1 = [] →
    blueScan.session (pre ++ devices :: post) st.1 st.2 w =
      (.resolved (blueScan.after (pre ++ [devices]) st).2,
        w.issue .stopBluetoothDevicesDiscovery) := by
  intro pre
  induction pre with
  | nil =>
    intro st _ hlast
    simp only [List.nil_append, blueScan.after] at hlast ⊢
    rw [blueScan.session]
    simp [hlast]
  | cons p pre ih =>
    intro st hne hlast
    simp only [List.cons_append, blueScan.after] at hlast ⊢
    rw [blueScan.session]
    have h1 := hne 1 (by omega) (by simp)
    simp only [List.take_succ_cons, List.take_zero, blueScan.after] at h1
    have h1' : ¬ (blueScan.onFound p st.1 st.2).1.length = 0 := by
      intro h; exact h1 (List.length_eq_zero.mp h)
    simp only [h1', if_false]
    refine ih (blueScan.onFound p st.1 st.2) ?_ hlast
    intro k hk hkl
    have := hne (k + 1) (by omega) (by simp; omega)
    simpa [blueScan.after] using this

theorem blueScan_list (g : Gateway) (ids : List String) (scanTime : Nat) (w : World) :
    blueScan g (.list ids) scanTime w =
      blueScan.session (g.onBluetoothDeviceFound (w.calls ++ [.startBluetoothDevicesDiscovery]))
        ids [] ((setScanTimer w.maxScanTime w).issue .startBluetoothDevicesDiscovery) := by
  simp only [blueScan]
  congr 2
  unfold setScanTimer World.issue
  split <;> rfl

theorem good_init (ids : List String) : blueScan.Good ids (ids, []) := by
  refine ⟨by simp, ?_⟩
  intro e he
  cases he

/-- Claim C16. The discovery listener tests the outstanding identifiers in order
against the first device of the event and splices out the first one it matches,
appending its entry to the results; no other identifier is consumed. The scan
resolves at the first event after which no identifier is outstanding, with the
results collected up to there. Whenever it resolves, the identifiers of the
entries are the wanted ones, each once, and each entry holds a device that
matches its identifier, with the MAC parsed from it. A string is a list of one. -/
theorem blueScan_resolves_matched (g : Gateway) (ids : List String) (scanTime : Nat)
    (w : World) :
    (∀ (devices : List Device) (deviceArr : List String) (scanDevice : List ScanResult),
      (blueScan.onFound devices deviceArr scanDevice = (deviceArr, scanDevice) ∧
        ∀ d, devices.head? = some d → ∀ x ∈ deviceArr, matchDevice (some d) x = false) ∨
      ∃ d pre id post, devices.head? = some d ∧ deviceArr = pre ++ id :: post ∧
        (∀ x ∈ pre, matchDevice (some d) x = false) ∧ matchDevice (some d) id = true ∧
        blueScan.onFound devices deviceArr scanDevice =
          (pre ++ post,
            scanDevice ++ [{ id := id, mac := parseMac (some d), device := d }])) ∧
    (∀ (pre : List (List Device)) (devices : List Device) (post : List (List Device)),
      g.onBluetoothDeviceFound (w.calls ++ [.startBluetoothDevicesDiscovery]) =
        pre ++ devices :: post →
      (∀ k < pre.length, (blueScan.after (pre.take (k + 1)) (ids, [])).1 ≠ []) →
      (blueScan.after (pre ++ [devices]) (ids, [])).1 = [] →
      blueScan g (.list ids) scanTime w =
        (.resolved (blueScan.after (pre ++ [devices]) (ids, [])).2,
          ((setScanTimer w.maxScanTime w).issue .startBluetoothDevicesDiscovery).issue
            .stopBluetoothDevicesDiscovery)) ∧
    (∀ found : List ScanResult, (blueScan g (.list ids) scanTime w).1 = .resolved found →
      (found.map (fun e => e.id)).Perm ids ∧
      ∀ e ∈ found, matchDevice (some e.device) e.id = true ∧
        e.mac = parseMac (some e.device)) ∧
    ∀ id : String, blueScan g (.str id) scanTime w = blueScan g (.list [id]) scanTime w := by
  refine ⟨onFound_spec, ?_, ?_, fun id => rfl⟩
  · intro pre devices post hev hne hlast
    rw [blueScan_list, hev]
    refine session_first post devices _ pre (ids, []) ?_ hlast
    intro k hk hkl
    have := hne (k - 1) (by omega)
    rwa [Nat.sub_add_cancel hk] at this
  · intro found hres
    rw [blueScan_list] at hres
    have hg := session_good ids _ ids [] _ found
      (blueScan.session (g.onBluetoothDeviceFound (w.calls ++ [.startBluetoothDevicesDiscovery]))
        ids [] ((setScanTimer w.maxScanTime w).issue .startBluetoothDevicesDiscovery)).2
      (good_init ids) (by rw [← hres])
    obtain ⟨hp, hm⟩ := hg
    exact ⟨by simpa using hp, hm⟩

/-- Claim C16 at the wanted identifiers `"lamp"` and `"SYS"`, both of which the
sample device answers to: the event with the stranger consumes nothing, the first
event with the sample device consumes `"lamp"` only, the second one `"SYS"`, and
the scan resolves there with the two entries. -/
theorem blueScan_resolves_matched_witness :
    lampTwice.onBluetoothDeviceFound (emptyWorld.calls ++ [.startBluetoothDevicesDiscovery]) =
      [[strangerDevice], [sampleDevice]] ++ [sampleDevice] :: [] ∧
    (∀ k < 2, (blueScan.after (([[strangerDevice], [sampleDevice]] : List (List Device)).take
      (k + 1)) (["lamp", "SYS"], [])).1 ≠ []) ∧
    (blueScan.after ([[strangerDevice], [sampleDevice]] ++ [[sampleDevice]])
      (["lamp", "SYS"], [])).1 = [] ∧
    (blueScan lampTwice (.list ["lamp", "SYS"]) 10000 emptyWorld).1 =
      .resolved [{ id := "lamp", mac := "", device := sampleDevice },
        { id := "SYS", mac := "", device := sampleDevice }] :=
  ⟨rfl, by decide, by decide,
   (congrArg Prod.fst
      ((blueScan_resolves_matched lampTwice ["lamp", "SYS"] 10000 emptyWorld).2.1
        [[strangerDevice], [sampleDevice]] [sampleDevice] [] rfl (by decide) (by decide))).trans
     (by decide)⟩

/-- Claim C17, as the code has it. When the scan timer fires, the session rejects
with `'-97'` exactly if an identifier is outstanding. But `blueScan` never reads
its `scanTime`: a scan asked to give up after 3000 ms is armed with `maxScanTime`,
10000 ms, and where `maxScanTime` is 0 no timer is armed at all, so that a scan
without events stays pending. A value whose `typeof` is neither `'string'` nor
`'object'` is rejected with `'-98'` before any request; `null` or a plain object
passes that test and makes the spread throw a TypeError. -/
theorem blueScan_timer_ignores_scanTime :
    (∀ (deviceArr : List String) (scanDevice : List ScanResult) (w : World) (t : Nat),
      ((blueScan.session [] deviceArr scanDevice { w with scanTimer := some t }).1 =
        .rejected (.coded "-97" (errorMsg "-97")) ↔ deviceArr ≠ [])) ∧
    (∀ (g : Gateway) (deviceId : ScanTarget) (scanTime scanTime' : Nat) (w : World),
      blueScan g deviceId scanTime w = blueScan g deviceId scanTime' w) ∧
    (blueScan acceptAll (.str "lamp") 3000 emptyWorld).1 =
      .resolved [{ id := "lamp", mac := "", device := sampleDevice }] ∧
    (blueScan acceptAll (.str "lamp") 3000 emptyWorld).2.scanTimer = some 10000 ∧
    (blueScan nothingFound (.str "lamp") 3000 emptyWorld).1 =
      .rejected (.coded "-97" (errorMsg "-97")) ∧
    (blueScan nothingFound (.str "lamp") 3000 { emptyWorld with maxScanTime := 0 }).1 =
      .pending ∧
    (∀ (g : Gateway) (scanTime : Nat) (w : World),
      blueScan g .invalid scanTime w = (.rejected (.coded "-98" (errorMsg "-98")), w)) ∧
    (blueScan acceptAll .nonIterable 3000 emptyWorld).1 = .rejected (.typeError "[...deviceId]") ∧
    (blueScan acceptAll .nonIterable 3000 emptyWorld).2.calls = [] := by
  refine ⟨?_, fun _ _ _ _ _ => rfl, by decide, by decide, by decide, by decide,
    fun _ _ _ => rfl, by decide, by decide⟩
  intro deviceArr scanDevice w t
  rw [blueScan.session]
  cases deviceArr with
  | nil => simp
  | cons a rest => simp

/-! ## Host event handlers: properties -/

theorem matchDeviceId_unique (reg : Registry) (key s : String) (r : Record)
    (hrec : reg.get key = some r) (hsys : r.device.deviceId = some s)
    (huniq : ∀ e ∈ reg, e.2.bind (fun r => r.device.deviceId) = some s → e.1 = key) :
    matchDeviceId reg (some s) = key := by
  unfold matchDeviceId
  cases hf : reg.find? (fun e => decide (e.2.bind (fun r => r.device.deviceId) = some s)) with
  | some e =>
    have h1 := List.find?_some hf
    have h2 := List.mem_of_find?_eq_some hf
    exact huniq e h2 (by simpa using h1)
  | none =>
    exfalso
    unfold Registry.get at hrec
    cases hg : reg.find? (fun e => e.1 == key) with
    | none => simp [hg] at hrec
    | some e =>
      simp only [hg] at hrec
      have hm := List.mem_of_find?_eq_some hg
      have := List.find?_eq_none.mp hf e hm
      simp [hrec, hsys] at this

theorem matchDeviceId_none (reg : Registry) (s : Option String)
    (h : ∀ e ∈ reg, e.2.bind (fun r => r.device.deviceId) ≠ s) :
    matchDeviceId reg s = "" := by
  unfold matchDeviceId
  have : reg.find? (fun e => decide (e.2.bind (fun r => r.device.deviceId) = s)) = none := by
    rw [List.find?_eq_none]
    intro e he
    simpa using h e he
  rw [this]

theorem Registry.find_map_self (key : String) (v : Option Record) :
    ∀ reg : Registry, reg.any (fun e => e.1 == key) = true →
      (reg.map (fun e => if e.1 == key then (key, v) else e)).find? (fun e => e.1 == key) =
        some (key, v) := by
  intro reg
  induction reg with
  | nil => intro h; simp at h
  | cons e rest ih =>
    intro h
    rw [List.map_cons, List.find?_cons]
    cases he : (e.1 == key) with
    | true => simp
    | false =>
      simp only [Bool.false_eq_true, if_false, he]
      apply ih
      rw [List.any_cons, he] at h
      simpa using h

theorem Registry.find_map_other (key k : String) (v : Option Record) (hk : k ≠ key) :
    ∀ reg : Registry,
      (reg.map (fun e => if e.1 == key then (key, v) else e)).find? (fun e => e.1 == k) =
        reg.find? (fun e => e.1 == k) := by
  intro reg
  induction reg with
  | nil => rfl
  | cons e rest ih =>
    rw [List.map_cons, List.find?_cons, List.find?_cons, ih]
    cases he : (e.1 == key) with
    | true =>
      have h1 : e.1 = key := eq_of_beq he
      have hek : (e.1 == k) = false := by
        rw [h1]
        exact beq_false_of_ne (Ne.symm hk)
      have hkk : (key == k) = false := beq_false_of_ne (Ne.symm hk)
      simp only [if_true, hek, hkk]
    | false => simp only [Bool.false_eq_true, if_false]

theorem Registry.get_set_self (reg : Registry) (key : String) (v : Option Record) :
    (reg.set key v).get key = v := by
  unfold Registry.set Registry.get
  by_cases h : reg.any (fun e => e.1 == key) = true
  · rw [if_pos h, Registry.find_map_self key v reg h]
  · rw [if_neg h]
    have hn : reg.find? (fun e => e.1 == key) = none := by
      rw [List.find?_eq_none]
      intro e he
      simp only [List.any_eq_true, not_exists, not_and] at h
      exact h e he
    rw [List.find?_append, hn]
    simp [List.find?]

theorem Registry.get_set_other (reg : Registry) (key k : String) (v : Option Record)
    (hk : k ≠ key) : (reg.set key v).get k = reg.get k := by
  unfold Registry.set Registry.get
  by_cases h : reg.any (fun e => e.1 == key) = true
  · rw [if_pos h, Registry.find_map_other key k v hk reg]
  · rw [if_neg h, List.find?_append]
    cases hf : reg.find? (fun e => e.1 == k) with
    | some e => simp
    | none =>
      have : ¬ (key == k) = true := by
        intro h'
        exact hk (eq_of_beq h').symm
      simp [List.find?, this]

/-- Claim C14, as the code has it. `matchDeviceId` answers `''` both for "no key"
and for the key `''`, and the listener tests `if (key)`: a record kept under the
identifier `''` is the only one with the system id `"SYS"`, and the disconnection
of `"SYS"` neither calls its `onClose` nor removes it. -/
theorem onBLEConnectionStateChange_empty_key :
    (Registry.get [("", some { sampleRecord with deviceId := "", onClose := some closeCallback })]
        "").bind (fun r => r.device.deviceId) = some "SYS" ∧
    onBLEConnectionStateChange { deviceId := some "SYS", connected := false }
        [("", some { sampleRecord with deviceId := "", onClose := some closeCallback })] =
      { thrown := none,
        connectedDevice :=
          [("", some { sampleRecord with deviceId := "", onClose := some closeCallback })],
        invoked := [] } := by
  decide

/-- Claim C14, amended. Let the record `r` under the non-empty identifier `key` be
the only one with the non-empty system id `s`, and let its `onClose`, if it has
one, return. The disconnection of `s` calls that `onClose` once (and nothing when
there is none), leaves `null` under `key` and leaves what is read under every
other identifier as it was. An event with `connected` true, and one for a system
id that no record has, change nothing and call nothing. -/
theorem onBLEConnectionStateChange_removes (reg : Registry) (key s : String) (r : Record)
    (hrec : reg.get key = some r) (hsys : r.device.deviceId = some s)
    (huniq : ∀ e ∈ reg, e.2.bind (fun r => r.device.deviceId) = some s → e.1 = key)
    (hs : s ≠ "") (hk : key ≠ "")
    (hcb : ∀ cb, r.onClose = some cb → cb.throws = false) :
    (onBLEConnectionStateChange { deviceId := some s, connected := false } reg).thrown = none ∧
    (onBLEConnectionStateChange { deviceId := some s, connected := false } reg).invoked =
      r.onClose.toList ∧
    (onBLEConnectionStateChange { deviceId := some s, connected := false } reg).connectedDevice =
      reg.set key none ∧
    (reg.set key none).get key = none ∧
    (∀ k, k ≠ key → (reg.set key none).get k = reg.get k) ∧
    (∀ (reg' : Registry) (id : Option String),
      onBLEConnectionStateChange { deviceId := id, connected := true } reg' =
        { thrown := none, connectedDevice := reg', invoked := [] }) ∧
    (∀ (reg' : Registry) (id : Option String),
      (∀ e ∈ reg', e.2.bind (fun r => r.device.deviceId) ≠ id) →
      onBLEConnectionStateChange { deviceId := id, connected := false } reg' =
        { thrown := none, connectedDevice := reg', invoked := [] }) := by
  have hkey := matchDeviceId_unique reg key s r hrec hsys huniq
  have hmain : onBLEConnectionStateChange { deviceId := some s, connected := false } reg =
      { thrown := none, connectedDevice := reg.set key none, invoked := r.onClose.toList } := by
    unfold onBLEConnectionStateChange
    simp only [Bool.not_false, truthyId, hs, ne_eq, not_false_eq_true, decide_True, Bool.and_self,
      if_true, hkey, hk, hrec, Option.bind]
    cases hc : r.onClose with
    | none => rfl
    | some cb =>
      have := hcb cb hc
      simp [Callback.call, this]
  refine ⟨by rw [hmain], by rw [hmain], by rw [hmain], Registry.get_set_self reg key none,
    fun k hkk => Registry.get_set_other reg key k none hkk, ?_, ?_⟩
  · intro reg' id
    simp [onBLEConnectionStateChange]
  · intro reg' id hnone
    unfold onBLEConnectionStateChange
    rw [matchDeviceId_none reg' id hnone]
    simp

/-- Claim C14 (amended) at the registry that holds the sample record under `"dev"`
with an `onClose` that returns: the disconnection of `"SYS"` calls it once and
leaves `null` under `"dev"`. -/
theorem onBLEConnectionStateChange_removes_witness :
    Registry.get [("dev", some { sampleRecord with onClose := some closeCallback })] "dev" =
      some { sampleRecord with onClose := some closeCallback } ∧
    (onBLEConnectionStateChange { deviceId := some "SYS", connected := false }
        [("dev", some { sampleRecord with onClose := some closeCallback })]).invoked =
      [closeCallback] ∧
    (onBLEConnectionStateChange { deviceId := some "SYS", connected := false }
        [("dev", some { sampleRecord with onClose := some closeCallback })]).connectedDevice =
      [("dev", none)] :=
  ⟨rfl,
   (onBLEConnectionStateChange_removes
      [("dev", some { sampleRecord with onClose := some closeCallback })] "dev" "SYS"
      { sampleRecord with onClose := some closeCallback } rfl rfl (by decide) (by decide)
      (by decide) (by decide)).2.1,
   by decide⟩

/-- Claim C15, as the code has it. The call of `onClose` is not inside a `try`: for
the record under `"dev"` with an `onClose` that throws, the disconnection of
`"SYS"` lets the exception leave the listener and the record stays in the
registry. The exception of an `onNotify` never leaves the value-change listener,
which leaves the registry as it was. -/
theorem onBLEConnectionStateChange_throwing_onClose :
    onBLEConnectionStateChange { deviceId := some "SYS", connected := false }
        [("dev", some { sampleRecord with onClose := some throwingClose })] =
      { thrown := some (.thrown "onClose"),
        connectedDevice := [("dev", some { sampleRecord with onClose := some throwingClose })],
        invoked := [throwingClose] } ∧
    onBLECharacteristicValueChange { deviceId := some "SYS", value := [1] }
        [("dev", some { sampleRecord with onNotify := some throwingNotify })] =
      { thrown := none,
        connectedDevice := [("dev", some { sampleRecord with onNotify := some throwingNotify })],
        invoked := [throwingNotify] } ∧
    ∀ (res : CharacteristicValueChange) (reg : Registry),
      (∀ source, (onBLECharacteristicValueChange res reg).thrown ≠ some (.thrown source)) ∧
      (onBLECharacteristicValueChange res reg).connectedDevice = reg := by
  refine ⟨by decide, by decide, ?_⟩
  intro res reg
  unfold onBLECharacteristicValueChange
  by_cases h1 : truthyId res.deviceId = true
  · by_cases h2 : matchDeviceId reg res.deviceId = ""
    · simp [h1, h2]
    · simp only [h1, if_true, ne_eq, h2, not_false_eq_true]
      cases h3 : reg.get (matchDeviceId reg res.deviceId) with
      | none => simp
      | some r =>
        cases h4 : r.onNotify with
        | none => simp [h4]
        | some cb => cases h5 : cb.call <;> simp [h4, h5]
  · simp [h1]

/-! ## Match policies, connect and disconnect requests: properties -/

/-- Claim C24: `matchStr(s, p)` is true when `p` is absent or the empty string; it
is `p(s)` when `p` is a function and `p.test(s)` when `p` is a regular expression;
for a non-empty string `p` it is true exactly when `p` equals `s`; and it is false
for a truthy policy of any other kind. -/
theorem matchStr_cases (s : String) :
    matchStr s .absent = true ∧
    matchStr s (.str "") = true ∧
    (∀ f : String → Bool, matchStr s (.fn f) = f s) ∧
    (∀ test : String → Bool, matchStr s (.regExp test) = test s) ∧
    (∀ p : String, matchStr s (.str p) = true ↔ p = "" ∨ p = s) ∧
    matchStr s .other = false := by
  refine ⟨rfl, rfl, fun _ => rfl, fun _ => rfl, ?_, rfl⟩
  intro p
  by_cases hp : p = ""
  · subst hp
    simp [matchStr, MatchPolicy.truthy]
  · by_cases h : p = s <;> simp [matchStr, MatchPolicy.truthy, hp, h]

/-- Whatever the host does, the promise of `createConnect` is resolved with the
result of a successful connect request or it is never settled. -/
theorem createConnect_settles (g : Gateway) (deviceId : Option String) (w : World) :
    (createConnect g deviceId w).1 = .pending ∨
    ∃ res, g.createBLEConnection (w.calls ++ [.createBLEConnection deviceId]) = .success res ∧
      (createConnect g deviceId w).1 = .resolved (some res) := by
  unfold createConnect World.request
  cases h : g.createBLEConnection (w.calls ++ [.createBLEConnection deviceId]) with
  | success res => exact Or.inr ⟨res, rfl, rfl⟩
  | fail err => exact Or.inl rfl
  | silent => exact Or.inl rfl

/-- Claim C22 fails on the code: the `fail` method reads `this.connectSucCode`
where `this` is not the class, which throws inside the callback, so that neither
`resolve` nor `reject` is reached. When the connect request fails with 10010
(already connected) or -1, `createConnect` does not resolve, and when it fails with
10003 it does not reject: the promise stays pending after the one request. -/
theorem createConnect_failure_pending :
    (connectFails 10010).createBLEConnection [.createBLEConnection (some "SYS")] =
      .fail ⟨10010, "fail"⟩ ∧
    (createConnect (connectFails 10010) (some "SYS") emptyWorld).1 = .pending ∧
    (createConnect (connectFails (-1)) (some "SYS") emptyWorld).1 = .pending ∧
    (createConnect (connectFails 10003) (some "SYS") emptyWorld).1 = .pending ∧
    (createConnect (connectFails 10003) (some "SYS") emptyWorld).2.calls =
      [.createBLEConnection (some "SYS")] ∧
    (createConnect acceptAll (some "SYS") emptyWorld).1 = .resolved (some ⟨"ok"⟩) := by
  decide

/-- Claim C23 fails on the code: with the sample record under `"dev"` and a host
that accepts the disconnect, `closeConnection` rejects with the `ReferenceError`
of its assignment to the undeclared `deviceId`; no disconnect is requested and the
record stays. It rejects with the same error, not with the error of the host,
when the host would fail the disconnect. `closeBLEConnection` itself sends the
request and resolves with the result of the host. -/
theorem closeConnection_reference_error :
    sampleWorld.connectedDevice.get "dev" = some sampleRecord ∧
    closeConnection acceptAll "dev" sampleWorld =
      (.rejected (.referenceError "deviceId"), sampleWorld) ∧
    (closeConnection acceptAll "dev" sampleWorld).2.calls = [] ∧
    (closeConnection acceptAll "dev" sampleWorld).2.connectedDevice.get "dev" =
      some sampleRecord ∧
    closeConnection disconnectFails "dev" sampleWorld =
      (.rejected (.referenceError "deviceId"), sampleWorld) ∧
    closeBLEConnection acceptAll (some "SYS") sampleWorld =
      (.resolved ⟨"ok"⟩, sampleWorld.issue (.closeBLEConnection (some "SYS"))) := by
  refine ⟨rfl, rfl, rfl, rfl, rfl, rfl⟩

/-! ## Hex codecs: properties -/

set_option maxRecDepth 100000 in
/-- Each byte is rendered as two lower-case hexadecimal digits that `parseInt`
reads back as the byte. -/
theorem hexPair_spec : ∀ x : Byte,
    (hexPair x).data.length = 2 ∧ (∀ c ∈ (hexPair x).data, c ∈ lowerHexDigits) ∧
      toUint8 (parseInt16 (hexPair x).data) = x := by
  decide

set_option maxRecDepth 100000 in
/-- Two hexadecimal digits are read as a byte that is rendered as the same digits
in lower case. -/
theorem parseInt16_spec : ∀ c ∈ hexDigits, ∀ d ∈ hexDigits,
    (hexPair (toUint8 (parseInt16 [c, d]))).data = [c.toLower, d.toLower] := by
  decide

theorem join_empty_data : ∀ l : List String, (join l "").data = l.flatMap (fun a => a.data) := by
  intro l
  induction l with
  | nil => rfl
  | cons a t ih =>
    cases t with
    | nil => simp [join]
    | cons b rest =>
      rw [join, String.data_append, String.data_append, ih]
      simp

theorem buf2hex_data (buffer : List Byte) :
    (buf2hex buffer).data = buffer.flatMap (fun x => (hexPair x).data) := by
  unfold buf2hex
  rw [join_empty_data, List.flatMap_map]

theorem hexPair_data (x : Byte) : ∃ c d, (hexPair x).data = [c, d] ∧ c ∈ lowerHexDigits ∧
    d ∈ lowerHexDigits ∧ toUint8 (parseInt16 [c, d]) = x := by
  obtain ⟨h1, h2, h3⟩ := hexPair_spec x
  match h : (hexPair x).data, h1 with
  | [c, d], _ =>
    rw [h] at h2 h3
    exact ⟨c, d, rfl, h2 c (by simp), h2 d (by simp), h3⟩

theorem hex2buf_loop_buf2hex : ∀ buffer : List Byte,
    hex2buf.loop (buffer.flatMap (fun x => (hexPair x).data)) = buffer := by
  intro buffer
  induction buffer with
  | nil => rfl
  | cons x rest ih =>
    obtain ⟨c, d, h, _, _, hx⟩ := hexPair_data x
    rw [List.flatMap_cons, h]
    show hex2buf.loop (c :: d :: rest.flatMap fun x => (hexPair x).data) = x :: rest
    rw [hex2buf.loop, ih, hx]

theorem buf2hex_hex2buf_loop : ∀ (n : Nat) (l : List Char), l.length = 2 * n →
    (∀ c ∈ l, c ∈ hexDigits) →
    (hex2buf.loop l).flatMap (fun x => (hexPair x).data) = l.map Char.toLower := by
  intro n
  induction n with
  | zero =>
    intro l hl _
    have : l = [] := List.length_eq_zero.mp (by simpa using hl)
    subst this
    rfl
  | succ n ih =>
    intro l hl hd
    match l, hl, hd with
    | c :: d :: rest, hl, hd =>
      have hrest : rest.length = 2 * n := by
        simp only [List.length_cons] at hl
        omega
      simp only [hex2buf.loop, List.flatMap_cons, List.map_cons]
      rw [parseInt16_spec c (hd c (by simp)) d (hd d (by simp)),
        ih rest hrest (fun x hx => hd x (by simp [hx]))]
      rfl

/-- Claim C25. `buf2hex` renders every byte sequence as twice as many lower-case
hexadecimal digits, from which `hex2buf` reads the bytes back; and for a string of
an even number of hexadecimal digits, `buf2hex` of `hex2buf` is the string in
lower case. -/
theorem buf2hex_hex2buf_round_trip :
    (∀ b : List Byte, (buf2hex b).length = 2 * b.length ∧
      (∀ c ∈ (buf2hex b).data, c ∈ lowerHexDigits) ∧ hex2buf (buf2hex b) = b) ∧
    (∀ h : String, (∀ c ∈ h.data, c ∈ hexDigits) → h.length % 2 = 0 →
      buf2hex (hex2buf h) = toLowerCase h) := by
  constructor
  · intro b
    refine ⟨?_, ?_, ?_⟩
    · show (buf2hex b).data.length = _
      rw [buf2hex_data]
      induction b with
      | nil => rfl
      | cons x rest ih =>
        obtain ⟨c, d, h, _⟩ := hexPair_data x
        rw [List.flatMap_cons, List.length_append, ih, h]
        simp only [List.length_cons, List.length_nil]
        omega
    · intro c hc
      rw [buf2hex_data, List.mem_flatMap] at hc
      obtain ⟨x, _, hx⟩ := hc
      exact (hexPair_spec x).2.1 c hx
    · unfold hex2buf
      rw [buf2hex_data]
      exact hex2buf_loop_buf2hex b
  · intro h hd hlen
    apply String.ext
    rw [buf2hex_data]
    unfold hex2buf toLowerCase
    have hl : h.data.length = 2 * (h.data.length / 2) := by
      have : h.data.length % 2 = 0 := hlen
      omega
    exact buf2hex_hex2buf_loop _ h.data hl hd

/-- Claim C25 at the bytes `0, 10, 255` and at the string `"0aFF"`. -/
theorem buf2hex_hex2buf_round_trip_witness :
    (∀ c ∈ "0aFF".data, c ∈ hexDigits) ∧ "0aFF".length % 2 = 0 ∧
    buf2hex [0, 10, 255] = "000aff" ∧
    hex2buf "0aFF" = [10, 255] ∧
    buf2hex (hex2buf "0aFF") = toLowerCase "0aFF" :=
  ⟨by decide, by decide, by decide, by decide,
   buf2hex_hex2buf_round_trip.2 "0aFF" (by decide) (by decide)⟩

/-! ## Write handles: properties -/

theorem firstCharacteristic_nil (sel : Characteristic → Bool) :
    firstCharacteristic sel [] = none := rfl

theorem firstCharacteristic_cons (sel : Characteristic → Bool) (s : Service)
    (rest : List Service) :
    firstCharacteristic sel (s :: rest) =
      match s.getCharacteristics.characteristics.find? sel with
      | some c => some (s.uuid, c.uuid)
      | none => firstCharacteristic sel rest := by
  unfold firstCharacteristic
  rw [List.flatMap_cons, List.find?_append, List.find?_map]
  cases h : s.getCharacteristics.characteristics.find? sel with
  | none =>
    have : List.find? ((fun e : String × Characteristic => sel e.2) ∘ fun c => (s.uuid, c))
        s.getCharacteristics.characteristics = none := by
      rw [List.find?_eq_none] at h ⊢
      intro c hc
      simpa using h c hc
    simp [this]
  | some c =>
    have : List.find? ((fun e : String × Characteristic => sel e.2) ∘ fun c => (s.uuid, c))
        s.getCharacteristics.characteristics = some c := h
    simp [this]

/-- The `uuid` field that the characteristic loop returns. -/
theorem loop_uuid (cfg : ServicesConfig) (p : MatchPolicy) :
    ∀ (cs : List Characteristic) (r : MatchRes),
      (matchCharacteristics.loop cfg p cs r).uuid =
        match cs.find? (fun c => matchCharacteristics.matchFn cfg p c.uuid) with
        | some c => c.uuid
        | none => r.uuid := by
  intro cs
  induction cs with
  | nil => intro r; rfl
  | cons c cs ih =>
    intro r
    rw [matchCharacteristics.loop]
    by_cases hc : matchCharacteristics.matchFn cfg p c.uuid = true
    · simp [hc, List.find?]
    · simp only [hc, Bool.false_eq_true, if_false, List.find?]
      rw [ih]
      cases cs.find? (fun c => matchCharacteristics.matchFn cfg p c.uuid) with
      | some c' => rfl
      | none =>
        show MatchRes.uuid _ = r.uuid
        split_ifs <;> rfl

/-- The configuration matters to the characteristic loop only through a truthy
`characteristics` policy. -/
theorem loop_not_configured (cfg : ServicesConfig) (hcfg : cfg.characteristics.truthy = false)
    (p : MatchPolicy) (hp : p.truthy = false) :
    ∀ (cs : List Characteristic) (r : MatchRes),
      matchCharacteristics.loop cfg p cs r =
        matchCharacteristics.loop ServicesConfig.default p cs r := by
  have hm : ∀ uuid, matchCharacteristics.matchFn cfg p uuid = false := by
    intro uuid
    simp [matchCharacteristics.matchFn, MatchPolicy.orElse, hp, hcfg]
  intro cs
  induction cs with
  | nil => intro r; rfl
  | cons c cs ih =>
    intro r
    rw [matchCharacteristics.loop, matchCharacteristics.loop]
    simp only [hm, matchFn_default_of_not_truthy p hp, Bool.false_eq_true, if_false]
    rw [ih]

/-- With an explicit policy the service loop returns the first characteristic, in
service order and then characteristic order, whose uuid satisfies the policy. -/
theorem matchServicesCharacteristics_uuid (cfg : ServicesConfig) (p : MatchPolicy)
    (hp : p.truthy = true) :
    ∀ services : List Service,
      (∀ s ∈ services, ∀ c ∈ s.getCharacteristics.characteristics, c.uuid ≠ "") →
      matchServicesCharacteristics cfg
          { matchType := some .uuid, services := services, uuid := p } =
        match firstCharacteristic (fun c => matchStr c.uuid p) services with
        | some e => .ok { characteristics := e.2, services := e.1 }
        | none => .error errCharacteristicMatchFailed := by
  have hloop : ∀ services : List Service,
      (∀ s ∈ services, ∀ c ∈ s.getCharacteristics.characteristics, c.uuid ≠ "") →
      matchServicesCharacteristics.loop cfg .uuid p services =
        match firstCharacteristic (fun c => matchStr c.uuid p) services with
        | some e => .ok { characteristics := e.2, services := e.1 }
        | none => .error errCharacteristicMatchFailed := by
    intro services
    induction services with
    | nil => intro _; rfl
    | cons s rest ih =>
      intro hne
      rw [matchServicesCharacteristics.loop, firstCharacteristic_cons]
      have hu : (matchCharacteristics cfg s.getCharacteristics.characteristics p).uuid =
          match s.getCharacteristics.characteristics.find? (fun c => matchStr c.uuid p) with
          | some c => c.uuid
          | none => "" := by
        unfold matchCharacteristics
        rw [loop_uuid]
        simp only [matchFn_of_truthy cfg p hp]
      simp only [if_true, MatchRes.get, hu]
      cases hf : s.getCharacteristics.characteristics.find? (fun c => matchStr c.uuid p) with
      | none =>
        simp only [ne_eq, not_true_eq_false, if_false]
        exact ih (fun s' hs' => hne s' (List.mem_cons_of_mem _ hs'))
      | some c =>
        have hc : c.uuid ≠ "" :=
          hne s (List.mem_cons_self _ _) c (List.mem_of_find?_eq_some hf)
        simp [hc]
  intro services hne
  unfold matchServicesCharacteristics
  cases services with
  | nil => rfl
  | cons s rest =>
    simp only [List.length_cons, Nat.add_one_ne_zero, if_false]
    exact hloop (s :: rest) hne

/-- Without a policy, neither in the option nor in `servicesConfig`, the service
loop returns the first write-capable characteristic of the first service that
has one. -/
theorem matchServicesCharacteristics_write (cfg : ServicesConfig)
    (hcfg : cfg.characteristics.truthy = false) (p : MatchPolicy) :
    ∀ services : List Service,
      (∀ s ∈ services, ∀ c ∈ s.getCharacteristics.characteristics, c.uuid ≠ "") →
      matchServicesCharacteristics cfg
          { matchType := some .write, services := services, uuid := p } =
        match firstCharacteristic (fun c => c.properties.write) services with
        | some e => .ok { characteristics := e.2, services := e.1 }
        | none => .error errCharacteristicMatchFailed := by
  have hloop : ∀ services : List Service,
      (∀ s ∈ services, ∀ c ∈ s.getCharacteristics.characteristics, c.uuid ≠ "") →
      matchServicesCharacteristics.loop cfg .write p services =
        match firstCharacteristic (fun c => c.properties.write) services with
        | some e => .ok { characteristics := e.2, services := e.1 }
        | none => .error errCharacteristicMatchFailed := by
    intro services
    induction services with
    | nil => intro _; rfl
    | cons s rest ih =>
      intro hne
      rw [matchServicesCharacteristics.loop, firstCharacteristic_cons]
      have hw : (matchCharacteristics cfg s.getCharacteristics.characteristics .absent).write =
          firstWith (fun q => q.write) s.getCharacteristics.characteristics := by
        unfold matchCharacteristics
        rw [loop_not_configured cfg hcfg .absent rfl,
          loop_no_policy .absent rfl _ _ (hne s (List.mem_cons_self _ _))]
        simp
      have hmt : (if MatchType.write = MatchType.uuid then p else MatchPolicy.absent) =
          MatchPolicy.absent := by simp
      simp only [hmt, MatchRes.get, hw, firstWith]
      cases hf : s.getCharacteristics.characteristics.find? (fun c => c.properties.write) with
      | none =>
        simp only [Option.map_none', Option.getD_none, ne_eq, not_true_eq_false, if_false]
        exact ih (fun s' hs' => hne s' (List.mem_cons_of_mem _ hs'))
      | some c =>
        have hc : c.uuid ≠ "" :=
          hne s (List.mem_cons_self _ _) c (List.mem_of_find?_eq_some hf)
        simp [hc]
  intro services hne
  unfold matchServicesCharacteristics
  cases services with
  | nil => rfl
  | cons s rest =>
    simp only [List.length_cons, Nat.add_one_ne_zero, if_false]
    exact hloop (s :: rest) hne

theorem awaitTry_resolved {α β : Type} (a : α) (w : World)
    (handler : JSError → World → Outcome β × World) (k : α → World → Outcome β × World) :
    awaitTry (.resolved a, w) handler k = k a w := rfl

theorem awaitTry_rejected {α β : Type} (err : JSError) (w : World)
    (handler : JSError → World → Outcome β × World) (k : α → World → Outcome β × World) :
    awaitTry (.rejected err, w) handler k = handler err w := rfl

/-- What holds of the world before a step of a `try` block and is kept by the
`catch` clause and by the rest of the block holds after the block. -/
theorem awaitTry_keeps {α β : Type} (Q : World → Prop) (p : Outcome α × World)
    (handler : JSError → World → Outcome β × World) (k : α → World → Outcome β × World)
    (hp : Q p.2) (hh : ∀ err w, Q w → Q (handler err w).2) (hk : ∀ a w, Q w → Q (k a w).2) :
    Q (awaitTry p handler k).2 := by
  obtain ⟨o, w⟩ := p
  cases o with
  | resolved a => exact hk a w hp
  | rejected err => exact hh err w hp
  | pending => exact hp

/-- Once `handleDevice` is set, the `catch` clause rejects with the error it caught
and leaves the registry as it was. -/
theorem toConnectDevice_catch_some (h : HandleDevice) (err : JSError) (w : World) :
    (toConnectDevice.catch (some h) err w).1 = .rejected err ∧
    (toConnectDevice.catch (some h) err w).2.connectedDevice = w.connectedDevice := by
  unfold toConnectDevice.catch
  cases hd : h.device.deviceId with
  | none => simp [hd]
  | some id => by_cases hid : id = "" <;> simp [hd, hid, World.issue]

/-- The subscription block keeps the write handles and the services of the record. -/
theorem subscribe_keeps (option : DeviceOption) (handleDevice : HandleDevice) (w : World)
    (su cu : String) (services : List Service)
    (h : ∃ r, w.connectedDevice.get option.deviceId = some r ∧ r.writeServicesId = su ∧
      r.writeCharacteristicsId = cu ∧ r.services = services) :
    ∃ r, (toConnectDevice.subscribe option handleDevice w).2.connectedDevice.get
        option.deviceId = some r ∧ r.writeServicesId = su ∧
      r.writeCharacteristicsId = cu ∧ r.services = services := by
  obtain ⟨r, hr, h1, h2, h3⟩ := h
  unfold toConnectDevice.subscribe
  cases option.onNotify with
  | none => exact ⟨r, hr, h1, h2, h3⟩
  | some onNotify =>
    simp only [hr]
    cases matchServicesCharacteristics w.servicesConfig
        { matchType := some (if option.matchNotifyUUID.truthy then .uuid else .notify)
          services := r.services
          uuid := option.matchNotifyUUID } with
    | error err => exact ⟨r, hr, h1, h2, h3⟩
    | ok matchNotify =>
      refine ⟨{ r with onNotify := some onNotify }, ?_, h1, h2, h3⟩
      simp only [World.issue]
      exact Registry.get_set_self _ _ _

/-- The `onClose` block keeps the write handles and the services of the record. -/
theorem storeOnClose_keeps (option : DeviceOption) (w : World)
    (su cu : String) (services : List Service)
    (h : ∃ r, w.connectedDevice.get option.deviceId = some r ∧ r.writeServicesId = su ∧
      r.writeCharacteristicsId = cu ∧ r.services = services) :
    ∃ r, (toConnectDevice.storeOnClose option w).2.connectedDevice.get
        option.deviceId = some r ∧ r.writeServicesId = su ∧
      r.writeCharacteristicsId = cu ∧ r.services = services := by
  obtain ⟨r, hr, h1, h2, h3⟩ := h
  unfold toConnectDevice.storeOnClose
  cases option.onClose with
  | none => exact ⟨r, hr, h1, h2, h3⟩
  | some onClose =>
    simp only [hr]
    exact ⟨{ r with onClose := some onClose }, Registry.get_set_self _ _ _, h1, h2, h3⟩

/-- When the matcher finds the handles `su`, `cu` in the services that arrive, the
connection flow ends with a record that holds them. -/
theorem connect_stores (g : Gateway) (option : DeviceOption) (isConnect : Bool)
    (handleDevice : HandleDevice) (w w1 w2 : World) (x : Option GatewayRes)
    (services : List Service) (su cu : String)
    (hlack : handleDevice.lacksWriteHandles = true)
    (hconn : (if !isConnect then createConnect g handleDevice.device.deviceId w
      else (.resolved none, w)) = (.resolved x, w1))
    (hserv : getBLEDeviceServices g handleDevice.device.deviceId option.matchServices w1 =
      (.resolved services, w2))
    (hmatch : matchServicesCharacteristics w2.servicesConfig
      { matchType := some (if option.matchWriteUUID.truthy then .uuid else .write)
        services := services
        uuid := option.matchWriteUUID.orElse (.str "") } =
      .ok { characteristics := cu, services := su }) :
    ∃ r, (toConnectDevice.connect g option isConnect handleDevice w).2.connectedDevice.get
        option.deviceId = some r ∧ r.writeServicesId = su ∧
      r.writeCharacteristicsId = cu ∧ r.services = services := by
  unfold toConnectDevice.connect
  rw [hconn, awaitTry_resolved]
  obtain ⟨w3, hdisc, hw3⟩ : ∃ w3, toConnectDevice.discover g option handleDevice w1 =
      (.resolved (), w3) ∧
      ∃ r, w3.connectedDevice.get option.deviceId = some r ∧ r.writeServicesId = su ∧
        r.writeCharacteristicsId = cu ∧ r.services = services := by
    unfold toConnectDevice.discover
    simp only [hlack, if_true, hserv, awaitTry_resolved, hmatch]
    exact ⟨_, rfl, _, Registry.get_set_self _ _ _, rfl, rfl, rfl⟩
  rw [hdisc, awaitTry_resolved]
  have hkeep : ∀ (err : JSError) (w : World),
      (∃ r, w.connectedDevice.get option.deviceId = some r ∧ r.writeServicesId = su ∧
        r.writeCharacteristicsId = cu ∧ r.services = services) →
      ∃ r, (toConnectDevice.catch (some handleDevice) err w).2.connectedDevice.get
          option.deviceId = some r ∧ r.writeServicesId = su ∧
        r.writeCharacteristicsId = cu ∧ r.services = services := by
    intro err w h
    rw [(toConnectDevice_catch_some handleDevice err w).2]
    exact h
  apply awaitTry_keeps
    (fun w => ∃ r, w.connectedDevice.get option.deviceId = some r ∧ r.writeServicesId = su ∧
      r.writeCharacteristicsId = cu ∧ r.services = services)
  · exact subscribe_keeps option handleDevice w3 su cu services hw3
  · exact hkeep
  · intro _ w hw
    apply awaitTry_keeps
      (fun w => ∃ r, w.connectedDevice.get option.deviceId = some r ∧ r.writeServicesId = su ∧
        r.writeCharacteristicsId = cu ∧ r.services = services)
    · exact storeOnClose_keeps option w su cu services hw
    · exact hkeep
    · intro _ w hw
      exact hw

/-- When the matcher throws, the connection flow rejects with the error thrown and
stores nothing. -/
theorem connect_rejects (g : Gateway) (option : DeviceOption) (isConnect : Bool)
    (handleDevice : HandleDevice) (w w1 w2 : World) (x : Option GatewayRes)
    (services : List Service) (err : JSError)
    (hlack : handleDevice.lacksWriteHandles = true)
    (hconn : (if !isConnect then createConnect g handleDevice.device.deviceId w
      else (.resolved none, w)) = (.resolved x, w1))
    (hserv : getBLEDeviceServices g handleDevice.device.deviceId option.matchServices w1 =
      (.resolved services, w2))
    (hmatch : matchServicesCharacteristics w2.servicesConfig
      { matchType := some (if option.matchWriteUUID.truthy then .uuid else .write)
        services := services
        uuid := option.matchWriteUUID.orElse (.str "") } = .error err) :
    (toConnectDevice.connect g option isConnect handleDevice w).1 = .rejected err ∧
    (toConnectDevice.connect g option isConnect handleDevice w).2.connectedDevice =
      w2.connectedDevice := by
  unfold toConnectDevice.connect
  rw [hconn, awaitTry_resolved]
  have hdisc : toConnectDevice.discover g option handleDevice w1 = (.rejected err, w2) := by
    unfold toConnectDevice.discover
    simp only [hlack, if_true, hserv, awaitTry_resolved, hmatch]
  rw [hdisc, awaitTry_rejected]
  exact toConnectDevice_catch_some handleDevice err w2

/-- The enumeration of the services: when the host reports the services `reported`
with their characteristics, `getBLEDeviceServices` keeps those that the policy
accepts, in order, and changes neither the registry nor the configuration. -/
theorem getBLEDeviceServices_loop_reported (g : Gateway) (deviceId : Option String)
    (matchFn : MatchPolicy) :
    ∀ (rest : List Service) (services : List Service) (w : World),
      (∀ calls id, ∀ s ∈ rest,
        g.getBLEDeviceCharacteristics (calls ++ [.getBLEDeviceCharacteristics id s.uuid]) =
          .success s.getCharacteristics) →
      ∃ w', getBLEDeviceServices.loop g deviceId matchFn (rest.map fun s => s.uuid) services w =
          (if (services ++ rest.filter fun s =>
                getBLEDeviceServices.matchUUID matchFn s.uuid).length ≠ 0 then
            .resolved (services ++ rest.filter fun s =>
              getBLEDeviceServices.matchUUID matchFn s.uuid)
           else .rejected (.coded "-95" none), w') ∧
        w'.connectedDevice = w.connectedDevice ∧ w'.servicesConfig = w.servicesConfig := by
  intro rest
  induction rest with
  | nil =>
    intro services w _
    refine ⟨w, ?_, rfl, rfl⟩
    simp only [List.map_nil, getBLEDeviceServices.loop, List.filter_nil, List.append_nil]
    split <;> rfl
  | cons s rest ih =>
    intro services w hch
    have hch' : ∀ calls id, ∀ s' ∈ rest,
        g.getBLEDeviceCharacteristics (calls ++ [.getBLEDeviceCharacteristics id s'.uuid]) =
          .success s'.getCharacteristics :=
      fun calls id s' hs' => hch calls id s' (List.mem_cons_of_mem _ hs')
    rw [List.map_cons, getBLEDeviceServices.loop]
    by_cases hm : getBLEDeviceServices.matchUUID matchFn s.uuid = true
    · have hc : getBLEDeviceCharacteristics g deviceId s.uuid w =
          (.resolved s.getCharacteristics,
            w.issue (.getBLEDeviceCharacteristics deviceId s.uuid)) := by
        unfold getBLEDeviceCharacteristics World.request
        rw [hch w.calls deviceId s (List.mem_cons_self _ _)]
        rfl
      simp only [hm, if_true, hc]
      obtain ⟨w', h1, h2, h3⟩ := ih (services ++ [s])
        (w.issue (.getBLEDeviceCharacteristics deviceId s.uuid)) hch'
      refine ⟨w', ?_, h2, h3⟩
      rw [h1]
      simp [List.filter_cons, hm]
    · simp only [hm, Bool.false_eq_true, if_false]
      obtain ⟨w', h1, h2, h3⟩ := ih services w hch'
      refine ⟨w', ?_, h2, h3⟩
      rw [h1]
      simp [List.filter_cons, hm]

theorem getBLEDeviceServices_reported (g : Gateway) (deviceId : Option String)
    (matchFn : MatchPolicy) (reported : List Service) (w : World)
    (hsv : ∀ calls, g.getBLEDeviceServices calls = .success (reported.map fun s => s.uuid))
    (hch : ∀ calls id, ∀ s ∈ reported,
      g.getBLEDeviceCharacteristics (calls ++ [.getBLEDeviceCharacteristics id s.uuid]) =
        .success s.getCharacteristics)
    (htree : reported.filter (fun s => getBLEDeviceServices.matchUUID matchFn s.uuid) ≠ []) :
    ∃ w', getBLEDeviceServices g deviceId matchFn w =
        (.resolved (reported.filter fun s => getBLEDeviceServices.matchUUID matchFn s.uuid),
          w') ∧
      w'.connectedDevice = w.connectedDevice ∧ w'.servicesConfig = w.servicesConfig := by
  unfold getBLEDeviceServices World.request
  rw [hsv]
  obtain ⟨w', h1, h2, h3⟩ := getBLEDeviceServices_loop_reported g deviceId matchFn reported []
    (w.issue (.getBLEDeviceServices deviceId)) hch
  refine ⟨w', ?_, h2, h3⟩
  simp only [h1, List.nil_append]
  have : (reported.filter fun s => getBLEDeviceServices.matchUUID matchFn s.uuid).length ≠ 0 := by
    intro h
    exact htree (List.length_eq_zero.mp h)
  simp [this]

/-- With a successful connect request `createConnect` resolves and changes
neither the registry nor the configuration. -/
theorem createConnect_accepted (g : Gateway) (deviceId : Option String) (w : World)
    (hcreate : ∀ calls, ∃ res, g.createBLEConnection calls = .success res) :
    ∃ x w', createConnect g deviceId w = (.resolved x, w') ∧
      w'.connectedDevice = w.connectedDevice ∧ w'.servicesConfig = w.servicesConfig := by
  obtain ⟨res, hres⟩ := hcreate (w.calls ++ [.createBLEConnection deviceId])
  refine ⟨some res, init (w.issue (.createBLEConnection deviceId)), ?_, ?_, ?_⟩
  · unfold createConnect World.request
    rw [hres]
  · unfold init World.issue
    split <;> rfl
  · unfold init World.issue
    split <;> rfl

/-- The way of `toConnectDevice` to a device that the host has discovered before:
without a record for the identifier, the flow reaches the connection of that
device with the registry and the configuration it started with. -/
theorem toConnectDevice_known (g : Gateway) (option : DeviceOption) (w : World) (d : Device)
    (hrec : w.connectedDevice.get option.deviceId = none)
    (hid : option.deviceId ≠ "") (hreload : option.reloadScan = false)
    (hopen : ∀ calls, ∃ res, g.openBluetoothAdapter calls = .success res)
    (hlive : ∀ calls, ∃ devices, g.getConnectedBluetoothDevices calls = .success devices)
    (hknown : ∀ calls, ∃ known, g.getBluetoothDevices calls = .success known ∧
      known.find? (fun x => matchDevice (some x) option.deviceId) = some d) :
    ∃ isConnect w3, toConnectDevice g option w =
        toConnectDevice.connect g option isConnect
          (.scanned (formatDevice d option.deviceId)) w3 ∧
      w3.connectedDevice = w.connectedDevice ∧ w3.servicesConfig = w.servicesConfig := by
  obtain ⟨res, hres⟩ := hopen (w.calls ++ [.openBluetoothAdapter])
  obtain ⟨devices, hdev⟩ := hlive
    ((w.issue .openBluetoothAdapter).calls ++ [.getConnectedBluetoothDevices []])
  obtain ⟨known, hk, hfind⟩ := hknown
    (((w.issue .openBluetoothAdapter).issue (.getConnectedBluetoothDevices [])).calls ++
      [.getBluetoothDevices])
  have hopen' : dealOpenAdapter g w = (.resolved res, w.issue .openBluetoothAdapter) := by
    unfold dealOpenAdapter World.request
    rw [hres]
  have hrec' : (w.issue .openBluetoothAdapter).connectedDevice.get option.deviceId = none := hrec
  have hlen : option.deviceId.length ≠ 0 := by
    intro h
    have hdata : option.deviceId.data = [] := List.length_eq_zero.mp h
    exact hid (String.ext hdata)
  refine ⟨devices.any (fun x => matchDeviceId w.connectedDevice x.deviceId == option.deviceId),
    ((w.issue .openBluetoothAdapter).issue (.getConnectedBluetoothDevices [])).issue
      .getBluetoothDevices, ?_, rfl, rfl⟩
  unfold toConnectDevice
  rw [hopen', awaitTry_resolved]
  simp only [hrec']
  have hconn : getConnectedBluetoothDevices g [] option.deviceId
      (w.issue .openBluetoothAdapter) =
      (.resolved (devices.any
        (fun x => matchDeviceId w.connectedDevice x.deviceId == option.deviceId)),
        (w.issue .openBluetoothAdapter).issue (.getConnectedBluetoothDevices [])) := by
    unfold getConnectedBluetoothDevices World.request
    rw [hdev]
    simp only [hlen, ne_eq, not_false_eq_true, if_true]
    rfl
  rw [hconn, awaitTry_resolved]
  have hscan : toConnectDevice.scan g option
      ((w.issue .openBluetoothAdapter).issue (.getConnectedBluetoothDevices [])) =
      (.resolved [formatDevice d option.deviceId],
        ((w.issue .openBluetoothAdapter).issue (.getConnectedBluetoothDevices [])).issue
          .getBluetoothDevices) := by
    unfold toConnectDevice.scan getBluetoothDevices World.request
    rw [hk]
    simp only [hreload, Bool.not_false, if_true, hid, if_false, hfind, awaitTry_resolved]
  rw [hscan, awaitTry_resolved]
  rfl

/-- The way of `toConnectDevice` to a device that has a record. -/
theorem toConnectDevice_record (g : Gateway) (option : DeviceOption) (w : World) (r : Record)
    (hrec : w.connectedDevice.get option.deviceId = some r)
    (hopen : ∀ calls, ∃ res, g.openBluetoothAdapter calls = .success res)
    (hlive : ∀ calls, ∃ devices, g.getConnectedBluetoothDevices calls = .success devices) :
    ∃ isConnect w3, toConnectDevice g option w =
        toConnectDevice.connect g option isConnect (.record r) w3 ∧
      w3.connectedDevice = w.connectedDevice ∧ w3.servicesConfig = w.servicesConfig := by
  obtain ⟨res, hres⟩ := hopen (w.calls ++ [.openBluetoothAdapter])
  obtain ⟨devices, hdev⟩ := hlive
    ((w.issue .openBluetoothAdapter).calls ++ [.getConnectedBluetoothDevices [r.writeServicesId]])
  have hopen' : dealOpenAdapter g w = (.resolved res, w.issue .openBluetoothAdapter) := by
    unfold dealOpenAdapter World.request
    rw [hres]
  have hrec' : (w.issue .openBluetoothAdapter).connectedDevice.get option.deviceId = some r :=
    hrec
  refine ⟨if option.deviceId.length ≠ 0 then
      devices.any (fun x => matchDeviceId w.connectedDevice x.deviceId == option.deviceId)
      else true,
    (w.issue .openBluetoothAdapter).issue (.getConnectedBluetoothDevices [r.writeServicesId]),
    ?_, rfl, rfl⟩
  unfold toConnectDevice
  rw [hopen', awaitTry_resolved]
  simp only [hrec']
  have hconn : getConnectedBluetoothDevices g [r.writeServicesId] option.deviceId
      (w.issue .openBluetoothAdapter) =
      (.resolved (if option.deviceId.length ≠ 0 then
          devices.any (fun x => matchDeviceId w.connectedDevice x.deviceId == option.deviceId)
          else true),
        (w.issue .openBluetoothAdapter).issue
          (.getConnectedBluetoothDevices [r.writeServicesId])) := by
    unfold getConnectedBluetoothDevices World.request
    rw [hdev]
    by_cases hlen : option.deviceId.length ≠ 0
    · simp only [hlen, ne_eq, not_false_eq_true, if_true]
      rfl
    · simp only [hlen, if_false]
  rw [hconn, awaitTry_resolved]

/-- A scan for one identifier resolves at the first discovery event whose first
device matches it, with that device. -/
theorem blueScan_session_single (deviceId : String) (d : Device) (more : List Device)
    (post : List (List Device))
    (hd : matchDevice (some d) deviceId = true) :
    ∀ (pre : List (List Device)) (w : World),
      (∀ e ∈ pre, ∀ x, e.head? = some x → matchDevice (some x) deviceId = false) →
      blueScan.session (pre ++ (d :: more) :: post) [deviceId] [] w =
        (.resolved [formatDevice d deviceId], w.issue .stopBluetoothDevicesDiscovery) := by
  intro pre
  induction pre with
  | nil =>
    intro w _
    simp [blueScan.session, blueScan.onFound, blueScan.matchFirst, hd]
  | cons e pre ih =>
    intro w hpre
    have hfound : blueScan.onFound e [deviceId] [] = ([deviceId], []) := by
      unfold blueScan.onFound
      cases he : e.head? with
      | none => rfl
      | some x =>
        have := hpre e (List.mem_cons_self _ _) x he
        simp [blueScan.matchFirst, this]
    rw [List.cons_append, blueScan.session]
    simp only [hfound, List.length_singleton, Nat.one_ne_zero, if_false]
    exact ih w (fun e' he' => hpre e' (List.mem_cons_of_mem _ he'))

theorem blueScan_single (g : Gateway) (deviceId : String) (scanTime : Nat) (w : World)
    (d : Device) (pre : List (List Device)) (more : List Device) (post : List (List Device))
    (hev : ∀ calls, g.onBluetoothDeviceFound calls = pre ++ (d :: more) :: post)
    (hpre : ∀ e ∈ pre, ∀ x, e.head? = some x → matchDevice (some x) deviceId = false)
    (hd : matchDevice (some d) deviceId = true) :
    ∃ w', blueScan g (.str deviceId) scanTime w = (.resolved [formatDevice d deviceId], w') ∧
      w'.connectedDevice = w.connectedDevice ∧ w'.servicesConfig = w.servicesConfig := by
  refine ⟨((setScanTimer w.maxScanTime w).issue .startBluetoothDevicesDiscovery).issue
    .stopBluetoothDevicesDiscovery, ?_, ?_, ?_⟩
  · simp only [blueScan]
    rw [hev]
    exact blueScan_session_single deviceId d more post hd pre _ hpre
  · unfold setScanTimer World.issue
    split <;> rfl
  · unfold setScanTimer World.issue
    split <;> rfl

/-- The way of `toConnectDevice` to a device that a scan discovers: without a
record for the identifier, with `reloadScan` set or the device not among those
discovered before. -/
theorem toConnectDevice_scanned (g : Gateway) (option : DeviceOption) (w : World) (d : Device)
    (pre : List (List Device)) (more : List Device) (post : List (List Device))
    (hrec : w.connectedDevice.get option.deviceId = none)
    (hscan : option.reloadScan = true ∨ (option.deviceId ≠ "" ∧ option.reloadScan = false ∧
      ∀ calls, ∃ known, g.getBluetoothDevices calls = .success known ∧
        known.find? (fun x => matchDevice (some x) option.deviceId) = none))
    (hopen : ∀ calls, ∃ res, g.openBluetoothAdapter calls = .success res)
    (hlive : ∀ calls, ∃ devices, g.getConnectedBluetoothDevices calls = .success devices)
    (hev : ∀ calls, g.onBluetoothDeviceFound calls = pre ++ (d :: more) :: post)
    (hpre : ∀ e ∈ pre, ∀ x, e.head? = some x → matchDevice (some x) option.deviceId = false)
    (hd : matchDevice (some d) option.deviceId = true) :
    ∃ isConnect w3, toConnectDevice g option w =
        toConnectDevice.connect g option isConnect
          (.scanned (formatDevice d option.deviceId)) w3 ∧
      w3.connectedDevice = w.connectedDevice ∧ w3.servicesConfig = w.servicesConfig := by
  obtain ⟨res, hres⟩ := hopen (w.calls ++ [.openBluetoothAdapter])
  obtain ⟨devices, hdev⟩ := hlive
    ((w.issue .openBluetoothAdapter).calls ++ [.getConnectedBluetoothDevices []])
  have hopen' : dealOpenAdapter g w = (.resolved res, w.issue .openBluetoothAdapter) := by
    unfold dealOpenAdapter World.request
    rw [hres]
  have hrec' : (w.issue .openBluetoothAdapter).connectedDevice.get option.deviceId = none := hrec
  have hconn : getConnectedBluetoothDevices g [] option.deviceId
      (w.issue .openBluetoothAdapter) =
      (.resolved (if option.deviceId.length ≠ 0 then
          devices.any (fun x => matchDeviceId w.connectedDevice x.deviceId == option.deviceId)
          else true),
        (w.issue .openBluetoothAdapter).issue (.getConnectedBluetoothDevices [])) := by
    unfold getConnectedBluetoothDevices World.request
    rw [hdev]
    by_cases hlen : option.deviceId.length ≠ 0
    · simp only [hlen, ne_eq, not_false_eq_true, if_true]
      rfl
    · simp only [hlen, if_false]
  obtain ⟨w3, hsc, h1, h2⟩ : ∃ w3, toConnectDevice.scan g option
      ((w.issue .openBluetoothAdapter).issue (.getConnectedBluetoothDevices [])) =
      (.resolved [formatDevice d option.deviceId], w3) ∧
      w3.connectedDevice = w.connectedDevice ∧ w3.servicesConfig = w.servicesConfig := by
    rcases hscan with hreload | ⟨hid, hreload, hknown⟩
    · obtain ⟨w', hb, f1, f2⟩ := blueScan_single g option.deviceId 10000
        ((w.issue .openBluetoothAdapter).issue (.getConnectedBluetoothDevices []))
        d pre more post hev hpre hd
      refine ⟨w', ?_, f1, f2⟩
      unfold toConnectDevice.scan
      simp only [hreload, Bool.not_true, Bool.false_eq_true, if_false]
      exact hb
    · obtain ⟨known, hk, hfind⟩ := hknown
        (((w.issue .openBluetoothAdapter).issue (.getConnectedBluetoothDevices [])).calls ++
          [.getBluetoothDevices])
      obtain ⟨w', hb, f1, f2⟩ := blueScan_single g option.deviceId 10000
        (((w.issue .openBluetoothAdapter).issue (.getConnectedBluetoothDevices [])).issue
          .getBluetoothDevices)
        d pre more post hev hpre hd
      refine ⟨w', ?_, f1, f2⟩
      unfold toConnectDevice.scan getBluetoothDevices World.request
      rw [hk]
      simp only [hreload, Bool.not_false, if_true, hid, if_false, hfind, awaitTry_resolved]
      exact hb
  refine ⟨if option.deviceId.length ≠ 0 then
      devices.any (fun x => matchDeviceId w.connectedDevice x.deviceId == option.deviceId)
      else true, w3, ?_, h1, h2⟩
  unfold toConnectDevice
  rw [hopen', awaitTry_resolved]
  simp only [hrec']
  rw [hconn, awaitTry_resolved, hsc, awaitTry_resolved]
  rfl

/-- Claim C21, amended. Let the host open the adapter, answer the query of the
connected devices and accept connect requests, and let `toConnectDevice` come by a
device without cached write handles in one of its three ways: from the record of
the identifier, from the devices discovered before, or from a scan (with
`reloadScan`, or when the device was not discovered before) that resolves at the
first event whose first device matches. Let the host report the services `tree`,
all accepted by `matchServices`, the uuids of their characteristics being
non-empty. With an explicit `matchWriteUUID`: if a uuid satisfies the policy, the
record that `toConnectDevice` leaves under the identifier holds the first
characteristic, in service order and then characteristic order, whose uuid
satisfies it, and the uuid of its service, whatever its capabilities; if none
does, the promise rejects with `'-94'` and the registry is as before. Without
`matchWriteUUID`, and with no `characteristics` policy in `servicesConfig`, the
record holds the first write-capable characteristic of the first service that has
one, and the promise rejects with `'-94'` when there is none. -/
theorem toConnectDevice_write_handle (g : Gateway) (option : DeviceOption) (w : World)
    (handleDevice : HandleDevice) (tree : List Service)
    (hopen : ∀ calls, ∃ res, g.openBluetoothAdapter calls = .success res)
    (hlive : ∀ calls, ∃ devices, g.getConnectedBluetoothDevices calls = .success devices)
    (hcreate : ∀ calls, ∃ res, g.createBLEConnection calls = .success res)
    (hfind :
      (∃ r, w.connectedDevice.get option.deviceId = some r ∧ handleDevice = .record r) ∨
      (∃ d, w.connectedDevice.get option.deviceId = none ∧
        handleDevice = .scanned (formatDevice d option.deviceId) ∧
        option.deviceId ≠ "" ∧ option.reloadScan = false ∧
        ∀ calls, ∃ known, g.getBluetoothDevices calls = .success known ∧
          known.find? (fun x => matchDevice (some x) option.deviceId) = some d) ∨
      (∃ d pre more post, w.connectedDevice.get option.deviceId = none ∧
        handleDevice = .scanned (formatDevice d option.deviceId) ∧
        (option.reloadScan = true ∨ (option.deviceId ≠ "" ∧ option.reloadScan = false ∧
          ∀ calls, ∃ known, g.getBluetoothDevices calls = .success known ∧
            known.find? (fun x => matchDevice (some x) option.deviceId) = none)) ∧
        (∀ calls, g.onBluetoothDeviceFound calls = pre ++ (d :: more) :: post) ∧
        (∀ e ∈ pre, ∀ x, e.head? = some x → matchDevice (some x) option.deviceId = false) ∧
        matchDevice (some d) option.deviceId = true))
    (hlack : handleDevice.lacksWriteHandles = true)
    (hsv : ∀ calls, g.getBLEDeviceServices calls = .success (tree.map fun s => s.uuid))
    (hch : ∀ calls id, ∀ s ∈ tree,
      g.getBLEDeviceCharacteristics (calls ++ [.getBLEDeviceCharacteristics id s.uuid]) =
        .success s.getCharacteristics)
    (hacc : ∀ s ∈ tree, getBLEDeviceServices.matchUUID option.matchServices s.uuid = true)
    (htree : tree ≠ [])
    (huuid : ∀ s ∈ tree, ∀ c ∈ s.getCharacteristics.characteristics, c.uuid ≠ "") :
    (option.matchWriteUUID.truthy = true →
      (∀ su cu,
        firstCharacteristic (fun c => matchStr c.uuid option.matchWriteUUID) tree =
          some (su, cu) →
        ∃ r, (toConnectDevice g option w).2.connectedDevice.get option.deviceId = some r ∧
          r.writeServicesId = su ∧ r.writeCharacteristicsId = cu ∧ r.services = tree) ∧
      (firstCharacteristic (fun c => matchStr c.uuid option.matchWriteUUID) tree = none →
        (toConnectDevice g option w).1 = .rejected (.coded "-94" (errorMsg "-94")) ∧
        (toConnectDevice g option w).2.connectedDevice = w.connectedDevice)) ∧
    (option.matchWriteUUID.truthy = false → w.servicesConfig.characteristics.truthy = false →
      (∀ su cu,
        firstCharacteristic (fun c => c.properties.write) tree = some (su, cu) →
        ∃ r, (toConnectDevice g option w).2.connectedDevice.get option.deviceId = some r ∧
          r.writeServicesId = su ∧ r.writeCharacteristicsId = cu ∧ r.services = tree) ∧
      (firstCharacteristic (fun c => c.properties.write) tree = none →
        (toConnectDevice g option w).1 = .rejected (.coded "-94" (errorMsg "-94")) ∧
        (toConnectDevice g option w).2.connectedDevice = w.connectedDevice)) := by
  -- the way to the connection
  obtain ⟨isConnect, w3, heq, f1, f2⟩ : ∃ isConnect w3, toConnectDevice g option w =
      toConnectDevice.connect g option isConnect handleDevice w3 ∧
      w3.connectedDevice = w.connectedDevice ∧ w3.servicesConfig = w.servicesConfig := by
    rcases hfind with ⟨r, hrec, rfl⟩ | ⟨d, hrec, rfl, hid, hreload, hknown⟩ |
      ⟨d, pre, more, post, hrec, rfl, hscan, hev, hpre, hd⟩
    · exact toConnectDevice_record g option w r hrec hopen hlive
    · exact toConnectDevice_known g option w d hrec hid hreload hopen hlive hknown
    · exact toConnectDevice_scanned g option w d pre more post hrec hscan hopen hlive hev hpre hd
  -- the connect request and the enumeration of the services
  obtain ⟨x, w1, hconn, c1, c2⟩ : ∃ x w1,
      (if !isConnect then createConnect g handleDevice.device.deviceId w3
        else (.resolved none, w3)) = (.resolved x, w1) ∧
      w1.connectedDevice = w3.connectedDevice ∧ w1.servicesConfig = w3.servicesConfig := by
    cases isConnect with
    | true => exact ⟨none, w3, rfl, rfl, rfl⟩
    | false => exact createConnect_accepted g handleDevice.device.deviceId w3 hcreate
  have hfilter : tree.filter
      (fun s => getBLEDeviceServices.matchUUID option.matchServices s.uuid) = tree :=
    List.filter_eq_self.mpr hacc
  obtain ⟨w2, hserv, s1, s2⟩ := getBLEDeviceServices_reported g handleDevice.device.deviceId
    option.matchServices tree w1 hsv hch (by rw [hfilter]; exact htree)
  rw [hfilter] at hserv
  have hreg : w2.connectedDevice = w.connectedDevice := by rw [s1, c1, f1]
  have hcfg2 : w2.servicesConfig = w.servicesConfig := by rw [s2, c2, f2]
  rw [heq]
  constructor
  · intro hp
    have hm := matchServicesCharacteristics_uuid w2.servicesConfig option.matchWriteUUID hp
      tree huuid
    have hor : option.matchWriteUUID.orElse (.str "") = option.matchWriteUUID := by
      simp [MatchPolicy.orElse, hp]
    constructor
    · intro su cu hfirst
      rw [hfirst] at hm
      exact connect_stores g option isConnect handleDevice w3 w1 w2 x tree su cu hlack hconn
        hserv (by rw [hp, hor]; exact hm)
    · intro hfirst
      rw [hfirst] at hm
      rw [← hreg]
      exact connect_rejects g option isConnect handleDevice w3 w1 w2 x tree _ hlack hconn
        hserv (by rw [hp, hor]; exact hm)
  · intro hp hcfg
    have hm := matchServicesCharacteristics_write w2.servicesConfig (by rw [hcfg2]; exact hcfg)
      (option.matchWriteUUID.orElse (.str "")) tree huuid
    constructor
    · intro su cu hfirst
      rw [hfirst] at hm
      exact connect_stores g option isConnect handleDevice w3 w1 w2 x tree su cu hlack hconn
        hserv (by rw [hp]; exact hm)
    · intro hfirst
      rw [hfirst] at hm
      rw [← hreg]
      exact connect_rejects g option isConnect handleDevice w3 w1 w2 x tree _ hlack hconn
        hserv (by rw [hp]; exact hm)

/-- Claim C21, as the code has it. The matcher takes the empty string for "not
found": a writable characteristic with an empty uuid is passed over in favour of
the next one, and a service whose first characteristic satisfying the policy has an
empty uuid is passed over altogether, so that the promise rejects with `'-94'`
although a uuid satisfies the policy. And when `servicesConfig.characteristics` is
set to `"B"` and the option has no `matchWriteUUID`, the service `"S1"`, whose
writable characteristic is `"B"`, is passed over: the record holds `"C"` of `"S2"`. -/
theorem toConnectDevice_write_handle_not_first :
    firstCharacteristic (fun c => c.properties.write) blankFirstTree = some ("S1", "") ∧
    ((toConnectDevice blankFirst (writeOption "lamp" .absent)
      emptyWorld).2.connectedDevice.get "lamp").map
        (fun r => (r.writeServicesId, r.writeCharacteristicsId, r.services)) =
      some ("S1", "B", blankFirstTree) ∧
    firstCharacteristic (fun c => matchStr c.uuid (.fn fun _ => true)) blankFirstTree =
      some ("S1", "") ∧
    (toConnectDevice blankFirst (writeOption "lamp" (.fn fun _ => true)) emptyWorld).1 =
      .rejected (.coded "-94" (errorMsg "-94")) ∧
    firstCharacteristic (fun c => c.properties.write) twoServicesTree = some ("S1", "B") ∧
    ((toConnectDevice twoServices (writeOption "lamp" .absent)
      configuredWorld).2.connectedDevice.get "lamp").map
        (fun r => (r.writeServicesId, r.writeCharacteristicsId, r.services)) =
      some ("S2", "C", twoServicesTree) := by
  refine ⟨by decide, by decide, by decide, by decide, by decide, by decide⟩

/-- The host `twoServices` reports the characteristics of each service of its tree. -/
theorem twoServices_characteristics (calls : List Call) (id : Option String) :
    ∀ s ∈ twoServicesTree,
      twoServices.getBLEDeviceCharacteristics
        (calls ++ [.getBLEDeviceCharacteristics id s.uuid]) = .success s.getCharacteristics := by
  intro s hs
  simp only [twoServicesTree, List.mem_cons, List.mem_singleton, List.not_mem_nil,
    or_false] at hs
  rcases hs with rfl | rfl
  · simp [twoServices, List.getLast?_concat]
  · simp [twoServices, List.getLast?_concat]

/-- Claim C21 (amended) at the host with the services `"S1"` (`"A"`, `"B"`) and `"S2"`
(`"C"`, `"D"`), which has discovered the sample device before: with the policy `"D"`
the record holds `"D"` of `"S2"`, although `"B"` and `"C"` come first among the
writable characteristics; without a policy the record holds `"B"` of `"S1"`; and
with the policy `"Z"`, which no uuid satisfies, the promise rejects with `'-94'`. -/
theorem toConnectDevice_write_handle_witness :
    emptyWorld.connectedDevice.get (writeOption "lamp" (.str "D")).deviceId = none ∧
    twoServices.getBluetoothDevices [] = .success [sampleDevice] ∧
    [sampleDevice].find? (fun x => matchDevice (some x) "lamp") = some sampleDevice ∧
    (MatchPolicy.str "D").truthy = true ∧
    firstCharacteristic (fun c => matchStr c.uuid (.str "D")) twoServicesTree =
      some ("S2", "D") ∧
    (∃ r, (toConnectDevice twoServices (writeOption "lamp" (.str "D"))
        emptyWorld).2.connectedDevice.get "lamp" = some r ∧
      r.writeServicesId = "S2" ∧ r.writeCharacteristicsId = "D" ∧
      r.services = twoServicesTree) ∧
    ((toConnectDevice twoServices (writeOption "lamp" .absent)
      emptyWorld).2.connectedDevice.get "lamp").map
        (fun r => (r.writeServicesId, r.writeCharacteristicsId)) = some ("S1", "B") ∧
    (toConnectDevice twoServices (writeOption "lamp" (.str "Z")) emptyWorld).1 =
      .rejected (.coded "-94" (errorMsg "-94")) :=
  ⟨rfl, rfl, by decide, by decide, by decide,
   ((toConnectDevice_write_handle twoServices (writeOption "lamp" (.str "D")) emptyWorld
      (.scanned (formatDevice sampleDevice "lamp")) twoServicesTree
      (fun _ => ⟨⟨"ok"⟩, rfl⟩) (fun _ => ⟨[sampleDevice], rfl⟩) (fun _ => ⟨⟨"ok"⟩, rfl⟩)
      (Or.inr (Or.inl ⟨sampleDevice, rfl, rfl, by decide, rfl,
        fun _ => ⟨[sampleDevice], rfl, by decide⟩⟩))
      rfl (fun _ => rfl) (fun calls id => twoServices_characteristics calls id)
      (by decide) (by decide) (by decide)).1 (by decide)).1 "S2" "D" (by decide),
   by decide, by decide⟩

end BluetoothUtil

/-! ## The event queue: properties -/

namespace EventList

theorem next_list_sublist (s : State) : (next s).1.list.Sublist s.list ∧
    (next s).1.tagNumber = s.tagNumber := by
  unfold next
  split
  · rename_i h1 h2
    simp [h2]
  · exact ⟨List.Sublist.refl _, rfl⟩

theorem run_list_sublist (s : State) : (run s).list.Sublist s.list ∧
    (run s).tagNumber = s.tagNumber := by
  unfold run
  by_cases h : s.isRunning = true
  · simp [h]
  · simp only [h, Bool.false_eq_true, if_false]
    exact next_list_sublist { s with isRunning := true }

theorem continueLoop_list_sublist (s : State) (i : Nat) :
    (continueLoop s i).list.Sublist s.list ∧ (continueLoop s i).tagNumber = s.tagNumber := by
  unfold continueLoop
  have := next_list_sublist s
  cases h : (next s).2 <;> simpa [h] using this

theorem TagsFresh.of_sublist {s s' : State} (h : TagsFresh s) (hl : s'.list.Sublist s.list)
    (ht : s'.tagNumber = s.tagNumber) : TagsFresh s' := by
  constructor
  · exact h.1.sublist (hl.map _)
  · intro t ht'
    rw [ht]
    exact h.2 t (hl.subset ht')

theorem TagsFresh.after_step {s : State} (h : TagsFresh s) (a : Action) : TagsFresh (s.step a) := by
  cases a with
  | push option =>
    have h1 : TagsFresh { (formatOption s option).1 with
        list := (formatOption s option).1.list ++ [(formatOption s option).2] } := by
      constructor
      · simp only [formatOption, List.map_append, List.map_cons, List.map_nil]
        rw [List.nodup_append]
        refine ⟨h.1, by simp, ?_⟩
        intro a ha hb
        simp only [List.mem_singleton] at hb
        subst hb
        obtain ⟨t, ht, hta⟩ := List.mem_map.mp ha
        have := h.2 t ht
        omega
      · intro t ht
        simp only [formatOption, List.mem_append, List.mem_singleton] at ht ⊢
        rcases ht with ht | rfl
        · have := h.2 t ht
          omega
        · simp
    exact h1.of_sublist (run_list_sublist _).1 (run_list_sublist _).2
  | unshift option =>
    have h1 : TagsFresh { (formatOption s option).1 with
        list := (formatOption s option).2 :: (formatOption s option).1.list } := by
      constructor
      · simp only [formatOption, List.map_cons, List.nodup_cons]
        refine ⟨?_, h.1⟩
        intro ha
        obtain ⟨t, ht, hta⟩ := List.mem_map.mp ha
        have := h.2 t ht
        omega
      · intro t ht
        simp only [formatOption, List.mem_cons] at ht ⊢
        rcases ht with rfl | ht
        · simp
        · have := h.2 t ht
          omega
    exact h1.of_sublist (run_list_sublist _).1 (run_list_sublist _).2
  | rmEvent option isTag =>
    exact h.of_sublist (List.filter_sublist _) rfl
  | timer i =>
    simp only [State.step]
    split
    · exact h.of_sublist (List.Sublist.refl _) rfl
    · exact h.of_sublist (continueLoop_list_sublist _ i).1 (continueLoop_list_sublist _ i).2
    · exact h
  | settle i ok =>
    simp only [State.step]
    split
    · split
      · split
        · exact h.of_sublist (List.Sublist.refl _) rfl
        · exact h.of_sublist (continueLoop_list_sublist _ i).1 (continueLoop_list_sublist _ i).2
      · exact h.of_sublist (continueLoop_list_sublist _ i).1 (continueLoop_list_sublist _ i).2
    · exact h

theorem TagsFresh.after_exec (actions : List Action) : ∀ {s : State}, TagsFresh s →
    TagsFresh (s.exec actions) := by
  induction actions with
  | nil => intro s h; exact h
  | cons a rest ih => intro s h; exact ih (h.after_step a)

theorem tagsFresh_init : TagsFresh State.init := by
  simp [TagsFresh, State.init]

theorem exec_append (s : State) (a b : List Action) :
    s.exec (a ++ b) = (s.exec a).exec b := by
  simp [State.exec, List.foldl_append]

theorem exec_cons (s : State) (a : Action) (b : List Action) :
    s.exec (a :: b) = (s.step a).exec b := rfl

theorem exec_nil (s : State) : s.exec [] = s := rfl

theorem started_append (a b : List Event) : started (a ++ b) = started a ++ started b := by
  simp [started, List.filterMap_append]

theorem started_callbackEvents (t : Task) : started (callbackEvents t) = [] := by
  unfold callbackEvents
  cases t.cb <;> rfl

theorem continueLoop_nil (s : State) (p : Phase) (hl : s.loops = [p]) (hlist : s.list = []) :
    continueLoop s 0 = { s with isRunning := false, loops := [] } := by
  cases hr : s.isRunning <;> simp [continueLoop, next, hl, hr, hlist]

theorem continueLoop_cons (s : State) (p : Phase) (t : Task) (rest : List Task)
    (hl : s.loops = [p]) (hr : s.isRunning = true) (hlist : s.list = t :: rest) :
    continueLoop s 0 =
      { s with list := rest, log := s.log ++ (enter t).2, loops := [(enter t).1] } := by
  simp [continueLoop, next, hl, hr, hlist]

theorem step_timer_preDelay (s : State) (t : Task) (hl : s.loops = [.preDelay t]) :
    s.step (.timer 0) =
      { s with loops := [.body t], log := s.log ++ [.bodyStart t.tag] } := by
  simp [State.step, hl]

theorem step_timer_postDelay (s : State) (t : Task) (hl : s.loops = [.postDelay t]) :
    s.step (.timer 0) =
      continueLoop { s with log := s.log ++ [.postDelayEnd t.tag] ++ callbackEvents t } 0 := by
  simp [State.step, hl]

theorem step_settle_fail (s : State) (t : Task) (hl : s.loops = [.body t]) :
    s.step (.settle 0 false) =
      continueLoop { s with log := s.log ++ [.bodyEnd t.tag false] } 0 := by
  simp [State.step, hl]

theorem step_settle_ok_delay (s : State) (t : Task) (hl : s.loops = [.body t])
    (hd : t.endDelay ≠ 0) :
    s.step (.settle 0 true) =
      { s with loops := [.postDelay t],
               log := s.log ++ [.bodyEnd t.tag true, .postDelayStart t.tag] } := by
  simp [State.step, hl, hd]

theorem step_settle_ok (s : State) (t : Task) (hl : s.loops = [.body t])
    (hd : t.endDelay = 0) :
    s.step (.settle 0 true) =
      continueLoop { s with log := s.log ++ [.bodyEnd t.tag true] ++ callbackEvents t } 0 := by
  simp [State.step, hl, hd]

/-- From the state in which the body of `t` is in flight, the rest of the actions
for `t` bring the loop back to its `while` test. -/
theorem body_to_test (outcome : Nat → Bool) (t : Task) (s1 : State)
    (h1l : s1.loops = [.body t]) :
    ∃ (s2 : State) (p2 : Phase), s2.loops = [p2] ∧ s2.isRunning = s1.isRunning ∧
      s2.list = s1.list ∧ s2.tagNumber = s1.tagNumber ∧ started s2.log = started s1.log ∧
      (∃ ok, Event.bodyEnd t.tag ok ∈ s2.log) ∧
      s1.exec ([Action.settle 0 (outcome t.tag)] ++
        (if outcome t.tag = true ∧ t.endDelay ≠ 0 then [Action.timer 0] else [])) =
        continueLoop s2 0 := by
  cases ho : outcome t.tag with
  | false =>
    refine ⟨{ s1 with log := s1.log ++ [.bodyEnd t.tag false] }, .body t, h1l, rfl, rfl, rfl,
      by simp [started_append, started], ⟨false, by simp⟩, ?_⟩
    simp only [Bool.false_eq_true, false_and, if_false, List.append_nil, exec_cons, exec_nil]
    exact step_settle_fail s1 t h1l
  | true =>
    by_cases hd : t.endDelay ≠ 0
    · refine ⟨{ s1 with loops := [.postDelay t], log := s1.log ++ [.bodyEnd t.tag true,
          .postDelayStart t.tag] ++ [.postDelayEnd t.tag] ++ callbackEvents t },
        .postDelay t, rfl, rfl, rfl, rfl,
        by simp only [started_append, started_callbackEvents, List.append_nil]; simp [started],
        ⟨true, by simp⟩, ?_⟩
      simp only [hd, ne_eq, not_false_eq_true, and_self, if_true, List.singleton_append,
        exec_cons, exec_nil]
      rw [step_settle_ok_delay s1 t h1l hd, step_timer_postDelay _ t rfl]
    · have hd' : t.endDelay = 0 := by simpa using hd
      refine ⟨{ s1 with log := s1.log ++ [.bodyEnd t.tag true] ++ callbackEvents t },
        .body t, h1l, rfl, rfl, rfl,
        by simp only [started_append, started_callbackEvents, List.append_nil]; simp [started],
        ⟨true, by simp⟩, ?_⟩
      simp only [hd', ne_eq, not_true_eq_false, and_false, if_false, List.append_nil,
        exec_cons, exec_nil]
      exact step_settle_ok s1 t h1l hd'

/-- One iteration: from the `while` test with `t` at the head of the list to the
next `while` test. -/
theorem iteration (outcome : Nat → Bool) (t : Task) (rest : List Task) (s : State) (p : Phase)
    (hl : s.loops = [p]) (hr : s.isRunning = true) (hlist : s.list = t :: rest) :
    ∃ (s2 : State) (p2 : Phase), s2.loops = [p2] ∧ s2.isRunning = true ∧
      s2.list = rest ∧ s2.tagNumber = s.tagNumber ∧
      started s2.log = started s.log ++ [t.tag] ∧
      (continueLoop s 0).exec (taskActions outcome t) = continueLoop s2 0 := by
  have hbody : ∃ s1 : State, s1.loops = [.body t] ∧ s1.isRunning = true ∧ s1.list = rest ∧
      s1.tagNumber = s.tagNumber ∧ started s1.log = started s.log ++ [t.tag] ∧
      (continueLoop s 0).exec (if t.startDelay ≠ 0 then [Action.timer 0] else []) = s1 := by
    rw [continueLoop_cons s p t rest hl hr hlist]
    by_cases hd : t.startDelay ≠ 0
    · refine ⟨{ s with list := rest, loops := [.body t], log := s.log ++ [.bodyStart t.tag] },
        rfl, hr, rfl, rfl, by simp [started_append, started], ?_⟩
      simp only [hd, ne_eq, not_false_eq_true, if_true, exec_cons, exec_nil, enter]
      rw [step_timer_preDelay _ t rfl]
      simp
    · refine ⟨{ s with list := rest, loops := [.body t], log := s.log ++ [.bodyStart t.tag] },
        rfl, hr, rfl, rfl, by simp [started_append, started], ?_⟩
      simp only [hd, if_false, exec_nil, enter]
  obtain ⟨s1, h1l, h1r, h1list, h1t, h1s, h1e⟩ := hbody
  obtain ⟨s2, p2, h2l, h2r, h2list, h2t, h2s, _, h2e⟩ := body_to_test outcome t s1 h1l
  refine ⟨s2, p2, h2l, by rw [h2r, h1r], by rw [h2list, h1list], by rw [h2t, h1t],
    by rw [h2s, h1s], ?_⟩
  unfold taskActions
  rw [List.append_assoc, exec_append, h1e, h2e]

/-- Letting every sleep elapse and every body settle, a loop that goes back to its
`while` test works off the whole list, in order, and then stops. -/
theorem drain (outcome : Nat → Bool) : ∀ (tasks : List Task) (s : State) (p : Phase),
    s.loops = [p] → s.isRunning = true → s.list = tasks →
    ((continueLoop s 0).exec (schedule outcome tasks)).isRunning = false ∧
    ((continueLoop s 0).exec (schedule outcome tasks)).loops = [] ∧
    ((continueLoop s 0).exec (schedule outcome tasks)).list = [] ∧
    ((continueLoop s 0).exec (schedule outcome tasks)).tagNumber = s.tagNumber ∧
    started ((continueLoop s 0).exec (schedule outcome tasks)).log =
      started s.log ++ tasks.map (fun t => t.tag) := by
  intro tasks
  induction tasks with
  | nil =>
    intro s p hl hr hlist
    rw [continueLoop_nil s p hl hlist]
    simp [schedule, exec_nil, hlist]
  | cons t rest ih =>
    intro s p hl hr hlist
    obtain ⟨s2, p2, h2l, h2r, h2list, h2t, h2s, h2e⟩ := iteration outcome t rest s p hl hr hlist
    simp only [schedule, exec_append, h2e]
    have := ih s2 p2 h2l h2r h2list
    rw [h2t, h2s] at this
    simpa [List.append_assoc] using this

theorem Settled.append_quiet {log extra : List Event} (h : Settled log)
    (hq : ∀ e ∈ extra, Quiet e) : Settled (log ++ extra) := by
  constructor
  · intro t ht
    rcases List.mem_append.mp ht with ht | ht
    · obtain ⟨ok, h1⟩ := h.1 t ht
      exact ⟨ok, List.mem_append_left _ h1⟩
    · exact absurd rfl ((hq _ ht).1 t)
  · intro t ht
    rcases List.mem_append.mp ht with ht | ht
    · exact List.mem_append_left _ (h.2 t ht)
    · exact absurd rfl ((hq _ ht).2 t)

theorem callbackEvents_quiet (t : Task) : ∀ e ∈ callbackEvents t, Quiet e := by
  intro e he
  unfold callbackEvents at he
  cases hcb : t.cb with
  | none => simp [hcb] at he
  | some c =>
    simp only [hcb, List.mem_singleton] at he
    subst he
    exact ⟨fun _ h => (by cases h), fun _ h => (by cases h)⟩

/-- A body that has started and ended leaves the log settled. -/
theorem Settled.after_body {pre : List Event} (h : Settled pre) (tag : Nat) (ok : Bool)
    (cb : List Event) (hcb : ∀ e ∈ cb, Quiet e) :
    Settled (pre ++ [.bodyStart tag] ++ [.bodyEnd tag ok] ++ cb) := by
  constructor
  · intro t ht
    simp only [List.append_assoc, List.mem_append, List.mem_singleton] at ht ⊢
    rcases ht with ht | ht | ht | ht
    · obtain ⟨ok', h1⟩ := h.1 t ht
      exact ⟨ok', Or.inl h1⟩
    · cases ht
      exact ⟨ok, Or.inr (Or.inr (Or.inl rfl))⟩
    · cases ht
    · exact absurd rfl ((hcb _ ht).1 t)
  · intro t ht
    simp only [List.append_assoc, List.mem_append, List.mem_singleton] at ht ⊢
    rcases ht with ht | ht | ht | ht
    · exact Or.inl (h.2 t ht)
    · cases ht
    · cases ht
    · exact absurd rfl ((hcb _ ht).2 t)

/-- A body that has started and resolved, followed by its whole post-delay, leaves
the log settled. -/
theorem Settled.after_postDelay {pre : List Event} (h : Settled pre) (tag : Nat)
    (cb : List Event) (hcb : ∀ e ∈ cb, Quiet e) :
    Settled (pre ++ [.bodyStart tag, .bodyEnd tag true, .postDelayStart tag] ++
      [.postDelayEnd tag] ++ cb) := by
  constructor
  · intro t ht
    simp only [List.append_assoc, List.mem_append, List.mem_cons, List.mem_singleton,
      List.not_mem_nil, or_false] at ht ⊢
    rcases ht with ht | (ht | ht | ht) | ht | ht
    · obtain ⟨ok', h1⟩ := h.1 t ht
      exact ⟨ok', Or.inl h1⟩
    · cases ht
      exact ⟨true, Or.inr (Or.inl (Or.inr (Or.inl rfl)))⟩
    · cases ht
    · cases ht
    · cases ht
    · exact absurd rfl ((hcb _ ht).1 t)
  · intro t ht
    simp only [List.append_assoc, List.mem_append, List.mem_cons, List.mem_singleton,
      List.not_mem_nil, or_false] at ht ⊢
    rcases ht with ht | (ht | ht | ht) | ht | ht
    · exact Or.inl (h.2 t ht)
    · cases ht
    · cases ht
    · cases ht
      exact Or.inr (Or.inr (Or.inl rfl))
    · cases ht
    · exact absurd rfl ((hcb _ ht).2 t)

theorem Serial.append_noStart {log extra : List Event} (h : Serial log)
    (hq : ∀ e ∈ extra, ∀ t, e ≠ .bodyStart t) : Serial (log ++ extra) := by
  intro pre t post heq
  -- the start lies inside `log`
  have hmem : Event.bodyStart t ∈ log ++ extra := by rw [heq]; simp
  rcases List.append_eq_append_iff.mp heq with ⟨a, ha, hb⟩ | ⟨c, hc, hd⟩
  · -- pre = log ++ a, extra = a ++ start :: post
    exact absurd rfl (hq (.bodyStart t) (by rw [hb]; simp) t)
  · -- log = pre ++ c, start :: post = c ++ extra
    cases c with
    | nil =>
      simp only [List.nil_append] at hd
      exact absurd rfl (hq (.bodyStart t) (by rw [← hd]; simp) t)
    | cons x c' =>
      simp only [List.cons_append, List.cons.injEq] at hd
      obtain ⟨rfl, _⟩ := hd
      exact h pre t c' hc

theorem Serial.append_start {log : List Event} (h : Serial log) (hs : Settled log) (tag : Nat) :
    Serial (log ++ [.bodyStart tag]) := by
  intro pre t post heq
  rcases List.append_eq_append_iff.mp heq with ⟨a, ha, hb⟩ | ⟨c, hc, hd⟩
  · cases a with
    | nil =>
      simp only [List.append_nil] at ha
      rw [ha]; exact hs
    | cons x a' =>
      simp only [List.cons_append, List.cons.injEq] at hb
      obtain ⟨_, hb⟩ := hb
      have : (a' ++ Event.bodyStart t :: post).length = 0 := by rw [← hb]; rfl
      simp at this
  · cases c with
    | nil =>
      simp only [List.append_nil] at hc
      rw [← hc]; exact hs
    | cons x c' =>
      simp only [List.cons_append, List.cons.injEq] at hd
      obtain ⟨rfl, _⟩ := hd
      exact h pre t c' hc


theorem next_nil (s : State) (hlist : s.list = []) :
    next s = ({ s with isRunning := false }, none) := by
  cases hr : s.isRunning <;> simp [next, hr, hlist]

theorem next_cons (s : State) (t : Task) (rest : List Task) (hr : s.isRunning = true)
    (hlist : s.list = t :: rest) :
    next s = ({ s with list := rest, log := s.log ++ (enter t).2 }, some (enter t).1) := by
  simp [next, hr, hlist]

theorem next_loops (s : State) : (next s).1.loops = s.loops := by
  unfold next
  split <;> rfl

/-- A loop at its `while` test, with a settled log, leaves a state that satisfies
the invariant, whether it stops or starts the next iteration. -/
theorem Inv.of_test (σ : State) (hr : σ.isRunning = true) (hser : Serial σ.log)
    (hset : Settled σ.log)
    (hord : started σ.log ++ σ.list.map (fun t => t.tag) = List.range' 1 σ.tagNumber)
    (s' : State) (h1 : s'.list = (next σ).1.list) (h2 : s'.isRunning = (next σ).1.isRunning)
    (h3 : s'.tagNumber = (next σ).1.tagNumber) (h4 : s'.log = (next σ).1.log)
    (h5 : s'.loops = (next σ).2.toList) : Inv s' := by
  cases hlist : σ.list with
  | nil =>
    rw [next_nil σ hlist] at h1 h2 h3 h4 h5
    simp only [Option.toList] at h1 h2 h3 h4 h5
    refine ⟨Or.inl ⟨h5, h2⟩, ?_, by rw [h4]; exact hser, by rw [h5, h4]; exact hset⟩
    rw [h4, h5, h1, h3]
    simpa [waiting] using hord
  | cons t rest =>
    rw [next_cons σ t rest hr hlist] at h1 h2 h3 h4 h5
    simp only [Option.toList] at h1 h2 h3 h4 h5
    rw [hlist] at hord
    by_cases hd : t.startDelay ≠ 0
    · simp only [enter, hd, ne_eq, not_false_eq_true, if_true, List.append_nil] at h4 h5
      refine ⟨Or.inr ⟨_, h5, by rw [h2, hr]⟩, ?_, by rw [h4]; exact hser,
        by rw [h5, h4]; exact hset⟩
      rw [h4, h5, h1, h3]
      simpa [waiting] using hord
    · simp only [enter, hd, if_false] at h4 h5
      refine ⟨Or.inr ⟨_, h5, by rw [h2, hr]⟩, ?_, by rw [h4]; exact hser.append_start hset _,
        by rw [h5, h4]; exact ⟨σ.log, rfl, hset⟩⟩
      rw [h4, h5, h1, h3]
      simpa [waiting, started_append, started] using hord

theorem Inv.init : Inv State.init := by
  refine ⟨Or.inl ⟨rfl, rfl⟩, rfl, ?_, ?_⟩
  · intro pre t post h
    simp [State.init] at h
  · exact ⟨by simp [State.init], by simp [State.init]⟩

theorem range'_one_succ (n : Nat) : List.range' 1 (n + 1) = List.range' 1 n ++ [n + 1] := by
  rw [List.range'_concat]
  simp [Nat.add_comm]

theorem Inv.push {s : State} (h : Inv s) (option : TaskOption) : Inv (s.step (.push option)) := by
  rcases h.single with ⟨hl, hr⟩ | ⟨p, hl, hr⟩
  · -- idle: `run` starts a loop
    have hset : Settled s.log := by
      have := h.flight
      rw [hl] at this
      exact this
    have hord := h.order
    rw [hl] at hord
    simp only [waiting, List.filterMap_nil, List.append_nil] at hord
    apply Inv.of_test
      { s with tagNumber := s.tagNumber + 1, list := s.list ++ [(formatOption s option).2],
               isRunning := true } rfl h.serial hset
    · simp only [List.map_append, List.map_cons, List.map_nil, formatOption]
      rw [← List.append_assoc, hord, range'_one_succ]
    · simp [State.step, run, hr, formatOption]
    · simp [State.step, run, hr, formatOption]
    · simp [State.step, run, hr, formatOption]
    · simp [State.step, run, hr, formatOption]
    · simp [State.step, run, hr, formatOption, hl, next_loops]
  · -- running: the task is appended
    have hstep : s.step (.push option) =
        { s with tagNumber := s.tagNumber + 1, list := s.list ++ [(formatOption s option).2] } := by
      simp [State.step, run, hr, formatOption]
    rw [hstep]
    refine ⟨Or.inr ⟨p, hl, hr⟩, ?_, h.serial, h.flight⟩
    have hord := h.order
    simp only [List.map_append, List.map_cons, List.map_nil, formatOption]
    rw [← List.append_assoc, hord, range'_one_succ]


theorem continueLoop_fields (σ : State) (p : Phase) (hl : σ.loops = [p]) :
    (continueLoop σ 0).list = (next σ).1.list ∧
    (continueLoop σ 0).isRunning = (next σ).1.isRunning ∧
    (continueLoop σ 0).tagNumber = (next σ).1.tagNumber ∧
    (continueLoop σ 0).log = (next σ).1.log ∧
    (continueLoop σ 0).loops = (next σ).2.toList := by
  unfold continueLoop
  cases h : (next σ).2 with
  | none => simp [h, next_loops, hl]
  | some ph => simp [h, next_loops, hl]

theorem Inv.timer {s : State} (h : Inv s) (i : Nat) : Inv (s.step (.timer i)) := by
  rcases h.single with ⟨hl, hr⟩ | ⟨p, hl, hr⟩
  · have : s.step (.timer i) = s := by simp [State.step, hl]
    rw [this]; exact h
  · cases i with
    | succ j =>
      have : s.step (.timer (j + 1)) = s := by simp [State.step, hl]
      rw [this]; exact h
    | zero =>
      cases p with
      | body t =>
        exact Eq.mpr (congrArg Inv (show s.step (.timer 0) = s by
          simp only [State.step, hl, List.get?])) h
      | preDelay t =>
        have hstep : s.step (.timer 0) =
            { s with loops := [.body t], log := s.log ++ [.bodyStart t.tag] } := by
          simp [State.step, hl]
        have hset : Settled s.log := by
          have := h.flight
          rw [hl] at this
          exact this
        rw [hstep]
        refine ⟨Or.inr ⟨_, rfl, hr⟩, ?_, h.serial.append_start hset _, ⟨s.log, rfl, hset⟩⟩
        have hord := h.order
        rw [hl] at hord
        simpa [waiting, started_append, started] using hord
      | postDelay t =>
        have hstep : s.step (.timer 0) = continueLoop
            { s with log := s.log ++ [.postDelayEnd t.tag] ++ callbackEvents t } 0 := by
          simp [State.step, hl]
        obtain ⟨pre, hlog, hpre⟩ : ∃ pre, s.log = pre ++ [.bodyStart t.tag, .bodyEnd t.tag true,
            .postDelayStart t.tag] ∧ Settled pre := by
          have := h.flight
          rw [hl] at this
          exact this
        have hq : ∀ e ∈ [Event.postDelayEnd t.tag] ++ callbackEvents t, ∀ t', e ≠ .bodyStart t' := by
          intro e he t'
          rcases List.mem_append.mp he with he | he
          · simp only [List.mem_singleton] at he
            subst he
            intro hc; cases hc
          · exact (callbackEvents_quiet t e he).1 t'
        rw [hstep]
        obtain ⟨f1, f2, f3, f4, f5⟩ := continueLoop_fields
          { s with log := s.log ++ [.postDelayEnd t.tag] ++ callbackEvents t } (.postDelay t) hl
        apply Inv.of_test { s with log := s.log ++ [.postDelayEnd t.tag] ++ callbackEvents t }
          hr _ _ _ _ f1 f2 f3 f4 f5
        · have := h.serial.append_noStart hq
          simpa [List.append_assoc] using this
        · show Settled (s.log ++ [.postDelayEnd t.tag] ++ callbackEvents t)
          rw [hlog]
          exact hpre.after_postDelay t.tag _ (callbackEvents_quiet t)
        · have hord := h.order
          rw [hl] at hord
          have hs : started (s.log ++ [Event.postDelayEnd t.tag] ++ callbackEvents t) =
              started s.log := by
            have hc : started (callbackEvents t) = [] := by
              unfold callbackEvents
              cases t.cb <;> rfl
            rw [started_append, started_append, hc]
            simp [started]
          show started (s.log ++ [Event.postDelayEnd t.tag] ++ callbackEvents t) ++ _ = _
          rw [hs]
          simpa [waiting] using hord

theorem started_quiet (extra : List Event) (hq : ∀ e ∈ extra, ∀ t, e ≠ .bodyStart t) :
    started extra = [] := by
  unfold started
  rw [List.filterMap_eq_nil_iff]
  intro e he
  cases e with
  | bodyStart tag => exact absurd rfl (hq _ he tag)
  | _ => rfl

theorem Inv.settle {s : State} (h : Inv s) (i : Nat) (ok : Bool) :
    Inv (s.step (.settle i ok)) := by
  rcases h.single with ⟨hl, hr⟩ | ⟨p, hl, hr⟩
  · exact Eq.mpr (congrArg Inv (show s.step (.settle i ok) = s by simp [State.step, hl])) h
  · cases i with
    | succ j =>
      exact Eq.mpr (congrArg Inv (show s.step (.settle (j + 1) ok) = s by
        simp [State.step, hl])) h
    | zero =>
      cases p with
      | preDelay t =>
        exact Eq.mpr (congrArg Inv (show s.step (.settle 0 ok) = s by
          simp only [State.step, hl, List.get?])) h
      | postDelay t =>
        exact Eq.mpr (congrArg Inv (show s.step (.settle 0 ok) = s by
          simp only [State.step, hl, List.get?])) h
      | body t =>
        obtain ⟨pre, hlog, hpre⟩ : ∃ pre, s.log = pre ++ [.bodyStart t.tag] ∧ Settled pre := by
          have := h.flight
          rw [hl] at this
          exact this
        have hord := h.order
        rw [hl] at hord
        simp only [waiting, List.filterMap_cons, List.filterMap_nil, List.append_nil] at hord
        -- the events that end an iteration start no body
        have hstart : ∀ extra : List Event, (∀ e ∈ extra, ∀ t', e ≠ .bodyStart t') →
            started (s.log ++ extra) ++ s.list.map (fun t => t.tag) =
              List.range' 1 s.tagNumber := by
          intro extra hq
          rw [started_append, started_quiet extra hq, List.append_nil]
          exact hord
        cases ok with
        | false =>
          have hstep : s.step (.settle 0 false) =
              continueLoop { s with log := s.log ++ [.bodyEnd t.tag false] } 0 := by
            simp [State.step, hl]
          have hq : ∀ e ∈ [Event.bodyEnd t.tag false], ∀ t', e ≠ .bodyStart t' := by
            intro e he t'
            simp only [List.mem_singleton] at he
            subst he
            intro hc; cases hc
          rw [hstep]
          obtain ⟨f1, f2, f3, f4, f5⟩ := continueLoop_fields
            { s with log := s.log ++ [.bodyEnd t.tag false] } (.body t) hl
          apply Inv.of_test { s with log := s.log ++ [.bodyEnd t.tag false] }
            hr _ _ _ _ f1 f2 f3 f4 f5
          · exact h.serial.append_noStart hq
          · show Settled (s.log ++ [.bodyEnd t.tag false])
            rw [hlog]
            have := hpre.after_body t.tag false [] (by intro e he; cases he)
            simpa using this
          · exact hstart _ hq
        | true =>
          by_cases hd : t.endDelay ≠ 0
          · have hstep : s.step (.settle 0 true) =
                { s with loops := [.postDelay t],
                         log := s.log ++ [.bodyEnd t.tag true, .postDelayStart t.tag] } := by
              simp [State.step, hl, hd]
            have hq : ∀ e ∈ [Event.bodyEnd t.tag true, Event.postDelayStart t.tag],
                ∀ t', e ≠ .bodyStart t' := by
              intro e he t'
              simp only [List.mem_cons, List.mem_singleton, List.not_mem_nil, or_false] at he
              rcases he with he | he <;> subst he <;> intro hc <;> cases hc
            rw [hstep]
            refine ⟨Or.inr ⟨_, rfl, hr⟩, ?_, h.serial.append_noStart hq, ⟨pre, ?_, hpre⟩⟩
            · show started (s.log ++ _) ++ waiting [.postDelay t] ++ _ = _
              simp only [waiting, List.filterMap_cons, List.filterMap_nil, List.append_nil]
              exact hstart _ hq
            · show s.log ++ _ = _
              rw [hlog]
              simp
          · have hstep : s.step (.settle 0 true) = continueLoop
                { s with log := s.log ++ [.bodyEnd t.tag true] ++ callbackEvents t } 0 := by
              simp [State.step, hl, hd]
            have hq : ∀ e ∈ [Event.bodyEnd t.tag true] ++ callbackEvents t,
                ∀ t', e ≠ .bodyStart t' := by
              intro e he t'
              rcases List.mem_append.mp he with he | he
              · simp only [List.mem_singleton] at he
                subst he
                intro hc; cases hc
              · exact (callbackEvents_quiet t e he).1 t'
            rw [hstep]
            obtain ⟨f1, f2, f3, f4, f5⟩ := continueLoop_fields
              { s with log := s.log ++ [.bodyEnd t.tag true] ++ callbackEvents t } (.body t) hl
            apply Inv.of_test
              { s with log := s.log ++ [.bodyEnd t.tag true] ++ callbackEvents t }
              hr _ _ _ _ f1 f2 f3 f4 f5
            · have := h.serial.append_noStart hq
              simpa [List.append_assoc] using this
            · show Settled (s.log ++ [.bodyEnd t.tag true] ++ callbackEvents t)
              rw [hlog]
              exact hpre.after_body t.tag true _ (callbackEvents_quiet t)
            · have := hstart _ hq
              simpa [List.append_assoc] using this

theorem Inv.queueing_step {s : State} (h : Inv s) (a : Action) (ha : a.isQueueing = true) :
    Inv (s.step a) := by
  cases a with
  | push option => exact h.push option
  | timer i => exact h.timer i
  | settle i ok => exact h.settle i ok
  | unshift option => cases ha
  | rmEvent option isTag => cases ha

theorem Inv.queueing_exec (actions : List Action) : ∀ {s : State}, Inv s →
    (∀ a ∈ actions, a.isQueueing = true) → Inv (s.exec actions) := by
  induction actions with
  | nil => intro s h _; exact h
  | cons a rest ih =>
    intro s h hq
    exact ih (h.queueing_step a (hq a (List.mem_cons_self _ _)))
      (fun b hb => hq b (List.mem_cons_of_mem _ hb))

theorem tagNumber_step (s : State) (a : Action) (ha : a.isQueueing = true) :
    (s.step a).tagNumber = s.tagNumber + (if a.isPush = true then 1 else 0) := by
  cases a with
  | push option =>
    simp only [State.step, Action.isPush, if_true]
    rw [(run_list_sublist _).2]
    rfl
  | unshift option => cases ha
  | rmEvent option isTag => cases ha
  | timer i =>
    simp only [State.step, Action.isPush, Bool.false_eq_true, if_false, Nat.add_zero]
    split
    · rfl
    · rw [(continueLoop_list_sublist _ i).2]
    · rfl
  | settle i ok =>
    simp only [State.step, Action.isPush, Bool.false_eq_true, if_false, Nat.add_zero]
    split
    · split
      · split
        · rfl
        · rw [(continueLoop_list_sublist _ i).2]
      · rw [(continueLoop_list_sublist _ i).2]
    · rfl

theorem tagNumber_exec (actions : List Action) : ∀ (s : State),
    (∀ a ∈ actions, a.isQueueing = true) →
    (s.exec actions).tagNumber = s.tagNumber + (actions.filter Action.isPush).length := by
  induction actions with
  | nil => intro s _; rfl
  | cons a rest ih =>
    intro s hq
    rw [exec_cons, ih _ (fun b hb => hq b (List.mem_cons_of_mem _ hb)),
      tagNumber_step s a (hq a (List.mem_cons_self _ _))]
    cases h : a.isPush
    · simp [List.filter_cons, h]
    · simp [List.filter_cons, h]
      omega

theorem push_running (s : State) (hr : s.isRunning = true) (option : TaskOption) :
    s.step (.push option) =
      { s with tagNumber := s.tagNumber + 1, list := s.list ++ [(formatOption s option).2] } := by
  simp [State.step, run, hr, formatOption]

/-- Claim C11, as the code has it. A task whose body fails gets no post-delay: after
the pushes of A (with `endDelay` 100) and B, the failure of the body of A starts the
body of B at once. -/
theorem eventList_failed_body_skips_postDelay :
    (State.init.exec [.push (plainTask 1 100), .push (plainTask 2 0), .settle 0 false]).log =
      [.bodyStart 1, .bodyEnd 1 false, .bodyStart 2] ∧
    (State.init.exec [.push (plainTask 1 100), .push (plainTask 2 0), .settle 0 false]).loops =
      [.body (plainEntry 2 0 2)] := by
  decide

/-- Claim C11, amended. In every state that pushes, elapsed sleeps and settled
bodies lead to: there is at most one drain loop, and `isRunning` holds exactly
while there is one; the k-th push hands out tag k; the bodies started so far, the
task waiting for its pre-delay and the pending tasks are, in this order, the tasks
1, 2, .. in push order; whenever a body is started, every body started before it
has settled and every post-delay started before it has elapsed; a body that
resolves for a task with a non-zero `endDelay` starts the post-delay and no body;
a push while the worker runs only appends the task; and a body that fails takes
the loop straight back to its `while` test, with neither post-delay nor callback. -/
theorem eventList_push_serial (actions : List Action)
    (hq : ∀ a ∈ actions, a.isQueueing = true) :
    ((State.init.exec actions).loops.length ≤ 1 ∧
      ((State.init.exec actions).isRunning = true ↔
        (State.init.exec actions).loops.length = 1)) ∧
    ((State.init.exec actions).tagNumber = (actions.filter Action.isPush).length ∧
      ∀ option, (formatOption (State.init.exec actions) option).2.tag =
        (actions.filter Action.isPush).length + 1) ∧
    started (State.init.exec actions).log ++ waiting (State.init.exec actions).loops ++
        (State.init.exec actions).list.map (fun t => t.tag) =
      List.range' 1 (actions.filter Action.isPush).length ∧
    (∀ pre t post, (State.init.exec actions).log = pre ++ Event.bodyStart t :: post →
      (∀ u, Event.bodyStart u ∈ pre → ∃ ok, Event.bodyEnd u ok ∈ pre) ∧
      (∀ u, Event.postDelayStart u ∈ pre → Event.postDelayEnd u ∈ pre)) ∧
    (∀ t, (State.init.exec actions).loops = [.body t] → t.endDelay ≠ 0 →
      (State.init.exec actions).step (.settle 0 true) =
        { State.init.exec actions with
          loops := [.postDelay t],
          log := (State.init.exec actions).log ++
            [.bodyEnd t.tag true, .postDelayStart t.tag] }) ∧
    ((State.init.exec actions).isRunning = true → ∀ option,
      (State.init.exec actions).step (.push option) =
        { State.init.exec actions with
          tagNumber := (State.init.exec actions).tagNumber + 1,
          list := (State.init.exec actions).list ++
            [(formatOption (State.init.exec actions) option).2] }) ∧
    (∀ t, (State.init.exec actions).loops = [.body t] →
      (State.init.exec actions).step (.settle 0 false) =
        continueLoop
          { State.init.exec actions with
            log := (State.init.exec actions).log ++ [.bodyEnd t.tag false] } 0) := by
  have hinv : Inv (State.init.exec actions) := Inv.queueing_exec actions Inv.init hq
  have htag : (State.init.exec actions).tagNumber = (actions.filter Action.isPush).length := by
    rw [tagNumber_exec actions State.init hq]
    simp [State.init]
  refine ⟨?_, ⟨htag, ?_⟩, ?_, ?_, ?_, ?_, ?_⟩
  · rcases hinv.single with ⟨hl, hr⟩ | ⟨p, hl, hr⟩
    · simp [hl, hr]
    · simp [hl, hr]
  · intro option
    simp [formatOption, htag]
  · rw [← htag]
    exact hinv.order
  · intro pre t post hlog
    exact hinv.serial pre t post hlog
  · intro t hl hd
    exact step_settle_ok_delay _ t hl hd
  · intro hr option
    exact push_running _ hr option
  · intro t hl
    exact step_settle_fail _ t hl

/-- Claim C11 (amended) at three pushes: after the body of the first task has resolved
and its post-delay of 100 ms has elapsed, the bodies of tasks 1 and 2 have been
started, in this order, and task 3 is pending. -/
theorem eventList_push_serial_witness :
    (∀ a ∈ samplePushes, a.isQueueing = true) ∧
    (State.init.exec samplePushes).log =
      [.bodyStart 1, .bodyEnd 1 true, .postDelayStart 1, .postDelayEnd 1, .bodyStart 2] ∧
    started (State.init.exec samplePushes).log ++ waiting (State.init.exec samplePushes).loops ++
        (State.init.exec samplePushes).list.map (fun t => t.tag) =
      List.range' 1 (samplePushes.filter Action.isPush).length :=
  ⟨by decide, by decide, (eventList_push_serial samplePushes (by decide)).2.2.1⟩

/-- Claim C12. While the body of `t` is in flight, its failure takes the drain loop
back to the `while` test: nothing leaves `run`. When the host then lets the loop
work off the pending tasks, whatever each body does (`outcome`), the bodies of all
of them are started, in queue order, the list is exhausted, no loop is left and
`isRunning` is false; a push from there starts a drain loop for the new task. -/
theorem eventList_failure_keeps_draining (outcome : Nat → Bool) (s : State) (t : Task)
    (hl : s.loops = [.body t]) (hr : s.isRunning = true) :
    s.step (.settle 0 false) =
      continueLoop { s with log := s.log ++ [.bodyEnd t.tag false] } 0 ∧
    ((s.step (.settle 0 false)).exec (schedule outcome s.list)).isRunning = false ∧
    ((s.step (.settle 0 false)).exec (schedule outcome s.list)).loops = [] ∧
    ((s.step (.settle 0 false)).exec (schedule outcome s.list)).list = [] ∧
    started ((s.step (.settle 0 false)).exec (schedule outcome s.list)).log =
      started s.log ++ s.list.map (fun t => t.tag) ∧
    ∀ option,
      (((s.step (.settle 0 false)).exec (schedule outcome s.list)).step
        (.push option)).isRunning = true ∧
      (((s.step (.settle 0 false)).exec (schedule outcome s.list)).step (.push option)).loops =
        [(enter (formatOption ((s.step (.settle 0 false)).exec (schedule outcome s.list))
          option).2).1] := by
  have hstep := step_settle_fail s t hl
  have hd := drain outcome s.list { s with log := s.log ++ [.bodyEnd t.tag false] } (.body t)
    hl hr rfl
  rw [← hstep] at hd
  obtain ⟨d1, d2, d3, d4, d5⟩ := hd
  refine ⟨hstep, d1, d2, d3, ?_, ?_⟩
  · rw [d5]
    simp [started_append, started]
  · intro option
    generalize (s.step (.settle 0 false)).exec (schedule outcome s.list) = σ at d1 d2 d3
    constructor
    · simp [State.step, run, d1, formatOption, next, d3]
    · simp [State.step, run, d1, formatOption, next, d3, d2]

/-- Claim C12 at tasks A, B, C pushed in this order: the body of A fails, that of B
resolves and that of C fails; all three bodies have been started, in order, and
the queue is idle. -/
theorem eventList_failure_keeps_draining_witness :
    sampleQueue.loops = [.body (plainEntry 1 100 1)] ∧
    sampleQueue.isRunning = true ∧
    started ((sampleQueue.step (.settle 0 false)).exec
      (schedule (fun tag => tag == 2) sampleQueue.list)).log = [1, 2, 3] ∧
    ((sampleQueue.step (.settle 0 false)).exec
      (schedule (fun tag => tag == 2) sampleQueue.list)).isRunning = false :=
  ⟨by decide, by decide,
   (eventList_failure_keeps_draining (fun tag => tag == 2) sampleQueue (plainEntry 1 100 1) (by decide)
      (by decide)).2.2.2.2.1,
   (eventList_failure_keeps_draining (fun tag => tag == 2) sampleQueue (plainEntry 1 100 1) (by decide)
      (by decide)).2.1⟩

theorem filter_tag_eq_filter_ne (l : List Task) (B : Task)
    (hnd : (l.map fun t => t.tag).Nodup) (hB : B ∈ l) :
    l.filter (fun t => decide (t.tag ≠ B.tag)) = l.filter (fun t => decide (t ≠ B)) := by
  apply List.filter_congr
  intro t ht
  by_cases h : t = B
  · subst h; simp
  · have : t.tag ≠ B.tag := by
      intro hc
      exact h (List.inj_on_of_nodup_map hnd ht hB hc)
    simp [h, this]

/-- Claim C13. `rmEvent(x)` leaves the pending tasks whose tag is not `x`, in their
order, and `rmEvent(f, false)` those whose `fn` is not `f`; nothing else of the
queue changes. In every state an `EventList` can reach, the pending tasks have
distinct tags and the tag a push or unshift hands out next is above all of them,
so that `rmEvent` with the tag of a pending task `B` leaves the pending tasks
other than `B`. -/
theorem eventList_rmEvent (s : State) (x : Nat) :
    rmEvent s x true = { s with list := s.list.filter fun t => decide (t.tag ≠ x) } ∧
    rmEvent s x false = { s with list := s.list.filter fun t => decide (t.fn ≠ x) } ∧
    s.step (.rmEvent x true) = rmEvent s x true ∧
    s.step (.rmEvent x false) = rmEvent s x false ∧
    ∀ actions : List Action, s = State.init.exec actions →
      (s.list.map fun t => t.tag).Nodup ∧
      (∀ option, ∀ t ∈ s.list, t.tag < (formatOption s option).2.tag) ∧
      ∀ B ∈ s.list, (rmEvent s B.tag true).list = s.list.filter fun t => decide (t ≠ B) := by
  refine ⟨?_, ?_, rfl, rfl, ?_⟩
  · simp only [rmEvent, Bool.true_and, Bool.not_true, Bool.false_and, Bool.or_false]
    congr 1
    apply List.filter_congr
    intro t _
    by_cases h : x = t.tag
    · simp [h]
    · have h' : t.tag ≠ x := fun hc => h hc.symm
      simp [h, h']
  · simp only [rmEvent, Bool.false_and, Bool.not_false, Bool.true_and, Bool.false_or]
    congr 1
    apply List.filter_congr
    intro t _
    by_cases h : x = t.fn
    · simp [h]
    · have h' : t.fn ≠ x := fun hc => h hc.symm
      simp [h, h']
  · intro actions hs
    have hf : TagsFresh s := hs ▸ TagsFresh.after_exec actions tagsFresh_init
    refine ⟨hf.1, ?_, ?_⟩
    · intro option t ht
      have := hf.2 t ht
      simp only [formatOption]
      omega
    · intro B hB
      rw [← filter_tag_eq_filter_ne s.list B hf.1 hB]
      simp only [rmEvent, Bool.true_and, Bool.not_true, Bool.false_and, Bool.or_false]
      apply List.filter_congr
      intro t _
      by_cases h : B.tag = t.tag
      · simp [h]
      · have h' : t.tag ≠ B.tag := fun hc => h hc.symm
        simp [h, h']

/-- Claim C13 at tasks A, B, C pushed in this order, while the body of A is in
flight: B and C are pending, and `rmEvent` with the tag of B leaves C. -/
theorem eventList_rmEvent_witness :
    sampleQueue = State.init.exec
      [.push (plainTask 1 100), .push (plainTask 2 0), .push (plainTask 3 0)] ∧
    plainEntry 2 0 2 ∈ sampleQueue.list ∧
    sampleQueue.list = [plainEntry 2 0 2, plainEntry 3 0 3] ∧
    (rmEvent sampleQueue (plainEntry 2 0 2).tag true).list =
      sampleQueue.list.filter (fun t => decide (t ≠ plainEntry 2 0 2)) ∧
    (rmEvent sampleQueue 2 true).list = [plainEntry 3 0 3] :=
  ⟨rfl, by decide, by decide,
   ((eventList_rmEvent sampleQueue 0).2.2.2.2 _ rfl).2.2 (plainEntry 2 0 2) (by decide),
   by decide⟩

end EventList
